import Mathlib

/-!
Verification development for the feed.fm Javascript-SDK Speaker and Sound
components (src/src/audioContextSpeaker.js and the Sound constructor).

JS numbers are modelled as rationals.  A field that may hold the JS values
undefined or NaN is modelled as Option ℚ, with none standing for those falsy,
comparison-defeating values.  Math.pow(10, x) is transcendental, so every
definition that needs it takes a function parameter P : ℚ → ℚ standing for
that power function; no theorem below depends on properties of P.

The source file contains two near-duplicate Speaker variants (a Howler-based
one and a Web-Audio AudioContext one).  The state machine below follows the
AudioContext variant; the places where the Howler variant differs (its
destroySound) are embedded separately and named accordingly.
-/

namespace FeedSpeaker

/-- JS truthiness of an optional number: none stands for undefined or NaN and
is falsy, and the number 0 is falsy. -/
def jsTruthy : Option ℚ → Bool
  | none => false
  | some q => q != 0

/-- JS strict inequality a !== b between two optionally-defined numbers:
undefined !== undefined is false, undefined !== number is true. -/
def jsStrictNeq : Option ℚ → Option ℚ → Bool
  | some a, some b => a != b
  | none, none => false
  | _, _ => true

/-- Options accepted by Speaker.create (the numeric fields of
optionsAndCallbacks; the unary plus in the Sound constructor turns an absent
field into NaN, which none models). -/
structure SoundConfig where
  startPosition : Option ℚ := none
  endPosition : Option ℚ := none
  fadeInSeconds : Option ℚ := none
  fadeOutSeconds : Option ℚ := none
  gain : Option ℚ := none
  deriving DecidableEq, Repr

/-- The Sound record: the per-request handle built by the Sound constructor
in sound.js.  fadeOutStart and fadeOutEnd are none when the constructor never
assigned them (fadeOutSeconds falsy), matching the undefined fields. -/
structure Sound where
  url : String
  startPosition : Option ℚ
  endPosition : Option ℚ
  fadeInSeconds : Option ℚ
  fadeOutSeconds : Option ℚ
  fadeInStart : ℚ
  fadeInEnd : ℚ
  fadeOutStart : Option ℚ
  fadeOutEnd : Option ℚ
  gain : ℚ
  deriving DecidableEq, Repr

/-- The Sound constructor (sound.js): derives the fade-in window from the
start position, the provisional fade-out window from the end position (0,0
when no end position is configured), and defaults gain to 0. -/
def Sound.make (url : String) (options : SoundConfig) : Sound :=
  let fadeInStart : ℚ :=
    if jsTruthy options.fadeInSeconds then
      if jsTruthy options.startPosition then options.startPosition.getD 0 / 1000 else 0
    else 0
  let fadeInEnd : ℚ :=
    if jsTruthy options.fadeInSeconds then
      fadeInStart + options.fadeInSeconds.getD 0
    else 0
  let fadeOut : Option ℚ × Option ℚ :=
    if jsTruthy options.fadeOutSeconds then
      if jsTruthy options.endPosition then
        (some (options.endPosition.getD 0 / 1000 - options.fadeOutSeconds.getD 0),
         some (options.endPosition.getD 0 / 1000))
      else
        (some 0, some 0)
    else (none, none)
  { url := url
    startPosition := options.startPosition
    endPosition := options.endPosition
    fadeInSeconds := options.fadeInSeconds
    fadeOutSeconds := options.fadeOutSeconds
    fadeInStart := fadeInStart
    fadeInEnd := fadeInEnd
    fadeOutStart := fadeOut.1
    fadeOutEnd := fadeOut.2
    gain := options.gain.getD 0 }

/-- Sound.prototype.gainAdjustedVolume: volume/100 when gain is 0, otherwise
the clamped dB-adjusted value; P stands for the function x maps to 10 ^ x. -/
def Sound.gainAdjustedVolume (P : ℚ → ℚ) (s : Sound) (volume : ℚ) : ℚ :=
  if s.gain = 0 then volume / 100
  else max (min ((volume / 100) * (50 * P (s.gain / 20))) 100) 0 / 100

/-- The volume envelope computed inside Speaker.setVolumeOn (source name
underscore setVolume): the branch cascade over the fade-in and fade-out
windows.  gav is the already computed gain-adjusted volume.  JS comparisons
against an undefined fade-out bound are false, so both fade-out branches are
skipped when the bounds are undefined or of mixed definedness. -/
def calculatedVolume (s : Sound) (currentTime gav : ℚ) : ℚ :=
  if s.fadeInStart ≠ s.fadeInEnd ∧ currentTime < s.fadeInStart then 0
  else if s.fadeInStart ≠ s.fadeInEnd ∧ s.fadeInStart ≤ currentTime ∧ currentTime ≤ s.fadeInEnd then
    (currentTime - s.fadeInStart) / (s.fadeInEnd - s.fadeInStart) * gav
  else
    match s.fadeOutStart, s.fadeOutEnd with
    | some a, some b =>
      if a ≠ b ∧ b < currentTime then 0
      else if a ≠ b ∧ a ≤ currentTime ∧ currentTime ≤ b then
        (1 - (currentTime - a) / (b - a)) * gav
      else gav
    | _, _ => gav

/-- Fade-out finalization performed when a play start call resolves
(configure fade-out now that metadata is loaded): only when fadeOutSeconds is
truthy and fadeOutEnd is exactly 0 are the bounds recomputed from the media
duration. -/
def Sound.configureFadeOut (s : Sound) (duration : ℚ) : Sound :=
  if jsTruthy s.fadeOutSeconds ∧ s.fadeOutEnd = some 0 then
    { s with fadeOutStart := some (duration - s.fadeOutSeconds.getD 0),
             fadeOutEnd := some duration }
  else s

/-- JS comparison t >= x where x may be undefined (comparisons against
undefined are false). -/
def jsGE (t : ℚ) : Option ℚ → Bool
  | some a => t ≥ a
  | none => false

/-- The SILENCE url constant (the data-url or hosted silence asset). -/
def SILENCE : String := "silence"

/-- DEFAULT volume assigned to a fresh audio player. -/
def DEFAULT_VOLUME : ℚ := 1

/-- One platform audio element: the AudioPlayer wrapper fields used by the
Speaker (src, paused, currentTime, duration; duration is the decoded buffer
duration, known from creation in the AudioContext variant). -/
structure AudioState where
  src : String
  paused : Bool
  currentTime : ℚ
  duration : ℚ
  deriving DecidableEq, Repr

/-- One slot record: the soundSource object grouping an audio element, the
bound sound (none until a play start call resolves), the cached volume, the
gain node value and the deferred-pause flag.  Slot records live in a store
and the three roles are pointers into it, so that closures which captured a
slot object keep acting on it after role swaps or replacement. -/
structure Slot where
  url : String
  sound : Option Nat
  volume : ℚ
  gainValue : ℚ
  pauseAfterPlay : Bool
  audio : AudioState
  deriving DecidableEq, Repr

/-- A freshly created audio player slot for a url (createAudioPlayer): no
bound sound, default volume, not yet playing, at time 0. -/
def Slot.fresh (url : String) (duration : ℚ) : Slot :=
  { url := url
    sound := none
    volume := DEFAULT_VOLUME
    gainValue := 1
    pauseAfterPlay := false
    audio := { src := url, paused := true, currentTime := 0, duration := duration } }

/-- Events a Sound can emit to its subscribers. -/
inductive Ev where
  | play
  | pause
  | elapse
  | finish (err : Bool)
  deriving DecidableEq, Repr

/-- Pending asynchronous continuations: the prepare-then-assemble chain of
playSound (or a bare prepare from create or the prepare retry), the start
call resolution inside assemblePlay (which captured the slot object and the
sound), and the two resume resolutions of the resume branch. -/
inductive Kont where
  | prepThen (url : String) (startPosition : Option ℚ) (assemble : Option Nat)
  | playK (sid : Nat) (slotRef : Nat)
  | resumeK (sid : Nat)
  | fadeResumeK (sid : Nat)
  deriving DecidableEq, Repr

/-- Association list lookup for the slot store and the sound table (models
JS object property access). -/
def assocGet {α : Type} : List (Nat × α) → Nat → Option α
  | [], _ => none
  | p :: t, k => if p.1 = k then some p.2 else assocGet t k

/-- Association list update (keys are never duplicated by construction;
models JS object property assignment). -/
def assocSet {α : Type} : List (Nat × α) → Nat → α → List (Nat × α)
  | [], _, _ => []
  | p :: t, k, v => (if p.1 = k then (k, v) else p) :: assocSet t k v

/-- The Speaker state: session volume, the slot store with the three role
pointers (none before initializeAudio), the pending prepare url, the table
of all created Sounds, the registry of outstanding (non-destroyed) Sounds,
the set of Sounds whose event handlers were unsubscribed, counters for fresh
ids, the pending asynchronous continuations, and the trace of events
delivered to subscribers so far. -/
structure Machine where
  vol : ℚ
  store : List (Nat × Slot)
  activeId : Option Nat
  fadingId : Option Nat
  preparingId : Option Nat
  nextSlotId : Nat
  prepareWhenReady : Option String
  sounds : List (Nat × Sound)
  registry : List Nat
  off : List Nat
  nextId : Nat
  konts : List Kont
  trace : List (Nat × Ev)
  deriving DecidableEq, Repr

/-- The Speaker singleton before initializeAudio has run. -/
def Machine.init : Machine :=
  { vol := 100, store := [], activeId := none, fadingId := none,
    preparingId := none, nextSlotId := 0, prepareWhenReady := none,
    sounds := [], registry := [], off := [], nextId := 0, konts := [],
    trace := [] }

/-- Modelled from the spec: the Events mixin (imported from events.js, which
is not part of the sources) delivers a triggered event to the subscribers of
a Sound, and off() removes every subscription; so a trigger reaches the
trace exactly when off() has not been called for that Sound. -/
def Machine.deliver (m : Machine) (sid : Nat) (e : Ev) : Machine :=
  if sid ∈ m.off then m else { m with trace := m.trace ++ [(sid, e)] }

/-- Replace the slot stored under a slot id. -/
def Machine.setSlot (m : Machine) (k : Nat) (sl : Slot) : Machine :=
  { m with store := assocSet m.store k sl }

/-- Update the slot stored under a slot id, when present. -/
def Machine.updSlot (m : Machine) (k : Nat) (f : Slot → Slot) : Machine :=
  match assocGet m.store k with
  | some sl => m.setSlot k (f sl)
  | none => m

/-- Speaker setVolume helper (source name with a leading underscore): reads
the current time of the given slot, computes the envelope volume for the
given sound (or the bound sound when none is passed) and writes it to the
gain node and the cached slot volume.  A missing sound would be a JS type
error at the call site; the call sites guard against it, and the model
absorbs it as a no-op. -/
def Machine.setVolumeOn (P : ℚ → ℚ) (m : Machine) (slotId : Nat)
    (soundArg : Option Sound) : Machine :=
  match assocGet m.store slotId with
  | none => m
  | some sl =>
    match (match soundArg with
           | some s => some s
           | none => sl.sound.bind (assocGet m.sounds)) with
    | none => m
    | some s =>
      let gav := s.gainAdjustedVolume P m.vol
      let cv := calculatedVolume s sl.audio.currentTime gav
      m.setSlot slotId { sl with gainValue := cv, volume := cv }

/-- Speaker prepare helper (source name with a leading underscore),
synchronous part: clears the pending prepare url; when the preparing slot is
not already pointed at the url, starts the asynchronous creation of a new
player (recorded as a prepThen continuation, carrying the assemblePlay
chained onto it by playSound when there is one); otherwise optionally seeks
the preparing audio to the start position. -/
def Machine.prepareSync (m : Machine) (url : String) (sp : Option ℚ)
    (assemble : Option Nat) : Machine :=
  let m1 := { m with prepareWhenReady := none }
  match m1.preparingId with
  | none => m1
  | some pid =>
    match assocGet m1.store pid with
    | none => m1
    | some psl =>
      if psl.audio.src ≠ url then
        { m1 with konts := m1.konts ++ [Kont.prepThen url sp assemble] }
      else if jsTruthy sp ∧ psl.audio.currentTime ≠ sp.getD 0 then
        m1.setSlot pid
          { psl with audio := { psl.audio with currentTime := sp.getD 0 / 1000 } }
      else m1

/-- Speaker.prepare: with no context, save the url for later; when the
active audio is at silence, prepare immediately; otherwise keep the url
pending.  (The loaded-buffer heuristic of this variant is commented out in
the source.) -/
def Machine.prepare (m : Machine) (url : String) : Machine :=
  match m.activeId with
  | none => { m with prepareWhenReady := some url }
  | some aid =>
    match assocGet m.store aid with
    | none => { m with prepareWhenReady := some url }
    | some asl =>
      if asl.audio.src = SILENCE then m.prepareSync url (some 0) none
      else { m with prepareWhenReady := some url }

/-- Modelled from the spec: uniqueId (imported from util.js, which is not in
the sources) issues a process-unique id per call; modelled by the nextId
counter.  Speaker.create: allocate and register the Sound, then either save
the url as the pending prepare url (no context yet), or prepare it now when
the preparing slot sits at silence, or do nothing. -/
def Machine.create (m : Machine) (url : String) (options : SoundConfig) : Machine :=
  let sid := m.nextId
  let s := Sound.make url options
  let m1 := { m with sounds := m.sounds ++ [(sid, s)],
                     registry := m.registry ++ [sid], nextId := sid + 1 }
  match m1.activeId with
  | none => { m1 with prepareWhenReady := some url }
  | some _ =>
    match m1.preparingId with
    | none => m1
    | some pid =>
      match assocGet m1.store pid with
      | none => m1
      | some psl =>
        if psl.audio.src = SILENCE then m1.prepareSync s.url s.startPosition none
        else m1

/-- Resolution of initializeAudio: on the first call three players are
created, two at silence and the third at the pending prepare url if any;
the pending url is then cleared.  Subsequent calls are no-ops. -/
def Machine.initResolve (m : Machine) (dur : String → ℚ) : Machine :=
  match m.activeId with
  | some _ => m
  | none =>
    let u := m.prepareWhenReady.getD SILENCE
    let i := m.nextSlotId
    { m with
      store := m.store ++ [(i, Slot.fresh SILENCE (dur SILENCE)),
                           (i + 1, Slot.fresh SILENCE (dur SILENCE)),
                           (i + 2, Slot.fresh u (dur u))],
      activeId := some i, fadingId := some (i + 1), preparingId := some (i + 2),
      nextSlotId := i + 3, prepareWhenReady := none }

/-- The assemblePlay closure of playSound, synchronous part: swap the active
and preparing role pointers, clear the new active slot sound, set its
volume for the incoming sound, silence and finish whatever sound the slot
now holding the preparing role still had, then start playback (which clears
the paused flag at once and leaves the start call resolution pending as a
playK continuation capturing the slot object). -/
def Machine.preemptPreparing (m : Machine) (aid : Nat) : Machine :=
  match assocGet m.store aid with
  | some psl =>
    match psl.sound with
    | some fin =>
      ((m.setSlot aid
        { psl with sound := none,
                   audio := { psl.audio with src := SILENCE } }).deliver fin (Ev.finish false))
    | none => m
  | none => m

/-- The assemblePlay closure continued: swap the active and preparing role
pointers, clear the new active slot sound, set its volume for the incoming
sound, silence and finish whatever the preparing role still held, then start
playback (clearing the paused flag at once, the start call resolution left
pending as a playK continuation capturing the slot object). -/
def Machine.assemblePlay (P : ℚ → ℚ) (m : Machine) (s : Sound) (sid : Nat) : Machine :=
  match m.activeId, m.preparingId with
  | some aid, some pid =>
    let m1 := { m with activeId := some pid, preparingId := some aid }
    let m2 := m1.updSlot pid (fun sl => { sl with sound := none })
    let m3 := m2.setVolumeOn P pid (some s)
    let m4 := m3.preemptPreparing aid
    let m5 := m4.updSlot pid (fun sl => { sl with audio := { sl.audio with paused := false } })
    { m5 with konts := m5.konts ++ [Kont.playK sid pid] }
  | _, _ => m

/-- Resolution of the start call issued by assemblePlay.  On success: if the
sound has been destroyed meanwhile (absent from the registry), pause the
captured slot and point it at silence when it still holds the sound url, and
emit nothing; otherwise bind the sound, finalize its fade-out bounds from
the now known duration, seek to the start position if one was given, emit
play, and then honor the deferred-pause flag (or emit pause when the audio
still reports itself paused).  On failure: emit finish with the error. -/
def Machine.playKResolve (m : Machine) (sid : Nat) (slotRef : Nat) (ok : Bool) : Machine :=
  match assocGet m.sounds sid with
  | none => m
  | some s =>
    if ok then
      if sid ∈ m.registry then
        match assocGet m.store slotRef with
        | none => m
        | some me =>
          let s1 := s.configureFadeOut me.audio.duration
          let m1 := { m with sounds := assocSet m.sounds sid s1 }
          let me1 := { me with sound := some sid }
          let me2 :=
            if jsTruthy s.startPosition then
              { me1 with audio := { me1.audio with currentTime := s.startPosition.getD 0 / 1000 } }
            else me1
          let wasPaused := me2.audio.paused
          let m2 := m1.setSlot slotRef me2
          let m3 := m2.deliver sid Ev.play
          if me2.pauseAfterPlay then
            m3.updSlot slotRef (fun sl => { sl with audio := { sl.audio with paused := true } })
          else if wasPaused then m3.deliver sid Ev.pause
          else m3
      else
        match assocGet m.store slotRef with
        | none => m
        | some me =>
          if me.audio.src = s.url then
            m.setSlot slotRef
              { me with audio := { me.audio with paused := true, src := SILENCE } }
          else m
    else m.deliver sid (Ev.finish true)

/-- Resolution of the resume start call: on success emit play; on failure
detach whatever sound the slot currently holding the active role has and
emit finish for the resumed sound. -/
def Machine.resumeKResolve (m : Machine) (sid : Nat) (ok : Bool) : Machine :=
  if ok then m.deliver sid Ev.play
  else
    let m1 :=
      match m.activeId with
      | some aid => m.updSlot aid (fun sl => { sl with sound := none })
      | none => m
    m1.deliver sid (Ev.finish false)

/-- Resolution of the fading-slot resume call: success only logs; failure
detaches the fading sound and silences the fading audio, with no event. -/
def Machine.fadeResumeKResolve (m : Machine) (ok : Bool) : Machine :=
  if ok then m
  else
    match m.fadingId with
    | some fid =>
      m.updSlot fid (fun sl =>
        { sl with sound := none, audio := { sl.audio with src := SILENCE } })
    | none => m

/-- Resolution of an asynchronous player creation: install the fresh player
as the preparing slot, then run the chained assemblePlay when the prepare
was issued by playSound.  A rejected creation has no handler in the source
(the then-chain is simply never run). -/
def Machine.prepResolve (P : ℚ → ℚ) (dur : String → ℚ) (m : Machine)
    (url : String) (assemble : Option Nat) : Machine :=
  let slid := m.nextSlotId
  let m1 := { m with store := m.store ++ [(slid, Slot.fresh url (dur url))],
                     preparingId := some slid, nextSlotId := slid + 1 }
  match assemble with
  | some sid =>
    match assocGet m1.sounds sid with
    | some s => m1.assemblePlay P s sid
    | none => m1
  | none => m1

/-- Speaker playSound (source name with a leading underscore): resume the
active sound when it is the one being played (starting the resume calls for
the active and fading audio, whose resolutions are left pending), or, for a
different sound, either run assemblePlay at once when the preparing audio
already points at its url, or chain it onto a prepare. -/
def Machine.playCall (P : ℚ → ℚ) (m : Machine) (sid : Nat) : Machine :=
  match assocGet m.sounds sid with
  | none => m
  | some s =>
    match m.activeId with
    | none => m
    | some aid =>
      match assocGet m.store aid with
      | none => m
      | some asl =>
        if asl.sound = some sid then
          if asl.audio.paused then
            let m1 := m.setSlot aid { asl with audio := { asl.audio with paused := false } }
            let m2 := { m1 with konts := m1.konts ++ [Kont.resumeK sid] }
            match m2.fadingId with
            | none => m2
            | some fid =>
              match assocGet m2.store fid with
              | none => m2
              | some fsl =>
                match fsl.sound with
                | some fsid =>
                  let m3 := m2.setSlot fid { fsl with audio := { fsl.audio with paused := false } }
                  { m3 with konts := m3.konts ++ [Kont.fadeResumeK fsid] }
                | none => m2
          else m
        else
          match m.preparingId with
          | none => m
          | some pid =>
            match assocGet m.store pid with
            | none => m
            | some psl =>
              if psl.audio.src ≠ s.url then
                m.prepareSync s.url s.startPosition (some sid)
              else
                m.assemblePlay P s sid

/-- Retry of the pending prepare url at the end of a position update, when
one exists. -/
def Machine.retryPrepare (m : Machine) : Machine :=
  match m.prepareWhenReady with
  | some url => m.prepare url
  | none => m

/-- The ontimeupdate handler attached to every audio player: ignore silence;
for the fading audio with a bound sound, silence it past its end position or
just recompute its volume; for the active audio with a matching bound sound,
either force-finish at the end position, or rotate the active and fading
roles at the fade-out start and emit finish, or recompute the volume and
emit elapse; finally retry the pending prepare url if one exists. -/
def Machine.ontimeupdate (P : ℚ → ℚ) (m : Machine) (slotId : Nat) : Machine :=
  match m.activeId, m.fadingId with
  | some aid, some fid =>
    match assocGet m.store slotId with
    | none => m
    | some sl =>
      if sl.audio.src = SILENCE then m
      else if slotId = fid ∧ sl.sound.isSome then
        match sl.sound.bind (assocGet m.sounds) with
        | none => m
        | some fs =>
          if jsTruthy fs.endPosition ∧ fs.endPosition.getD 0 / 1000 ≤ sl.audio.currentTime then
            m.setSlot fid { sl with sound := none, audio := { sl.audio with src := SILENCE } }
          else m.setVolumeOn P fid none
      else if slotId ≠ aid then m
      else
        match sl.sound with
        | none => m
        | some sid =>
          match assocGet m.sounds sid with
          | none => m
          | some s =>
            if s.url ≠ sl.audio.src then m
            else
              let afterMain :=
                if jsTruthy s.endPosition ∧ s.endPosition.getD 0 / 1000 ≤ sl.audio.currentTime then
                  ((m.setSlot aid
                    { sl with sound := none,
                              audio := { sl.audio with src := SILENCE } }).deliver sid (Ev.finish false))
                else if jsTruthy s.fadeOutEnd ∧ jsGE sl.audio.currentTime s.fadeOutStart then
                  let m1 := m.setVolumeOn P aid none
                  let m2 := { m1 with activeId := some fid, fadingId := some aid }
                  let m3 := m2.updSlot fid (fun x => { x with sound := none })
                  m3.deliver sid (Ev.finish false)
                else
                  ((m.setVolumeOn P aid none).deliver sid Ev.elapse)
              afterMain.retryPrepare
  | _, _ => m

/-- A position update: the poll interval copies the context clock into the
player and triggers ontimeupdate for it. -/
def Machine.tick (P : ℚ → ℚ) (m : Machine) (slotId : Nat) (t : ℚ) : Machine :=
  match assocGet m.store slotId with
  | none => m
  | some sl =>
    (m.setSlot slotId { sl with audio := { sl.audio with currentTime := t } }).ontimeupdate P slotId

/-- The pause notification handler: emit pause for the active bound sound,
unless the player is at silence, is not the active audio, sits at its full
duration, or does not match the bound sound url. -/
def Machine.pauseEvent (m : Machine) (slotId : Nat) : Machine :=
  match m.activeId with
  | none => m
  | some aid =>
    match assocGet m.store slotId with
    | none => m
    | some sl =>
      if sl.audio.src = SILENCE then m
      else if slotId ≠ aid ∨ sl.audio.currentTime = sl.audio.duration then m
      else
        match sl.sound with
        | none => m
        | some sid =>
          match assocGet m.sounds sid with
          | none => m
          | some s => if s.url ≠ sl.audio.src then m else m.deliver sid Ev.pause

/-- The closed notification handler: silently reset the fading audio, or
detach the active bound sound and emit finish for it when the closed player
is the active one and matches it. -/
def Machine.closedEvent (m : Machine) (slotId : Nat) : Machine :=
  match m.activeId, m.fadingId with
  | some aid, some fid =>
    match assocGet m.store slotId with
    | none => m
    | some sl =>
      if sl.audio.src = SILENCE then m
      else if slotId = fid then
        m.setSlot fid { sl with sound := none, audio := { sl.audio with src := SILENCE } }
      else if slotId ≠ aid then m
      else
        match sl.sound with
        | none => m
        | some sid =>
          match assocGet m.sounds sid with
          | none => m
          | some s =>
            if s.url ≠ sl.audio.src then m
            else ((m.setSlot aid { sl with sound := none }).deliver sid (Ev.finish false))
  | _, _ => m

/-- Speaker pauseSound (source name with a leading underscore): when the
sound url matches the active audio src, either pause the active audio (sound
already bound) or raise the deferred-pause flag (start call still pending);
the fading audio is paused alongside in every case. -/
def Machine.pauseCall (m : Machine) (sid : Nat) : Machine :=
  match assocGet m.sounds sid with
  | none => m
  | some s =>
    let m1 :=
      match m.activeId with
      | none => m
      | some aid =>
        match assocGet m.store aid with
        | none => m
        | some asl =>
          if s.url = asl.audio.src then
            if asl.sound = some sid then
              m.setSlot aid { asl with audio := { asl.audio with paused := true } }
            else m.setSlot aid { asl with pauseAfterPlay := true }
          else m
    match m1.fadingId with
    | none => m1
    | some fid =>
      m1.updSlot fid (fun sl => { sl with audio := { sl.audio with paused := true } })

/-- Speaker destroySound of the AudioContext variant (source name with a
leading underscore): unsubscribe the sound, pause the active audio only when
the sound is the active bound sound, and unregister it. -/
def Machine.destroyCall (m : Machine) (sid : Nat) : Machine :=
  match assocGet m.sounds sid with
  | none => m
  | some _ =>
    let m1 := { m with off := m.off ++ [sid] }
    let m2 :=
      match m1.activeId with
      | none => m1
      | some aid =>
        match assocGet m1.store aid with
        | none => m1
        | some asl =>
          if asl.sound = some sid then
            m1.setSlot aid { asl with audio := { asl.audio with paused := true } }
          else m1
    { m2 with registry := m2.registry.filter (fun k => k ≠ sid) }

/-- Speaker destroySound of the Howler variant: unsubscribe the sound, then
pause the active audio unconditionally whenever slots exist, and unregister
the sound. -/
def Machine.destroySoundHowl (m : Machine) (sid : Nat) : Machine :=
  match assocGet m.sounds sid with
  | none => m
  | some _ =>
    let m1 := { m with off := m.off ++ [sid] }
    let m2 :=
      match m1.activeId with
      | none => m1
      | some aid =>
        m1.updSlot aid (fun sl => { sl with audio := { sl.audio with paused := true } })
    { m2 with registry := m2.registry.filter (fun k => k ≠ sid) }

/-- Speaker.flush: destroy every outstanding sound. -/
def Machine.flushCall (m : Machine) : Machine :=
  m.registry.foldl (fun acc sid => acc.destroyCall sid) m

/-- Speaker.setVolume: store the session volume and recompute the active
sound volume when one is bound. -/
def Machine.setVolumeCall (P : ℚ → ℚ) (m : Machine) (v : ℚ) : Machine :=
  let m1 := { m with vol := v }
  match m1.activeId with
  | none => m1
  | some aid =>
    match assocGet m1.store aid with
    | none => m1
    | some asl => if asl.sound.isSome then m1.setVolumeOn P aid none else m1

/-- Speaker position (source name with a leading underscore): the floor of
the active audio time in milliseconds when the sound is the active bound
sound, 0 otherwise (also when no slots exist yet). -/
def Machine.positionOf (m : Machine) (sid : Nat) : ℤ :=
  match m.activeId with
  | none => 0
  | some aid =>
    match assocGet m.store aid with
    | none => 0
    | some asl =>
      if asl.sound = some sid then ⌊asl.audio.currentTime * 1000⌋ else 0

/-- Speaker duration (source name with a leading underscore): reads
this.active.sound without a null check, so with no slots the call throws
(error); otherwise the floor of the duration in milliseconds when the sound
is the active bound sound, and 0 otherwise. -/
def Machine.durationOf (m : Machine) (sid : Nat) : Except Unit ℤ :=
  match m.activeId with
  | none => Except.error ()
  | some aid =>
    match assocGet m.store aid with
    | none => Except.error ()
    | some asl =>
      if asl.sound = some sid then Except.ok ⌊asl.audio.duration * 1000⌋ else Except.ok 0

/-- Dispatch of a pending continuation resolution: remove it and run its
handler; ok distinguishes a fulfilled from a rejected underlying call. -/
def Machine.resolveKont (P : ℚ → ℚ) (dur : String → ℚ) (m : Machine)
    (i : Nat) (ok : Bool) : Machine :=
  match m.konts.get? i with
  | none => m
  | some k =>
    let m1 := { m with konts := m.konts.eraseIdx i }
    match k with
    | Kont.prepThen url _ asm => if ok then m1.prepResolve P dur url asm else m1
    | Kont.playK sid slotRef => m1.playKResolve sid slotRef ok
    | Kont.resumeK sid => m1.resumeKResolve sid ok
    | Kont.fadeResumeK _ => m1.fadeResumeKResolve ok

/-- The operations of the Speaker system: public calls by the caller,
platform notifications, and resolutions of pending asynchronous calls. -/
inductive Op where
  | create (url : String) (options : SoundConfig)
  | initResolve
  | playCall (sid : Nat)
  | resolveKont (i : Nat) (ok : Bool)
  | tick (slotId : Nat) (t : ℚ)
  | pauseEvent (slotId : Nat)
  | closedEvent (slotId : Nat)
  | pauseCall (sid : Nat)
  | destroyCall (sid : Nat)
  | flushCall
  | setVolumeCall (v : ℚ)
  deriving DecidableEq, Repr

/-- One step of the Speaker system. -/
def Machine.step (P : ℚ → ℚ) (dur : String → ℚ) (m : Machine) : Op → Machine
  | Op.create url options => m.create url options
  | Op.initResolve => m.initResolve dur
  | Op.playCall sid => m.playCall P sid
  | Op.resolveKont i ok => m.resolveKont P dur i ok
  | Op.tick slotId t => m.tick P slotId t
  | Op.pauseEvent slotId => m.pauseEvent slotId
  | Op.closedEvent slotId => m.closedEvent slotId
  | Op.pauseCall sid => m.pauseCall sid
  | Op.destroyCall sid => m.destroyCall sid
  | Op.flushCall => m.flushCall
  | Op.setVolumeCall v => m.setVolumeCall P v

/-- Run a list of operations from the freshly loaded Speaker. -/
def runOps (P : ℚ → ℚ) (dur : String → ℚ) (ops : List Op) : Machine :=
  ops.foldl (Machine.step P dur) Machine.init

/-- The events delivered to the subscribers of one sound, in order. -/
def Machine.soundTrace (m : Machine) (sid : Nat) : List Ev :=
  (m.trace.filter (fun p => p.1 == sid)).map (fun p => p.2)

/-- Whether an event is a finish event. -/
def Ev.isFinish : Ev → Bool
  | Ev.finish _ => true
  | _ => false

/-- A history of the form play followed by any mix of play, pause and elapse
events, with no finish: the shape of the history of a sound while it is
playing. -/
def playRun (h : List Ev) : Bool :=
  h.head? == some Ev.play && h.all (fun e => !e.isFinish)

/-- A history of the form play (play or pause or elapse)* finish: a
completed playback. -/
def finishedRun (h : List Ev) : Bool :=
  (match h.getLast? with
   | some (Ev.finish _) => true
   | _ => false) && playRun h.dropLast

/-- A history consisting of a single finish event: a load or start
failure with no preceding play. -/
def errorOnlyRun (h : List Ev) : Bool :=
  match h with
  | [Ev.finish _] => true
  | _ => false

/-- The event-order discipline for one sound: nothing yet, an unfinished
playback starting with play, a completed playback with a single terminal
finish, or a lone failure finish. -/
def goodTrace (h : List Ev) : Bool :=
  h.isEmpty || playRun h || finishedRun h || errorOnlyRun h

/-- Finish appears at most once and only as the final event: the part of the
documented event discipline that says finish is terminal. -/
def finishTerminal (h : List Ev) : Bool :=
  h.dropLast.all (fun e => !e.isFinish)

/-- A pending continuation that will eventually bind a sound or deliver a
play event for it: the prepare-then-assemble chain, a pending start call,
and a pending resume call. -/
def Kont.playish : Kont → Bool
  | Kont.prepThen _ _ (some _) => true
  | Kont.playK _ _ => true
  | Kont.resumeK _ => true
  | _ => false

/-- Whether some start, prepare-then-assemble or resume call is still
unresolved. -/
def Machine.playishPending (m : Machine) : Bool :=
  m.konts.any Kont.playish

/-- Whether a resume call is still unresolved. -/
def Machine.resumePending (m : Machine) : Bool :=
  m.konts.any (fun k => match k with
    | Kont.resumeK _ => true
    | _ => false)

/-- Whether a finish event has already been delivered for the sound. -/
def Machine.hasFinish (m : Machine) (sid : Nat) : Bool :=
  m.trace.any (fun p => p.1 == sid && p.2.isFinish)

/-- The scheduling and caller discipline under which the event-order
invariant holds: no play or resume call is issued while an earlier start,
prepare or resume call is still unresolved, no play call is issued for a
sound that has already received finish, and position updates and context
state changes are not delivered between a resume call and its resolution
(promise resolutions run before the next poll interval fires). -/
def admissibleOp (m : Machine) (op : Op) : Bool :=
  match op with
  | Op.resolveKont _ _ => true
  | Op.pauseEvent _ => true
  | Op.playCall sid => !m.playishPending && !m.hasFinish sid
  | Op.tick _ _ => !m.resumePending
  | Op.closedEvent _ => !m.resumePending
  | _ => true

/-- A run is admissible when every step is. -/
def admissibleRun (P : ℚ → ℚ) (dur : String → ℚ) (m : Machine) : List Op → Bool
  | [] => true
  | op :: rest => admissibleOp m op && admissibleRun P dur (m.step P dur op) rest

/-- Concrete environment used for the concrete executions below: a trivial
power function and a duration table making url A ten seconds long. -/
def envP : ℚ → ℚ := fun _ => 1

/-- Concrete duration environment for the concrete executions below. -/
def envDur : String → ℚ := fun u => if u = "A" then 10 else 1

/-- The replay scenario: initialize, create a sound for url A with a three
second fade-out, let the prepare resolve, play it, let the start call
resolve, deliver a position update at the fade-out boundary (which rotates
and emits finish), then play the same sound again and let both the prepare
and the new start call resolve. -/
def sigma5 : List Op :=
  [Op.initResolve,
   Op.create "A" { fadeOutSeconds := some 3 },
   Op.resolveKont 0 true,
   Op.playCall 0,
   Op.resolveKont 0 true,
   Op.tick 3 7,
   Op.playCall 0,
   Op.resolveKont 0 true,
   Op.resolveKont 0 true]

/-- State of the replay scenario after 1 steps. -/
def M1 : Machine :=
  { vol := 100, store := [(0, { url := "silence", sound := none, volume := 1, gainValue := 1, pauseAfterPlay := false, audio := { src := "silence", paused := true, currentTime := 0, duration := 1 } }), (1, { url := "silence", sound := none, volume := 1, gainValue := 1, pauseAfterPlay := false, audio := { src := "silence", paused := true, currentTime := 0, duration := 1 } }), (2, { url := "silence", sound := none, volume := 1, gainValue := 1, pauseAfterPlay := false, audio := { src := "silence", paused := true, currentTime := 0, duration := 1 } })], activeId := some 0, fadingId := some 1, preparingId := some 2, nextSlotId := 3, prepareWhenReady := none, sounds := [], registry := [], off := [], nextId := 0, konts := [], trace := [] }

/-- State of the replay scenario after 2 steps. -/
def M2 : Machine :=
  { vol := 100, store := [(0, { url := "silence", sound := none, volume := 1, gainValue := 1, pauseAfterPlay := false, audio := { src := "silence", paused := true, currentTime := 0, duration := 1 } }), (1, { url := "silence", sound := none, volume := 1, gainValue := 1, pauseAfterPlay := false, audio := { src := "silence", paused := true, currentTime := 0, duration := 1 } }), (2, { url := "silence", sound := none, volume := 1, gainValue := 1, pauseAfterPlay := false, audio := { src := "silence", paused := true, currentTime := 0, duration := 1 } })], activeId := some 0, fadingId := some 1, preparingId := some 2, nextSlotId := 3, prepareWhenReady := none, sounds := [(0, { url := "A", startPosition := none, endPosition := none, fadeInSeconds := none, fadeOutSeconds := some 3, fadeInStart := 0, fadeInEnd := 0, fadeOutStart := some 0, fadeOutEnd := some 0, gain := 0 })], registry := [0], off := [], nextId := 1, konts := [FeedSpeaker.Kont.prepThen "A" none none], trace := [] }

/-- State of the replay scenario after 3 steps. -/
def M3 : Machine :=
  { vol := 100, store := [(0, { url := "silence", sound := none, volume := 1, gainValue := 1, pauseAfterPlay := false, audio := { src := "silence", paused := true, currentTime := 0, duration := 1 } }), (1, { url := "silence", sound := none, volume := 1, gainValue := 1, pauseAfterPlay := false, audio := { src := "silence", paused := true, currentTime := 0, duration := 1 } }), (2, { url := "silence", sound := none, volume := 1, gainValue := 1, pauseAfterPlay := false, audio := { src := "silence", paused := true, currentTime := 0, duration := 1 } }), (3, { url := "A", sound := none, volume := 1, gainValue := 1, pauseAfterPlay := false, audio := { src := "A", paused := true, currentTime := 0, duration := 10 } })], activeId := some 0, fadingId := some 1, preparingId := some 3, nextSlotId := 4, prepareWhenReady := none, sounds := [(0, { url := "A", startPosition := none, endPosition := none, fadeInSeconds := none, fadeOutSeconds := some 3, fadeInStart := 0, fadeInEnd := 0, fadeOutStart := some 0, fadeOutEnd := some 0, gain := 0 })], registry := [0], off := [], nextId := 1, konts := [], trace := [] }

/-- State of the replay scenario after 4 steps. -/
def M4 : Machine :=
  { vol := 100, store := [(0, { url := "silence", sound := none, volume := 1, gainValue := 1, pauseAfterPlay := false, audio := { src := "silence", paused := true, currentTime := 0, duration := 1 } }), (1, { url := "silence", sound := none, volume := 1, gainValue := 1, pauseAfterPlay := false, audio := { src := "silence", paused := true, currentTime := 0, duration := 1 } }), (2, { url := "silence", sound := none, volume := 1, gainValue := 1, pauseAfterPlay := false, audio := { src := "silence", paused := true, currentTime := 0, duration := 1 } }), (3, { url := "A", sound := none, volume := 1, gainValue := 1, pauseAfterPlay := false, audio := { src := "A", paused := false, currentTime := 0, duration := 10 } })], activeId := some 3, fadingId := some 1, preparingId := some 0, nextSlotId := 4, prepareWhenReady := none, sounds := [(0, { url := "A", startPosition := none, endPosition := none, fadeInSeconds := none, fadeOutSeconds := some 3, fadeInStart := 0, fadeInEnd := 0, fadeOutStart := some 0, fadeOutEnd := some 0, gain := 0 })], registry := [0], off := [], nextId := 1, konts := [FeedSpeaker.Kont.playK 0 3], trace := [] }

/-- State of the replay scenario after 5 steps. -/
def M5 : Machine :=
  { vol := 100, store := [(0, { url := "silence", sound := none, volume := 1, gainValue := 1, pauseAfterPlay := false, audio := { src := "silence", paused := true, currentTime := 0, duration := 1 } }), (1, { url := "silence", sound := none, volume := 1, gainValue := 1, pauseAfterPlay := false, audio := { src := "silence", paused := true, currentTime := 0, duration := 1 } }), (2, { url := "silence", sound := none, volume := 1, gainValue := 1, pauseAfterPlay := false, audio := { src := "silence", paused := true, currentTime := 0, duration := 1 } }), (3, { url := "A", sound := some 0, volume := 1, gainValue := 1, pauseAfterPlay := false, audio := { src := "A", paused := false, currentTime := 0, duration := 10 } })], activeId := some 3, fadingId := some 1, preparingId := some 0, nextSlotId := 4, prepareWhenReady := none, sounds := [(0, { url := "A", startPosition := none, endPosition := none, fadeInSeconds := none, fadeOutSeconds := some 3, fadeInStart := 0, fadeInEnd := 0, fadeOutStart := some 7, fadeOutEnd := some 10, gain := 0 })], registry := [0], off := [], nextId := 1, konts := [], trace := [(0, FeedSpeaker.Ev.play)] }

/-- State of the replay scenario after 6 steps. -/
def M6 : Machine :=
  { vol := 100, store := [(0, { url := "silence", sound := none, volume := 1, gainValue := 1, pauseAfterPlay := false, audio := { src := "silence", paused := true, currentTime := 0, duration := 1 } }), (1, { url := "silence", sound := none, volume := 1, gainValue := 1, pauseAfterPlay := false, audio := { src := "silence", paused := true, currentTime := 0, duration := 1 } }), (2, { url := "silence", sound := none, volume := 1, gainValue := 1, pauseAfterPlay := false, audio := { src := "silence", paused := true, currentTime := 0, duration := 1 } }), (3, { url := "A", sound := some 0, volume := 1, gainValue := 1, pauseAfterPlay := false, audio := { src := "A", paused := false, currentTime := 7, duration := 10 } })], activeId := some 1, fadingId := some 3, preparingId := some 0, nextSlotId := 4, prepareWhenReady := none, sounds := [(0, { url := "A", startPosition := none, endPosition := none, fadeInSeconds := none, fadeOutSeconds := some 3, fadeInStart := 0, fadeInEnd := 0, fadeOutStart := some 7, fadeOutEnd := some 10, gain := 0 })], registry := [0], off := [], nextId := 1, konts := [], trace := [(0, FeedSpeaker.Ev.play), (0, FeedSpeaker.Ev.finish false)] }

/-- State of the replay scenario after 7 steps. -/
def M7 : Machine :=
  { vol := 100, store := [(0, { url := "silence", sound := none, volume := 1, gainValue := 1, pauseAfterPlay := false, audio := { src := "silence", paused := true, currentTime := 0, duration := 1 } }), (1, { url := "silence", sound := none, volume := 1, gainValue := 1, pauseAfterPlay := false, audio := { src := "silence", paused := true, currentTime := 0, duration := 1 } }), (2, { url := "silence", sound := none, volume := 1, gainValue := 1, pauseAfterPlay := false, audio := { src := "silence", paused := true, currentTime := 0, duration := 1 } }), (3, { url := "A", sound := some 0, volume := 1, gainValue := 1, pauseAfterPlay := false, audio := { src := "A", paused := false, currentTime := 7, duration := 10 } })], activeId := some 1, fadingId := some 3, preparingId := some 0, nextSlotId := 4, prepareWhenReady := none, sounds := [(0, { url := "A", startPosition := none, endPosition := none, fadeInSeconds := none, fadeOutSeconds := some 3, fadeInStart := 0, fadeInEnd := 0, fadeOutStart := some 7, fadeOutEnd := some 10, gain := 0 })], registry := [0], off := [], nextId := 1, konts := [FeedSpeaker.Kont.prepThen "A" none (some 0)], trace := [(0, FeedSpeaker.Ev.play), (0, FeedSpeaker.Ev.finish false)] }

/-- State of the replay scenario after 8 steps. -/
def M8 : Machine :=
  { vol := 100, store := [(0, { url := "silence", sound := none, volume := 1, gainValue := 1, pauseAfterPlay := false, audio := { src := "silence", paused := true, currentTime := 0, duration := 1 } }), (1, { url := "silence", sound := none, volume := 1, gainValue := 1, pauseAfterPlay := false, audio := { src := "silence", paused := true, currentTime := 0, duration := 1 } }), (2, { url := "silence", sound := none, volume := 1, gainValue := 1, pauseAfterPlay := false, audio := { src := "silence", paused := true, currentTime := 0, duration := 1 } }), (3, { url := "A", sound := some 0, volume := 1, gainValue := 1, pauseAfterPlay := false, audio := { src := "A", paused := false, currentTime := 7, duration := 10 } }), (4, { url := "A", sound := none, volume := 1, gainValue := 1, pauseAfterPlay := false, audio := { src := "A", paused := false, currentTime := 0, duration := 10 } })], activeId := some 4, fadingId := some 3, preparingId := some 1, nextSlotId := 5, prepareWhenReady := none, sounds := [(0, { url := "A", startPosition := none, endPosition := none, fadeInSeconds := none, fadeOutSeconds := some 3, fadeInStart := 0, fadeInEnd := 0, fadeOutStart := some 7, fadeOutEnd := some 10, gain := 0 })], registry := [0], off := [], nextId := 1, konts := [FeedSpeaker.Kont.playK 0 4], trace := [(0, FeedSpeaker.Ev.play), (0, FeedSpeaker.Ev.finish false)] }

/-- State of the replay scenario after 9 steps. -/
def M9 : Machine :=
  { vol := 100, store := [(0, { url := "silence", sound := none, volume := 1, gainValue := 1, pauseAfterPlay := false, audio := { src := "silence", paused := true, currentTime := 0, duration := 1 } }), (1, { url := "silence", sound := none, volume := 1, gainValue := 1, pauseAfterPlay := false, audio := { src := "silence", paused := true, currentTime := 0, duration := 1 } }), (2, { url := "silence", sound := none, volume := 1, gainValue := 1, pauseAfterPlay := false, audio := { src := "silence", paused := true, currentTime := 0, duration := 1 } }), (3, { url := "A", sound := some 0, volume := 1, gainValue := 1, pauseAfterPlay := false, audio := { src := "A", paused := false, currentTime := 7, duration := 10 } }), (4, { url := "A", sound := some 0, volume := 1, gainValue := 1, pauseAfterPlay := false, audio := { src := "A", paused := false, currentTime := 0, duration := 10 } })], activeId := some 4, fadingId := some 3, preparingId := some 1, nextSlotId := 5, prepareWhenReady := none, sounds := [(0, { url := "A", startPosition := none, endPosition := none, fadeInSeconds := none, fadeOutSeconds := some 3, fadeInStart := 0, fadeInEnd := 0, fadeOutStart := some 7, fadeOutEnd := some 10, gain := 0 })], registry := [0], off := [], nextId := 1, konts := [], trace := [(0, FeedSpeaker.Ev.play), (0, FeedSpeaker.Ev.finish false), (0, FeedSpeaker.Ev.play)] }

/-- Between two machine states, every stored slot whose deferred-pause flag
is raised still exists and still has the flag raised: the sense in which no
operation ever clears pauseAfterPlay. -/
def papPreserved (m n : Machine) : Prop :=
  ∀ k sl, assocGet m.store k = some sl → sl.pauseAfterPlay = true →
    ∃ sl2, assocGet n.store k = some sl2 ∧ sl2.pauseAfterPlay = true

/-- No stored slot is bound to the given sound. -/
def notBound (m : Machine) (sid : Nat) : Prop :=
  ∀ k sl, assocGet m.store k = some sl → sl.sound ≠ some sid

/-- The sound whose playback a continuation will start, when there is one:
a pending start call or a prepare chained to an assemblePlay. -/
def Kont.startSid : Kont → Option Nat
  | Kont.playK s _ => some s
  | Kont.prepThen _ _ (some s) => some s
  | _ => none

/-- The reachability invariant of the Speaker machine under the admissible
scheduling discipline.  Together the clauses say: every delivered history is
well formed so far; at most one playback-starting call is in flight; the
active bound sound is mid-playback (its history is an unfinished play run);
a fading bound sound has already received finish; the preparing slot and the
slot captured by a pending start call are unbound; every bound slot holds
the active or the fading role; a sound with a pending start has no finish
and is bound nowhere; a sound with a pending resume has no finish; a pending
start call captured the current active slot; the three role pointers are
pairwise distinct and within the allocated slot ids. -/
structure Inv (m : Machine) : Prop where
  g : ∀ sid, goodTrace (m.soundTrace sid) = true
  uq : (m.konts.filter Kont.playish).length ≤ 1
  ab : ∀ aid asl sid, m.activeId = some aid → assocGet m.store aid = some asl →
    asl.sound = some sid → sid ∉ m.off → playRun (m.soundTrace sid) = true
  fb : ∀ fid fsl sid, m.fadingId = some fid → assocGet m.store fid = some fsl →
    fsl.sound = some sid → sid ∉ m.off → m.hasFinish sid = true
  pb : ∀ pid psl, m.preparingId = some pid → assocGet m.store pid = some psl →
    psl.sound = none
  ob : ∀ k sl, assocGet m.store k = some sl → sl.sound.isSome →
    m.activeId = some k ∨ m.fadingId = some k
  ps : ∀ k, k ∈ m.konts → ∀ sid, Kont.startSid k = some sid → sid ∉ m.off →
    m.hasFinish sid = false ∧ notBound m sid
  rs : ∀ sid, Kont.resumeK sid ∈ m.konts → sid ∉ m.off → m.hasFinish sid = false
  ref : ∀ sid r, Kont.playK sid r ∈ m.konts → m.activeId = some r
  refu : ∀ sid r sl, Kont.playK sid r ∈ m.konts → assocGet m.store r = some sl →
    sl.sound = none
  rd : ∀ a p, m.activeId = some a → m.preparingId = some p → a ≠ p
  rd2 : ∀ a f, m.activeId = some a → m.fadingId = some f → a ≠ f
  rd3 : ∀ f p, m.fadingId = some f → m.preparingId = some p → f ≠ p
  kl : ∀ pr, pr ∈ m.store → pr.1 < m.nextSlotId
  rla : ∀ a, m.activeId = some a → a < m.nextSlotId
  rlf : ∀ f, m.fadingId = some f → f < m.nextSlotId
  rlp : ∀ p, m.preparingId = some p → p < m.nextSlotId
  z : m.activeId = none →
    m.store = [] ∧ m.konts = [] ∧ m.fadingId = none ∧ m.preparingId = none

/-!  Theorems.  -/

set_option maxRecDepth 10000 in
/-- Evaluation of step 1 of the replay scenario. -/
theorem c5step1 : Machine.step envP envDur Machine.init (Op.initResolve) = M1 := by
  simp [Machine.step, Machine.create, Machine.initResolve, Machine.playCall,
    Machine.resolveKont, Machine.tick, Machine.ontimeupdate, Machine.prepResolve,
    Machine.assemblePlay, Machine.preemptPreparing, Machine.retryPrepare, Machine.playKResolve, Machine.prepareSync, Machine.prepare,
    Machine.setVolumeOn, Machine.setSlot, Machine.updSlot, Machine.deliver,
    Machine.destroyCall, Machine.flushCall, Machine.setVolumeCall, Machine.pauseCall,
    Machine.pauseEvent, Machine.closedEvent, Machine.resumeKResolve, Machine.fadeResumeKResolve,
    Slot.fresh, Sound.make, Sound.configureFadeOut, Sound.gainAdjustedVolume, calculatedVolume,
    Machine.init, assocGet, assocSet, jsTruthy, jsGE, SILENCE, DEFAULT_VOLUME, envP, envDur,
    List.find?, List.filter, List.map, List.foldl, List.any, List.all, Option.bind,
    Option.getD, Option.isSome, List.eraseIdx, Ev.isFinish, M1]
  all_goals norm_num

set_option maxRecDepth 10000 in
/-- Evaluation of step 2 of the replay scenario. -/
theorem c5step2 : Machine.step envP envDur M1 (Op.create "A" { fadeOutSeconds := some 3 }) = M2 := by
  simp [Machine.step, Machine.create, Machine.initResolve, Machine.playCall,
    Machine.resolveKont, Machine.tick, Machine.ontimeupdate, Machine.prepResolve,
    Machine.assemblePlay, Machine.preemptPreparing, Machine.retryPrepare, Machine.playKResolve, Machine.prepareSync, Machine.prepare,
    Machine.setVolumeOn, Machine.setSlot, Machine.updSlot, Machine.deliver,
    Machine.destroyCall, Machine.flushCall, Machine.setVolumeCall, Machine.pauseCall,
    Machine.pauseEvent, Machine.closedEvent, Machine.resumeKResolve, Machine.fadeResumeKResolve,
    Slot.fresh, Sound.make, Sound.configureFadeOut, Sound.gainAdjustedVolume, calculatedVolume,
    Machine.init, assocGet, assocSet, jsTruthy, jsGE, SILENCE, DEFAULT_VOLUME, envP, envDur,
    List.find?, List.filter, List.map, List.foldl, List.any, List.all, Option.bind,
    Option.getD, Option.isSome, List.eraseIdx, Ev.isFinish, M2, M1]
  all_goals norm_num

set_option maxRecDepth 10000 in
/-- Evaluation of step 3 of the replay scenario. -/
theorem c5step3 : Machine.step envP envDur M2 (Op.resolveKont 0 true) = M3 := by
  simp [Machine.step, Machine.create, Machine.initResolve, Machine.playCall,
    Machine.resolveKont, Machine.tick, Machine.ontimeupdate, Machine.prepResolve,
    Machine.assemblePlay, Machine.preemptPreparing, Machine.retryPrepare, Machine.playKResolve, Machine.prepareSync, Machine.prepare,
    Machine.setVolumeOn, Machine.setSlot, Machine.updSlot, Machine.deliver,
    Machine.destroyCall, Machine.flushCall, Machine.setVolumeCall, Machine.pauseCall,
    Machine.pauseEvent, Machine.closedEvent, Machine.resumeKResolve, Machine.fadeResumeKResolve,
    Slot.fresh, Sound.make, Sound.configureFadeOut, Sound.gainAdjustedVolume, calculatedVolume,
    Machine.init, assocGet, assocSet, jsTruthy, jsGE, SILENCE, DEFAULT_VOLUME, envP, envDur,
    List.find?, List.filter, List.map, List.foldl, List.any, List.all, Option.bind,
    Option.getD, Option.isSome, List.eraseIdx, Ev.isFinish, M3, M2]
  all_goals norm_num

set_option maxRecDepth 10000 in
/-- Evaluation of step 4 of the replay scenario. -/
theorem c5step4 : Machine.step envP envDur M3 (Op.playCall 0) = M4 := by
  simp [Machine.step, Machine.create, Machine.initResolve, Machine.playCall,
    Machine.resolveKont, Machine.tick, Machine.ontimeupdate, Machine.prepResolve,
    Machine.assemblePlay, Machine.preemptPreparing, Machine.retryPrepare, Machine.playKResolve, Machine.prepareSync, Machine.prepare,
    Machine.setVolumeOn, Machine.setSlot, Machine.updSlot, Machine.deliver,
    Machine.destroyCall, Machine.flushCall, Machine.setVolumeCall, Machine.pauseCall,
    Machine.pauseEvent, Machine.closedEvent, Machine.resumeKResolve, Machine.fadeResumeKResolve,
    Slot.fresh, Sound.make, Sound.configureFadeOut, Sound.gainAdjustedVolume, calculatedVolume,
    Machine.init, assocGet, assocSet, jsTruthy, jsGE, SILENCE, DEFAULT_VOLUME, envP, envDur,
    List.find?, List.filter, List.map, List.foldl, List.any, List.all, Option.bind,
    Option.getD, Option.isSome, List.eraseIdx, Ev.isFinish, M4, M3]
  all_goals norm_num

set_option maxRecDepth 10000 in
/-- Evaluation of step 5 of the replay scenario. -/
theorem c5step5 : Machine.step envP envDur M4 (Op.resolveKont 0 true) = M5 := by
  simp [Machine.step, Machine.create, Machine.initResolve, Machine.playCall,
    Machine.resolveKont, Machine.tick, Machine.ontimeupdate, Machine.prepResolve,
    Machine.assemblePlay, Machine.preemptPreparing, Machine.retryPrepare, Machine.playKResolve, Machine.prepareSync, Machine.prepare,
    Machine.setVolumeOn, Machine.setSlot, Machine.updSlot, Machine.deliver,
    Machine.destroyCall, Machine.flushCall, Machine.setVolumeCall, Machine.pauseCall,
    Machine.pauseEvent, Machine.closedEvent, Machine.resumeKResolve, Machine.fadeResumeKResolve,
    Slot.fresh, Sound.make, Sound.configureFadeOut, Sound.gainAdjustedVolume, calculatedVolume,
    Machine.init, assocGet, assocSet, jsTruthy, jsGE, SILENCE, DEFAULT_VOLUME, envP, envDur,
    List.find?, List.filter, List.map, List.foldl, List.any, List.all, Option.bind,
    Option.getD, Option.isSome, List.eraseIdx, Ev.isFinish, M5, M4]
  all_goals norm_num

set_option maxRecDepth 10000 in
/-- Evaluation of step 6 of the replay scenario. -/
theorem c5step6 : Machine.step envP envDur M5 (Op.tick 3 7) = M6 := by
  simp [Machine.step, Machine.create, Machine.initResolve, Machine.playCall,
    Machine.resolveKont, Machine.tick, Machine.ontimeupdate, Machine.prepResolve,
    Machine.assemblePlay, Machine.preemptPreparing, Machine.retryPrepare, Machine.playKResolve, Machine.prepareSync, Machine.prepare,
    Machine.setVolumeOn, Machine.setSlot, Machine.updSlot, Machine.deliver,
    Machine.destroyCall, Machine.flushCall, Machine.setVolumeCall, Machine.pauseCall,
    Machine.pauseEvent, Machine.closedEvent, Machine.resumeKResolve, Machine.fadeResumeKResolve,
    Slot.fresh, Sound.make, Sound.configureFadeOut, Sound.gainAdjustedVolume, calculatedVolume,
    Machine.init, assocGet, assocSet, jsTruthy, jsGE, SILENCE, DEFAULT_VOLUME, envP, envDur,
    List.find?, List.filter, List.map, List.foldl, List.any, List.all, Option.bind,
    Option.getD, Option.isSome, List.eraseIdx, Ev.isFinish, M6, M5]
  all_goals norm_num

set_option maxRecDepth 10000 in
/-- Evaluation of step 7 of the replay scenario. -/
theorem c5step7 : Machine.step envP envDur M6 (Op.playCall 0) = M7 := by
  simp [Machine.step, Machine.create, Machine.initResolve, Machine.playCall,
    Machine.resolveKont, Machine.tick, Machine.ontimeupdate, Machine.prepResolve,
    Machine.assemblePlay, Machine.preemptPreparing, Machine.retryPrepare, Machine.playKResolve, Machine.prepareSync, Machine.prepare,
    Machine.setVolumeOn, Machine.setSlot, Machine.updSlot, Machine.deliver,
    Machine.destroyCall, Machine.flushCall, Machine.setVolumeCall, Machine.pauseCall,
    Machine.pauseEvent, Machine.closedEvent, Machine.resumeKResolve, Machine.fadeResumeKResolve,
    Slot.fresh, Sound.make, Sound.configureFadeOut, Sound.gainAdjustedVolume, calculatedVolume,
    Machine.init, assocGet, assocSet, jsTruthy, jsGE, SILENCE, DEFAULT_VOLUME, envP, envDur,
    List.find?, List.filter, List.map, List.foldl, List.any, List.all, Option.bind,
    Option.getD, Option.isSome, List.eraseIdx, Ev.isFinish, M7, M6]
  all_goals norm_num

set_option maxRecDepth 10000 in
/-- Evaluation of step 8 of the replay scenario. -/
theorem c5step8 : Machine.step envP envDur M7 (Op.resolveKont 0 true) = M8 := by
  simp [Machine.step, Machine.create, Machine.initResolve, Machine.playCall,
    Machine.resolveKont, Machine.tick, Machine.ontimeupdate, Machine.prepResolve,
    Machine.assemblePlay, Machine.preemptPreparing, Machine.retryPrepare, Machine.playKResolve, Machine.prepareSync, Machine.prepare,
    Machine.setVolumeOn, Machine.setSlot, Machine.updSlot, Machine.deliver,
    Machine.destroyCall, Machine.flushCall, Machine.setVolumeCall, Machine.pauseCall,
    Machine.pauseEvent, Machine.closedEvent, Machine.resumeKResolve, Machine.fadeResumeKResolve,
    Slot.fresh, Sound.make, Sound.configureFadeOut, Sound.gainAdjustedVolume, calculatedVolume,
    Machine.init, assocGet, assocSet, jsTruthy, jsGE, SILENCE, DEFAULT_VOLUME, envP, envDur,
    List.find?, List.filter, List.map, List.foldl, List.any, List.all, Option.bind,
    Option.getD, Option.isSome, List.eraseIdx, Ev.isFinish, M8, M7]
  all_goals norm_num

set_option maxRecDepth 10000 in
/-- Evaluation of step 9 of the replay scenario. -/
theorem c5step9 : Machine.step envP envDur M8 (Op.resolveKont 0 true) = M9 := by
  simp [Machine.step, Machine.create, Machine.initResolve, Machine.playCall,
    Machine.resolveKont, Machine.tick, Machine.ontimeupdate, Machine.prepResolve,
    Machine.assemblePlay, Machine.preemptPreparing, Machine.retryPrepare, Machine.playKResolve, Machine.prepareSync, Machine.prepare,
    Machine.setVolumeOn, Machine.setSlot, Machine.updSlot, Machine.deliver,
    Machine.destroyCall, Machine.flushCall, Machine.setVolumeCall, Machine.pauseCall,
    Machine.pauseEvent, Machine.closedEvent, Machine.resumeKResolve, Machine.fadeResumeKResolve,
    Slot.fresh, Sound.make, Sound.configureFadeOut, Sound.gainAdjustedVolume, calculatedVolume,
    Machine.init, assocGet, assocSet, jsTruthy, jsGE, SILENCE, DEFAULT_VOLUME, envP, envDur,
    List.find?, List.filter, List.map, List.foldl, List.any, List.all, Option.bind,
    Option.getD, Option.isSome, List.eraseIdx, Ev.isFinish, M9, M8]
  all_goals norm_num

/-- Evaluation of the whole replay scenario. -/
theorem c5run : runOps envP envDur sigma5 = M9 := by
  rw [runOps, sigma5]
  simp only [List.foldl_cons, List.foldl_nil, c5step1, c5step2, c5step3, c5step4,
    c5step5, c5step6, c5step7, c5step8, c5step9]

set_option maxRecDepth 2000 in
/-- Claim C5 counterexample: in the replay scenario the sound receives play,
finish and then a second play, so the delivered sequence is not a prefix of
play (pause or play)* finish and an event follows finish; the documented
event-order discipline fails when a caller replays a Sound after its finish
event (which the engine does not prevent). -/
theorem C5_counterexample :
    (runOps envP envDur sigma5).soundTrace 0 = [Ev.play, Ev.finish false, Ev.play] ∧
    finishTerminal ((runOps envP envDur sigma5).soundTrace 0) = false := by
  have h : (runOps envP envDur sigma5).soundTrace 0 = [Ev.play, Ev.finish false, Ev.play] := by
    rw [c5run]
    simp [Machine.soundTrace, M9, Ev.isFinish]
  refine ⟨h, ?_⟩
  rw [h]
  rfl


/-- Claim C3: for a configured non-degenerate fade-in window, the envelope is
0 at the window start and strictly before it, equals the gain-adjusted base
volume at the window end, and ramps linearly inside the window in proportion
to the elapsed fraction of the window. -/
theorem C3_fadein_envelope (url : String) (options : SoundConfig) (P : ℚ → ℚ)
    (vol f : ℚ) (hf : options.fadeInSeconds = some f) (hfpos : 0 < f)
    (hvol0 : 0 ≤ vol) (hvol1 : vol ≤ 100) :
    calculatedVolume (Sound.make url options) (Sound.make url options).fadeInStart
        ((Sound.make url options).gainAdjustedVolume P vol) = 0 ∧
    calculatedVolume (Sound.make url options) (Sound.make url options).fadeInEnd
        ((Sound.make url options).gainAdjustedVolume P vol)
      = (Sound.make url options).gainAdjustedVolume P vol ∧
    (∀ t : ℚ, (Sound.make url options).fadeInStart < t →
        t < (Sound.make url options).fadeInEnd →
        calculatedVolume (Sound.make url options) t
            ((Sound.make url options).gainAdjustedVolume P vol)
          = (t - (Sound.make url options).fadeInStart) /
              ((Sound.make url options).fadeInEnd - (Sound.make url options).fadeInStart) *
              ((Sound.make url options).gainAdjustedVolume P vol)) ∧
    (∀ t : ℚ, t < (Sound.make url options).fadeInStart →
        calculatedVolume (Sound.make url options) t
            ((Sound.make url options).gainAdjustedVolume P vol) = 0) := by
  set s := Sound.make url options with hs
  have hlt : s.fadeInStart < s.fadeInEnd := by
    simp only [hs, Sound.make, hf, jsTruthy]
    have h : (f != 0) = true := by simp [bne_iff_ne]; exact hfpos.ne'
    simp [h]
    positivity
  have hne : s.fadeInStart ≠ s.fadeInEnd := hlt.ne
  refine ⟨?_, ?_, ?_, ?_⟩
  · rw [calculatedVolume]
    rw [if_neg (by rintro ⟨-, h⟩; exact lt_irrefl _ h)]
    rw [if_pos ⟨hne, le_refl _, hlt.le⟩]
    simp
  · rw [calculatedVolume]
    rw [if_neg (by rintro ⟨-, h⟩; exact absurd hlt (not_lt.mpr h.le))]
    rw [if_pos ⟨hne, hlt.le, le_refl _⟩]
    rw [div_self (sub_ne_zero.mpr hlt.ne'), one_mul]
  · intro t h1 h2
    rw [calculatedVolume]
    rw [if_neg (by rintro ⟨-, h⟩; exact absurd h1 (not_lt.mpr h.le))]
    rw [if_pos ⟨hne, h1.le, h2.le⟩]
  · intro t h1
    rw [calculatedVolume, if_pos ⟨hne, h1⟩]

/-- Witness for C3 at a concrete sound with a two second fade-in and
session volume 50. -/
theorem C3_witness :
    calculatedVolume (Sound.make "A" { fadeInSeconds := some 2 })
        (Sound.make "A" { fadeInSeconds := some 2 }).fadeInStart
        ((Sound.make "A" { fadeInSeconds := some 2 }).gainAdjustedVolume (fun _ => 1) 50) = 0 :=
  (C3_fadein_envelope "A" { fadeInSeconds := some 2 } (fun _ => 1) 50 2 rfl
    (by norm_num) (by norm_num) (by norm_num)).1

/-- Claim C4 counterexample: a Sound created with fadeOutSeconds 3 and end
position 5000 ms keeps the fade-out bounds derived from the end position
(2 and 5 seconds) even after the true duration 10 becomes known, so the
bounds are not duration minus fadeOutSeconds and duration. -/
theorem C4_counterexample :
    ¬ (((Sound.make "A" { endPosition := some 5000, fadeOutSeconds := some 3 }).configureFadeOut 10).fadeOutStart
          = some (10 - 3) ∧
       ((Sound.make "A" { endPosition := some 5000, fadeOutSeconds := some 3 }).configureFadeOut 10).fadeOutEnd
          = some 10) := by
  rintro ⟨h1, -⟩
  have h2 : ((Sound.make "A" { endPosition := some 5000, fadeOutSeconds := some 3 }).configureFadeOut 10).fadeOutStart
      = some 2 := by
    norm_num [Sound.make, Sound.configureFadeOut, jsTruthy]
  rw [h1] at h2
  have h3 : (10 : ℚ) - 3 = 2 := Option.some.inj h2
  norm_num at h3

/-- Claim C4 amended: the fade-out bounds are recomputed from the media
duration when the start call resolves only for a Sound created with a
truthy fadeOutSeconds and no (falsy) end position; with a nonzero end
position configured, the bounds are fixed at creation from the end position
and the duration-based finalization never fires. -/
theorem C4_fadeout_bounds (url : String) (options : SoundConfig) (dur g : ℚ)
    (hg : options.fadeOutSeconds = some g) (hgpos : 0 < g) :
    (jsTruthy options.endPosition = false →
      ((Sound.make url options).configureFadeOut dur).fadeOutStart = some (dur - g) ∧
      ((Sound.make url options).configureFadeOut dur).fadeOutEnd = some dur) ∧
    (∀ ep : ℚ, options.endPosition = some ep → ep ≠ 0 →
      (Sound.make url options).fadeOutStart = some (ep / 1000 - g) ∧
      (Sound.make url options).fadeOutEnd = some (ep / 1000) ∧
      (Sound.make url options).configureFadeOut dur = Sound.make url options) := by
  have hTg : jsTruthy (some g) = true := by
    simp [jsTruthy, bne_iff_ne]; exact hgpos.ne'
  constructor
  · intro hep
    have h1 : (Sound.make url options).fadeOutEnd = some 0 := by
      simp [Sound.make, hg, hep, hTg]
    have h2 : (Sound.make url options).fadeOutSeconds = some g := by
      simp [Sound.make, hg]
    have hT : jsTruthy (Sound.make url options).fadeOutSeconds = true := by
      rw [h2]; exact hTg
    rw [Sound.configureFadeOut, if_pos ⟨hT, h1⟩, h2]
    simp
  · intro ep hep hep0
    have hTep : jsTruthy (some ep) = true := by
      simp [jsTruthy, bne_iff_ne]; exact hep0
    have h1 : (Sound.make url options).fadeOutStart = some (ep / 1000 - g) := by
      simp [Sound.make, hg, hep, hTg, hTep]
    have h2 : (Sound.make url options).fadeOutEnd = some (ep / 1000) := by
      simp [Sound.make, hg, hep, hTg, hTep]
    refine ⟨h1, h2, ?_⟩
    rw [Sound.configureFadeOut, if_neg ?_]
    rintro ⟨-, hc⟩
    rw [h2] at hc
    have h3 : ep / 1000 = 0 := Option.some.inj hc
    exact hep0 (by field_simp at h3; exact h3)

/-- Witness for C4 at a concrete sound with fadeOutSeconds 3, no end
position, and duration 10. -/
theorem C4_witness :
    ((Sound.make "A" { fadeOutSeconds := some 3 }).configureFadeOut 10).fadeOutStart = some (10 - 3) ∧
    ((Sound.make "A" { fadeOutSeconds := some 3 }).configureFadeOut 10).fadeOutEnd = some 10 :=
  (C4_fadeout_bounds "A" { fadeOutSeconds := some 3 } 10 3 rfl (by norm_num)).1 (by norm_num [jsTruthy])

end FeedSpeaker

namespace FeedSpeaker

theorem assocGet_assocSet_self {α : Type} (l : List (Nat × α)) (k : Nat) (v w : α)
    (h : assocGet l k = some w) : assocGet (assocSet l k v) k = some v := by
  induction l with
  | nil => simp [assocGet] at h
  | cons a t ih =>
    by_cases hak : a.1 = k
    · simp [assocGet, assocSet, hak]
    · simp only [assocGet, assocSet, if_neg hak] at h ⊢
      exact ih h

theorem assocGet_assocSet_ne {α : Type} (l : List (Nat × α)) (k k' : Nat) (v : α)
    (h : k ≠ k') : assocGet (assocSet l k v) k' = assocGet l k' := by
  induction l with
  | nil => simp [assocGet, assocSet]
  | cons a t ih =>
    by_cases hak : a.1 = k
    · have hak' : ¬ a.1 = k' := by rw [hak]; exact h
      simp only [assocGet, assocSet, if_pos hak, if_neg hak']
      simp only [if_neg h]
      exact ih
    · by_cases hak' : a.1 = k'
      · have hkk : ¬ k' = k := fun hh => h hh.symm
        simp [assocGet, assocSet, if_neg hak, hak', hkk]
      · simp only [assocGet, assocSet, if_neg hak, if_neg hak']
        exact ih

theorem C7_destroy_effects (m : Machine) (sid : Nat)
    (hs : (assocGet m.sounds sid).isSome = true) :
    ((m.activeId = none → (m.destroyCall sid).store = m.store) ∧
     (∀ aid asl, m.activeId = some aid → assocGet m.store aid = some asl →
        asl.sound ≠ some sid → (m.destroyCall sid).store = m.store) ∧
     sid ∉ (m.destroyCall sid).registry) ∧
    ((∀ aid asl, m.activeId = some aid → assocGet m.store aid = some asl →
        assocGet (m.destroySoundHowl sid).store aid
          = some { asl with audio := { asl.audio with paused := true } }) ∧
     sid ∉ (m.destroySoundHowl sid).registry) := by
  obtain ⟨s, hs⟩ : ∃ s, assocGet m.sounds sid = some s := by
    cases h : assocGet m.sounds sid with
    | none => rw [h] at hs; simp at hs
    | some s => exact ⟨s, rfl⟩
  refine ⟨⟨?_, ?_, ?_⟩, ?_, ?_⟩
  · intro hA
    simp [Machine.destroyCall, hs, hA]
  · intro aid asl hA hget hne
    simp [Machine.destroyCall, hs, hA, hget, hne]
  · simp only [Machine.destroyCall, hs]
    rcases m.activeId with _ | aid
    · simp [List.mem_filter]
    · rcases h2 : assocGet m.store aid with _ | asl
      · simp [h2, List.mem_filter]
      · by_cases h3 : asl.sound = some sid <;> simp [h2, h3, Machine.setSlot, List.mem_filter]
  · intro aid asl hA hget
    simp only [Machine.destroySoundHowl, hs, hA, Machine.updSlot, Machine.setSlot, hget]
    exact assocGet_assocSet_self _ _ _ _ hget
  · simp only [Machine.destroySoundHowl, hs]
    rcases hA : m.activeId with _ | aid
    · simp [List.mem_filter]
    · rcases h2 : assocGet m.store aid with _ | asl
      · simp [Machine.updSlot, h2, List.mem_filter]
      · simp [Machine.updSlot, h2, Machine.setSlot, List.mem_filter]

end FeedSpeaker

namespace FeedSpeaker

def M6b : Machine :=
  { vol := 100, store := [(0, { url := "silence", sound := none, volume := 1, gainValue := 1, pauseAfterPlay := false, audio := { src := "silence", paused := true, currentTime := 0, duration := 1 } }), (1, { url := "silence", sound := none, volume := 1, gainValue := 1, pauseAfterPlay := false, audio := { src := "silence", paused := true, currentTime := 0, duration := 1 } }), (2, { url := "silence", sound := none, volume := 1, gainValue := 1, pauseAfterPlay := false, audio := { src := "silence", paused := true, currentTime := 0, duration := 1 } }), (3, { url := "A", sound := some 0, volume := 1, gainValue := 1, pauseAfterPlay := false, audio := { src := "A", paused := false, currentTime := 0, duration := 10 } })], activeId := some 3, fadingId := some 1, preparingId := some 0, nextSlotId := 4, prepareWhenReady := none, sounds := [(0, { url := "A", startPosition := none, endPosition := none, fadeInSeconds := none, fadeOutSeconds := some 3, fadeInStart := 0, fadeInEnd := 0, fadeOutStart := some 7, fadeOutEnd := some 10, gain := 0 }), (1, { url := "B", startPosition := none, endPosition := none, fadeInSeconds := none, fadeOutSeconds := none, fadeInStart := 0, fadeInEnd := 0, fadeOutStart := none, fadeOutEnd := none, gain := 0 })], registry := [0, 1], off := [], nextId := 2, konts := [Kont.prepThen "B" none none], trace := [(0, Ev.play)] }

theorem c7reach : Machine.step envP envDur M5 (Op.create "B" {}) = M6b := by
  simp [Machine.step, Machine.create, Machine.prepareSync, Sound.make, jsTruthy,
    Machine.init, assocGet, assocSet, SILENCE, DEFAULT_VOLUME, envP, envDur, M5, M6b]

theorem C7_counterexample :
    (assocGet M6b.store 3).map (fun sl => sl.sound) = some (some 0) ∧
    (assocGet M6b.store 3).map (fun sl => sl.audio.paused) = some false ∧
    M6b.activeId = some 3 ∧
    (assocGet (M6b.destroySoundHowl 1).store 3).map (fun sl => sl.audio.paused) = some true := by
  refine ⟨by simp [M6b, assocGet], by simp [M6b, assocGet], rfl, ?_⟩
  simp [M6b, Machine.destroySoundHowl, Machine.updSlot, Machine.setSlot, assocGet, assocSet]

theorem C7_witness :
    (M6b.destroyCall 1).store = M6b.store :=
  (C7_destroy_effects M6b 1 (by simp [M6b, assocGet])).1.2.1 3
    { url := "A", sound := some 0, volume := 1, gainValue := 1, pauseAfterPlay := false,
      audio := { src := "A", paused := false, currentTime := 0, duration := 10 } }
    rfl (by simp [M6b, assocGet]) (by simp)

theorem C9_position_duration (m : Machine) (sid : Nat) :
    (m.activeId = none → m.positionOf sid = 0 ∧ m.durationOf sid = Except.error ()) ∧
    (∀ aid asl, m.activeId = some aid → assocGet m.store aid = some asl →
      (asl.sound ≠ some sid → m.positionOf sid = 0 ∧ m.durationOf sid = Except.ok 0) ∧
      (asl.sound = some sid →
        m.positionOf sid = ⌊asl.audio.currentTime * 1000⌋ ∧
        m.durationOf sid = Except.ok ⌊asl.audio.duration * 1000⌋)) := by
  constructor
  · intro hA
    simp [Machine.positionOf, Machine.durationOf, hA]
  · intro aid asl hA hget
    constructor
    · intro hne
      simp [Machine.positionOf, Machine.durationOf, hA, hget, hne]
    · intro heq
      simp [Machine.positionOf, Machine.durationOf, hA, hget, heq]

theorem C9_counterexample :
    Machine.init.durationOf 0 = Except.error () ∧
    ¬ Machine.init.durationOf 0 = Except.ok 0 ∧
    Machine.init.positionOf 0 = 0 :=
  ⟨rfl, by simp [Machine.durationOf, Machine.init], rfl⟩

theorem C9_witness :
    M6b.positionOf 0
      = ⌊({ url := "A", sound := some 0, volume := 1, gainValue := 1, pauseAfterPlay := false,
            audio := { src := "A", paused := false, currentTime := 0, duration := 10 } } : Slot).audio.currentTime * 1000⌋ :=
  (((C9_position_duration M6b 0).2 3 _ rfl (by simp [M6b, assocGet])).2 rfl).1

theorem C6_create (m : Machine) (url : String) (options : SoundConfig)
    (hfresh : ∀ q ∈ m.sounds, q.1 < m.nextId) :
    m.nextId ∉ m.sounds.map Prod.fst ∧
    m.nextId ∈ (m.create url options).registry ∧
    (m.nextId, Sound.make url options) ∈ (m.create url options).sounds ∧
    (m.activeId = none → (m.create url options).prepareWhenReady = some url) ∧
    (∀ aid pid psl, m.activeId = some aid → m.preparingId = some pid →
      assocGet m.store pid = some psl →
      (psl.audio.src = SILENCE → url ≠ SILENCE →
        (m.create url options).prepareWhenReady = none ∧
        Kont.prepThen url options.startPosition none ∈ (m.create url options).konts) ∧
      (psl.audio.src ≠ SILENCE →
        (m.create url options).prepareWhenReady = m.prepareWhenReady ∧
        (m.create url options).konts = m.konts ∧
        (m.create url options).store = m.store)) := by
  have hfresh2 : m.nextId ∉ m.sounds.map Prod.fst := by
    intro hmem
    obtain ⟨q, hq, hq1⟩ := List.mem_map.mp hmem
    exact absurd (hfresh q hq) (by rw [hq1]; exact lt_irrefl _)
  refine ⟨hfresh2, ?_, ?_, ?_, ?_⟩
  · rcases hA : m.activeId with _ | aid
    · simp [Machine.create, hA]
    · rcases hP : m.preparingId with _ | pid
      · simp [Machine.create, hA, hP]
      · rcases hG : assocGet m.store pid with _ | psl
        · simp [Machine.create, hA, hP, hG]
        · by_cases hS : psl.audio.src = SILENCE
          · simp only [Machine.create, hA, hP, hG, hS, if_pos rfl]
            by_cases hU : psl.audio.src = (Sound.make url options).url
            · simp only [Machine.prepareSync, hP, hG]
              rw [if_neg (not_not_intro hU)]
              simp [apply_ite Machine.registry, Machine.setSlot]
            · simp only [Machine.prepareSync, hP, hG]
              rw [if_pos hU]
              simp
          · simp [Machine.create, hA, hP, hG, hS]
  · rcases hA : m.activeId with _ | aid
    · simp [Machine.create, hA]
    · rcases hP : m.preparingId with _ | pid
      · simp [Machine.create, hA, hP]
      · rcases hG : assocGet m.store pid with _ | psl
        · simp [Machine.create, hA, hP, hG]
        · by_cases hS : psl.audio.src = SILENCE
          · simp only [Machine.create, hA, hP, hG, hS, if_pos rfl]
            by_cases hU : psl.audio.src = (Sound.make url options).url
            · simp only [Machine.prepareSync, hP, hG]
              rw [if_neg (not_not_intro hU)]
              simp [apply_ite Machine.sounds, Machine.setSlot]
            · simp only [Machine.prepareSync, hP, hG]
              rw [if_pos hU]
              simp
          · simp [Machine.create, hA, hP, hG, hS]
  · intro hA
    simp [Machine.create, hA]
  · intro aid pid psl hA hP hG
    constructor
    · intro hS hU
      have hne : psl.audio.src ≠ url := by rw [hS]; exact fun hh => hU hh.symm
      have hne2 : psl.audio.src ≠ (Sound.make url options).url := by
        simp only [Sound.make]; exact hne
      have hne3 : SILENCE ≠ (Sound.make url options).url := hS ▸ hne2
      simp only [Machine.create, hA, hP, hG, hS, if_pos rfl, Machine.prepareSync, if_true]
      rw [if_pos hne3]
      simp [Sound.make]
    · intro hS
      simp [Machine.create, hA, hP, hG, hS]

theorem C6_counterexample :
    M3.activeId = some 0 ∧
    M3.preparingId = some 3 ∧
    (assocGet M3.store 3).map (fun sl => sl.audio.src) = some "A" ∧
    (M3.create "C" {}).prepareWhenReady = none ∧
    (M3.create "C" {}).prepareWhenReady ≠ some "C" ∧
    (M3.create "C" {}).konts = M3.konts ∧
    (M3.create "C" {}).store = M3.store := by
  refine ⟨rfl, rfl, by simp [M3, assocGet], ?_, ?_, ?_, ?_⟩ <;>
    simp [M3, Machine.create, assocGet, SILENCE]

theorem C6_witness :
    (M1.create "C" {}).prepareWhenReady = none ∧
    Kont.prepThen "C" none none ∈ (M1.create "C" {}).konts :=
  ((C6_create M1 "C" {} (by simp [M1])).2.2.2.2 0 2
    { url := "silence", sound := none, volume := 1, gainValue := 1, pauseAfterPlay := false,
      audio := { src := "silence", paused := true, currentTime := 0, duration := 1 } }
    rfl rfl (by simp [M1, assocGet])).1 (by simp [SILENCE]) (by simp [SILENCE])

end FeedSpeaker

namespace FeedSpeaker

theorem assocGet_assocSet_eq {α : Type} (l : List (Nat × α)) (k : Nat) (v : α) :
    assocGet (assocSet l k v) k = (assocGet l k).map (fun _ => v) := by
  induction l with
  | nil => simp [assocGet, assocSet]
  | cons a t ih =>
    by_cases hak : a.1 = k
    · simp [assocGet, assocSet, hak]
    · simp only [assocGet, assocSet, if_neg hak]
      exact ih

theorem C1_position_update (P : ℚ → ℚ) (m : Machine)
    (aid fid : Nat) (asl : Slot) (sid : Nat) (s : Sound) (t : ℚ)
    (hA : m.activeId = some aid) (hF : m.fadingId = some fid) (hne : aid ≠ fid)
    (hget : assocGet m.store aid = some asl)
    (hsound : asl.sound = some sid) (hs : assocGet m.sounds sid = some s)
    (hsrc : asl.audio.src ≠ SILENCE) (hurl : s.url = asl.audio.src)
    (hsub : sid ∉ m.off) (hpwr : m.prepareWhenReady = none) :
    ((jsTruthy s.endPosition = true ∧ s.endPosition.getD 0 / 1000 ≤ t) →
      assocGet (m.tick P aid t).store aid
          = some { asl with sound := none,
                            audio := { asl.audio with currentTime := t, src := SILENCE } } ∧
      (m.tick P aid t).trace = m.trace ++ [(sid, Ev.finish false)]) ∧
    (¬ (jsTruthy s.endPosition = true ∧ s.endPosition.getD 0 / 1000 ≤ t) →
      (jsTruthy s.fadeOutEnd = true ∧ jsGE t s.fadeOutStart = true) →
      (m.tick P aid t).activeId = some fid ∧
      (m.tick P aid t).fadingId = some aid ∧
      (assocGet (m.tick P aid t).store aid).map Slot.volume
          = some (calculatedVolume s t (s.gainAdjustedVolume P m.vol)) ∧
      (assocGet (m.tick P aid t).store aid).map Slot.sound = some (some sid) ∧
      (m.tick P aid t).trace = m.trace ++ [(sid, Ev.finish false)]) ∧
    (¬ (jsTruthy s.endPosition = true ∧ s.endPosition.getD 0 / 1000 ≤ t) →
      ¬ (jsTruthy s.fadeOutEnd = true ∧ jsGE t s.fadeOutStart = true) →
      (m.tick P aid t).activeId = some aid ∧
      (assocGet (m.tick P aid t).store aid).map Slot.volume
          = some (calculatedVolume s t (s.gainAdjustedVolume P m.vol)) ∧
      (assocGet (m.tick P aid t).store aid).map Slot.sound = some (some sid) ∧
      (m.tick P aid t).trace = m.trace ++ [(sid, Ev.elapse)]) := by
  set asl1 : Slot := { asl with audio := { asl.audio with currentTime := t } } with hasl1
  have hget1 : assocGet (assocSet m.store aid asl1) aid = some asl1 :=
    assocGet_assocSet_self _ _ _ _ hget
  have hnef : fid ≠ aid := Ne.symm hne
  have htick : m.tick P aid t
      = (m.setSlot aid asl1).ontimeupdate P aid := by
    rw [Machine.tick, hget]
  rw [htick]
  rw [Machine.ontimeupdate]
  simp only [Machine.setSlot, hA, hF, hget1]
  rw [if_neg (by simp [asl1]; exact hsrc : ¬ asl1.audio.src = SILENCE)]
  rw [if_neg (by simp [hne] : ¬ (aid = fid ∧ asl1.sound.isSome = true))]
  rw [if_neg (by simp : ¬ aid ≠ aid)]
  have hsound1 : asl1.sound = some sid := hsound
  simp only [hsound, hsound1, hs]
  rw [if_neg (not_not_intro (by simp [asl1]; exact hurl) : ¬ s.url ≠ asl1.audio.src)]
  refine ⟨?_, ?_, ?_⟩
  · rintro ⟨h1, h2⟩
    rw [if_pos ⟨h1, h2⟩]
    simp [Machine.retryPrepare, Machine.deliver, Machine.setSlot, hsub, hpwr,
      assocGet_assocSet_eq, hget]
  · intro h1 h2
    rw [if_neg h1]
    rw [if_pos h2]
    rcases hfid : assocGet m.store fid with _ | fsl <;>
      simp [Machine.retryPrepare, Machine.setVolumeOn, Machine.setSlot, hget1, hsound,
        hsound1, hs, Machine.updSlot, Machine.deliver, hpwr, hfid, assocGet_assocSet_eq,
        assocGet_assocSet_ne, hne, hnef, hget, hsub]
  · intro h1 h2
    rw [if_neg h1]
    rw [if_neg h2]
    simp [Machine.retryPrepare, Machine.setVolumeOn, Machine.setSlot, hget1, hsound,
      hsound1, hs, Machine.deliver, hpwr, assocGet_assocSet_eq, assocGet_assocSet_ne,
      hne, hnef, hget, hsub]

/-- Witness for C1 at the playing state of the replay scenario, with a
position update at two seconds (before the fade-out window): the elapse
branch fires. -/
theorem C1_witness :
    (M5.tick envP 3 2).trace = M5.trace ++ [(0, Ev.elapse)] :=
  ((C1_position_update envP M5 3 1
      { url := "A", sound := some 0, volume := 1, gainValue := 1, pauseAfterPlay := false,
        audio := { src := "A", paused := false, currentTime := 0, duration := 10 } }
      0
      { url := "A", startPosition := none, endPosition := none, fadeInSeconds := none,
        fadeOutSeconds := some 3, fadeInStart := 0, fadeInEnd := 0, fadeOutStart := some 7,
        fadeOutEnd := some 10, gain := 0 }
      2 rfl rfl (by norm_num) (by simp [M5, assocGet]) rfl (by simp [M5, assocGet])
      (by simp [SILENCE]) rfl (by simp [M5]) rfl).2.2
    (by simp [jsTruthy]) (by norm_num [jsGE, jsTruthy])).2.2.2

end FeedSpeaker

namespace FeedSpeaker

theorem setSlot_off (m : Machine) (k : Nat) (v : Slot) : (m.setSlot k v).off = m.off := rfl

theorem setSlot_trace (m : Machine) (k : Nat) (v : Slot) : (m.setSlot k v).trace = m.trace := rfl

theorem updSlot_off (m : Machine) (k : Nat) (f : Slot → Slot) :
    (m.updSlot k f).off = m.off := by
  rw [Machine.updSlot]; repeat' split
  all_goals rfl

theorem updSlot_trace (m : Machine) (k : Nat) (f : Slot → Slot) :
    (m.updSlot k f).trace = m.trace := by
  rw [Machine.updSlot]; repeat' split
  all_goals rfl

theorem setVolumeOn_off (P : ℚ → ℚ) (m : Machine) (k : Nat) (so : Option Sound) :
    (m.setVolumeOn P k so).off = m.off := by
  rw [Machine.setVolumeOn]; repeat' split
  all_goals rfl

theorem setVolumeOn_trace (P : ℚ → ℚ) (m : Machine) (k : Nat) (so : Option Sound) :
    (m.setVolumeOn P k so).trace = m.trace := by
  rw [Machine.setVolumeOn]; repeat' split
  all_goals rfl

theorem prepareSync_off (m : Machine) (url : String) (sp : Option ℚ) (asm : Option Nat) :
    (m.prepareSync url sp asm).off = m.off := by
  rw [Machine.prepareSync]; repeat' split
  all_goals rfl

theorem prepareSync_trace (m : Machine) (url : String) (sp : Option ℚ) (asm : Option Nat) :
    (m.prepareSync url sp asm).trace = m.trace := by
  rw [Machine.prepareSync]; repeat' split
  all_goals rfl

theorem prepare_off (m : Machine) (url : String) : (m.prepare url).off = m.off := by
  rw [Machine.prepare]; repeat' split
  all_goals first | rfl | exact prepareSync_off _ _ _ _

theorem prepare_trace (m : Machine) (url : String) : (m.prepare url).trace = m.trace := by
  rw [Machine.prepare]; repeat' split
  all_goals first | rfl | exact prepareSync_trace _ _ _ _

theorem retryPrepare_off (m : Machine) : m.retryPrepare.off = m.off := by
  rw [Machine.retryPrepare]; split
  · exact prepare_off _ _
  · rfl

theorem retryPrepare_trace (m : Machine) : m.retryPrepare.trace = m.trace := by
  rw [Machine.retryPrepare]; split
  · exact prepare_trace _ _
  · rfl

theorem deliver_off (m : Machine) (a : Nat) (e : Ev) : (m.deliver a e).off = m.off := by
  rw [Machine.deliver]; split
  all_goals rfl

theorem deliver_filter_off (m : Machine) (sid a : Nat) (e : Ev) (h : sid ∈ m.off) :
    (m.deliver a e).trace.filter (fun p => p.1 == sid) = m.trace.filter (fun p => p.1 == sid) := by
  by_cases hmem : a ∈ m.off
  · simp [Machine.deliver, hmem]
  · have hne : (a == sid) = false := by
      rw [beq_eq_false_iff_ne]
      exact fun hh => hmem (hh ▸ h)
    simp [Machine.deliver, hmem, List.filter_append, hne]

theorem preemptPreparing_off (m : Machine) (aid : Nat) :
    (m.preemptPreparing aid).off = m.off := by
  rw [Machine.preemptPreparing]; repeat' split
  all_goals simp [deliver_off, setSlot_off]

theorem preemptPreparing_filter_off (m : Machine) (sid aid : Nat) (h : sid ∈ m.off) :
    (m.preemptPreparing aid).trace.filter (fun p => p.1 == sid)
      = m.trace.filter (fun p => p.1 == sid) := by
  rw [Machine.preemptPreparing]; repeat' split
  all_goals simp [deliver_filter_off, Machine.setSlot, h]

theorem assemblePlay_ot (P : ℚ → ℚ) (m : Machine) (s : Sound) (k sid : Nat)
    (h : sid ∈ m.off) :
    sid ∈ (m.assemblePlay P s k).off ∧
    (m.assemblePlay P s k).soundTrace sid = m.soundTrace sid := by
  rw [Machine.assemblePlay]
  repeat' split
  all_goals
    simp [h, Machine.soundTrace, updSlot_off, preemptPreparing_off, setVolumeOn_off,
      updSlot_trace, setVolumeOn_trace, preemptPreparing_filter_off]

end FeedSpeaker

namespace FeedSpeaker

theorem playKResolve_ot (m : Machine) (x slotRef : Nat) (ok : Bool) (sid : Nat)
    (h : sid ∈ m.off) :
    sid ∈ (m.playKResolve x slotRef ok).off ∧
    (m.playKResolve x slotRef ok).soundTrace sid = m.soundTrace sid := by
  rw [Machine.playKResolve]
  repeat' split
  all_goals
    simp [h, Machine.soundTrace, Machine.setSlot, updSlot_off, updSlot_trace,
      deliver_off, deliver_filter_off]
  all_goals repeat' split
  all_goals
    simp [h, Machine.soundTrace, Machine.setSlot, updSlot_off, updSlot_trace,
      deliver_off, deliver_filter_off]

theorem resumeKResolve_ot (m : Machine) (x : Nat) (ok : Bool) (sid : Nat)
    (h : sid ∈ m.off) :
    sid ∈ (m.resumeKResolve x ok).off ∧
    (m.resumeKResolve x ok).soundTrace sid = m.soundTrace sid := by
  rw [Machine.resumeKResolve]
  repeat' split
  all_goals
    simp [h, Machine.soundTrace, updSlot_off, updSlot_trace,
      deliver_off, deliver_filter_off]

theorem fadeResumeKResolve_ot (m : Machine) (ok : Bool) (sid : Nat)
    (h : sid ∈ m.off) :
    sid ∈ (m.fadeResumeKResolve ok).off ∧
    (m.fadeResumeKResolve ok).soundTrace sid = m.soundTrace sid := by
  rw [Machine.fadeResumeKResolve]
  repeat' split
  all_goals simp [h, Machine.soundTrace, updSlot_off, updSlot_trace]

theorem prepResolve_ot (P : ℚ → ℚ) (dur : String → ℚ) (m : Machine)
    (url : String) (asm : Option Nat) (sid : Nat) (h : sid ∈ m.off) :
    sid ∈ (m.prepResolve P dur url asm).off ∧
    (m.prepResolve P dur url asm).soundTrace sid = m.soundTrace sid := by
  rw [Machine.prepResolve.eq_def]
  repeat' split
  all_goals simp only [Machine.soundTrace]
  all_goals repeat' split
  all_goals
    first
    | exact ⟨h, rfl⟩
    | exact ⟨h, trivial⟩
    | exact ⟨(assemblePlay_ot P { m with store := m.store ++ [(m.nextSlotId, Slot.fresh url (dur url))], preparingId := some m.nextSlotId, nextSlotId := m.nextSlotId + 1 } _ _ sid h).1,
             (assemblePlay_ot P { m with store := m.store ++ [(m.nextSlotId, Slot.fresh url (dur url))], preparingId := some m.nextSlotId, nextSlotId := m.nextSlotId + 1 } _ _ sid h).2⟩

end FeedSpeaker

namespace FeedSpeaker

theorem create_ot (m : Machine) (url : String) (options : SoundConfig) (sid : Nat)
    (h : sid ∈ m.off) :
    sid ∈ (m.create url options).off ∧
    (m.create url options).soundTrace sid = m.soundTrace sid := by
  rw [Machine.create.eq_def]
  repeat' split
  all_goals simp only [Machine.soundTrace]
  all_goals repeat' split
  all_goals
    first
    | exact ⟨h, rfl⟩
    | exact ⟨h, trivial⟩
    | simp [h, Machine.soundTrace, prepareSync_off, prepareSync_trace]

theorem initResolve_ot (m : Machine) (dur : String → ℚ) (sid : Nat)
    (h : sid ∈ m.off) :
    sid ∈ (m.initResolve dur).off ∧
    (m.initResolve dur).soundTrace sid = m.soundTrace sid := by
  rw [Machine.initResolve.eq_def]
  repeat' split
  all_goals simp only [Machine.soundTrace]
  all_goals repeat' split
  all_goals
    first
    | exact ⟨h, rfl⟩
    | exact ⟨h, trivial⟩

theorem playCall_ot (P : ℚ → ℚ) (m : Machine) (x : Nat) (sid : Nat)
    (h : sid ∈ m.off) :
    sid ∈ (m.playCall P x).off ∧
    (m.playCall P x).soundTrace sid = m.soundTrace sid := by
  rw [Machine.playCall.eq_def]
  repeat' split
  all_goals simp only [Machine.soundTrace]
  all_goals repeat' split
  all_goals
    first
    | exact ⟨h, rfl⟩
    | exact ⟨h, trivial⟩
    | exact ⟨(assemblePlay_ot P m _ _ sid h).1, (assemblePlay_ot P m _ _ sid h).2⟩
    | simp [h, Machine.soundTrace, Machine.setSlot, prepareSync_off, prepareSync_trace]

theorem ontimeupdate_ot (P : ℚ → ℚ) (m : Machine) (slotId : Nat) (sid : Nat)
    (h : sid ∈ m.off) :
    sid ∈ (m.ontimeupdate P slotId).off ∧
    (m.ontimeupdate P slotId).soundTrace sid = m.soundTrace sid := by
  rw [Machine.ontimeupdate.eq_def]
  repeat' split
  all_goals simp only [Machine.soundTrace]
  all_goals repeat' split
  all_goals
    first
    | exact ⟨h, rfl⟩
    | exact ⟨h, trivial⟩
    | simp [h, Machine.soundTrace, Machine.setSlot, updSlot_off, updSlot_trace,
        deliver_off, deliver_filter_off, setVolumeOn_off, setVolumeOn_trace,
        retryPrepare_off, retryPrepare_trace]

theorem tick_ot (P : ℚ → ℚ) (m : Machine) (slotId : Nat) (t : ℚ) (sid : Nat)
    (h : sid ∈ m.off) :
    sid ∈ (m.tick P slotId t).off ∧
    (m.tick P slotId t).soundTrace sid = m.soundTrace sid := by
  rw [Machine.tick.eq_def]
  repeat' split
  all_goals
    first
    | exact ⟨h, rfl⟩
    | · rename_i sl hsl
        exact ⟨(ontimeupdate_ot P
            (m.setSlot slotId { sl with audio := { sl.audio with currentTime := t } })
            slotId sid h).1,
          (ontimeupdate_ot P
            (m.setSlot slotId { sl with audio := { sl.audio with currentTime := t } })
            slotId sid h).2⟩

theorem pauseEvent_ot (m : Machine) (slotId : Nat) (sid : Nat) (h : sid ∈ m.off) :
    sid ∈ (m.pauseEvent slotId).off ∧
    (m.pauseEvent slotId).soundTrace sid = m.soundTrace sid := by
  rw [Machine.pauseEvent.eq_def]
  repeat' split
  all_goals simp only [Machine.soundTrace]
  all_goals repeat' split
  all_goals
    first
    | exact ⟨h, rfl⟩
    | exact ⟨h, trivial⟩
    | simp [h, Machine.soundTrace, deliver_off, deliver_filter_off]

theorem closedEvent_ot (m : Machine) (slotId : Nat) (sid : Nat) (h : sid ∈ m.off) :
    sid ∈ (m.closedEvent slotId).off ∧
    (m.closedEvent slotId).soundTrace sid = m.soundTrace sid := by
  rw [Machine.closedEvent.eq_def]
  repeat' split
  all_goals simp only [Machine.soundTrace]
  all_goals repeat' split
  all_goals
    first
    | exact ⟨h, rfl⟩
    | exact ⟨h, trivial⟩
    | simp [h, Machine.soundTrace, Machine.setSlot, deliver_off, deliver_filter_off]

theorem pauseCall_ot (m : Machine) (x : Nat) (sid : Nat) (h : sid ∈ m.off) :
    sid ∈ (m.pauseCall x).off ∧
    (m.pauseCall x).soundTrace sid = m.soundTrace sid := by
  rw [Machine.pauseCall.eq_def]
  repeat' split
  all_goals simp only [Machine.soundTrace]
  all_goals repeat' split
  all_goals
    first
    | exact ⟨h, rfl⟩
    | exact ⟨h, trivial⟩
    | simp [h, Machine.soundTrace, Machine.setSlot, updSlot_off, updSlot_trace]

theorem destroyCall_ot (m : Machine) (x : Nat) (sid : Nat) (h : sid ∈ m.off) :
    sid ∈ (m.destroyCall x).off ∧
    (m.destroyCall x).soundTrace sid = m.soundTrace sid := by
  rw [Machine.destroyCall.eq_def]
  repeat' split
  all_goals simp only [Machine.soundTrace]
  all_goals repeat' split
  all_goals
    first
    | exact ⟨h, rfl⟩
    | exact ⟨h, trivial⟩
    | simp [h, Machine.soundTrace, Machine.setSlot]

theorem setVolumeCall_ot (P : ℚ → ℚ) (m : Machine) (v : ℚ) (sid : Nat)
    (h : sid ∈ m.off) :
    sid ∈ (m.setVolumeCall P v).off ∧
    (m.setVolumeCall P v).soundTrace sid = m.soundTrace sid := by
  rw [Machine.setVolumeCall.eq_def]
  repeat' split
  all_goals simp only [Machine.soundTrace]
  all_goals repeat' split
  all_goals
    first
    | exact ⟨h, rfl⟩
    | exact ⟨h, trivial⟩
    | simp [h, Machine.soundTrace, setVolumeOn_off, setVolumeOn_trace]

theorem destroyFold_ot (l : List Nat) :
    ∀ (m : Machine) (sid : Nat), sid ∈ m.off →
      sid ∈ (l.foldl (fun acc x => acc.destroyCall x) m).off ∧
      (l.foldl (fun acc x => acc.destroyCall x) m).soundTrace sid = m.soundTrace sid := by
  induction l with
  | nil => exact fun m sid h => ⟨h, rfl⟩
  | cons a t ih =>
    intro m sid h
    have h1 := destroyCall_ot m a sid h
    have h2 := ih (m.destroyCall a) sid h1.1
    exact ⟨h2.1, h2.2.trans h1.2⟩

theorem flushCall_ot (m : Machine) (sid : Nat) (h : sid ∈ m.off) :
    sid ∈ m.flushCall.off ∧ m.flushCall.soundTrace sid = m.soundTrace sid := by
  rw [Machine.flushCall]
  exact destroyFold_ot m.registry m sid h

theorem resolveKont_ot (P : ℚ → ℚ) (dur : String → ℚ) (m : Machine)
    (i : Nat) (ok : Bool) (sid : Nat) (h : sid ∈ m.off) :
    sid ∈ (m.resolveKont P dur i ok).off ∧
    (m.resolveKont P dur i ok).soundTrace sid = m.soundTrace sid := by
  rw [Machine.resolveKont.eq_def]
  repeat' split
  all_goals simp only [Machine.soundTrace]
  all_goals repeat' split
  all_goals
    first
    | exact ⟨h, rfl⟩
    | exact ⟨h, trivial⟩
    | exact ⟨(prepResolve_ot P dur { m with konts := m.konts.eraseIdx i } _ _ sid h).1,
             (prepResolve_ot P dur { m with konts := m.konts.eraseIdx i } _ _ sid h).2⟩
    | exact ⟨(playKResolve_ot { m with konts := m.konts.eraseIdx i } _ _ ok sid h).1,
             (playKResolve_ot { m with konts := m.konts.eraseIdx i } _ _ ok sid h).2⟩
    | exact ⟨(resumeKResolve_ot { m with konts := m.konts.eraseIdx i } _ ok sid h).1,
             (resumeKResolve_ot { m with konts := m.konts.eraseIdx i } _ ok sid h).2⟩
    | exact ⟨(fadeResumeKResolve_ot { m with konts := m.konts.eraseIdx i } ok sid h).1,
             (fadeResumeKResolve_ot { m with konts := m.konts.eraseIdx i } ok sid h).2⟩

theorem step_ot (P : ℚ → ℚ) (dur : String → ℚ) (m : Machine) (op : Op) (sid : Nat)
    (h : sid ∈ m.off) :
    sid ∈ (m.step P dur op).off ∧
    (m.step P dur op).soundTrace sid = m.soundTrace sid := by
  cases op
  all_goals simp only [Machine.step]
  · exact create_ot m _ _ sid h
  · exact initResolve_ot m dur sid h
  · exact playCall_ot P m _ sid h
  · exact resolveKont_ot P dur m _ _ sid h
  · exact tick_ot P m _ _ sid h
  · exact pauseEvent_ot m _ sid h
  · exact closedEvent_ot m _ sid h
  · exact pauseCall_ot m _ sid h
  · exact destroyCall_ot m _ sid h
  · exact flushCall_ot m sid h
  · exact setVolumeCall_ot P m _ sid h

theorem foldl_step_ot (P : ℚ → ℚ) (dur : String → ℚ) (ops : List Op) :
    ∀ (m : Machine) (sid : Nat), sid ∈ m.off →
      sid ∈ (ops.foldl (Machine.step P dur) m).off ∧
      (ops.foldl (Machine.step P dur) m).soundTrace sid = m.soundTrace sid := by
  induction ops with
  | nil => exact fun m sid h => ⟨h, rfl⟩
  | cons a t ih =>
    intro m sid h
    have h1 := step_ot P dur m a sid h
    have h2 := ih (m.step P dur a) sid h1.1
    exact ⟨h2.1, h2.2.trans h1.2⟩

end FeedSpeaker

namespace FeedSpeaker

/-- C2: a Sound destroyed while its start call is outstanding is detected at
resolution via its absence from the registry: the resource it was started on
is paused and pointed at silence, the resolution emits nothing, and (the
sound being unsubscribed) no event is ever delivered for it afterwards
either. -/
theorem C2_destroyed_silenced (P : ℚ → ℚ) (dur : String → ℚ) (m : Machine)
    (i x slotRef : Nat) (s : Sound) (me : Slot)
    (hk : m.konts.get? i = some (Kont.playK x slotRef))
    (hs : assocGet m.sounds x = some s)
    (hreg : x ∉ m.registry)
    (hoff : x ∈ m.off)
    (hme : assocGet m.store slotRef = some me)
    (hurl : me.audio.src = s.url) :
    assocGet (m.resolveKont P dur i true).store slotRef =
      some { me with audio := { me.audio with paused := true, src := SILENCE } } ∧
    (m.resolveKont P dur i true).trace = m.trace ∧
    ∀ ops : List Op,
      (ops.foldl (Machine.step P dur) (m.resolveKont P dur i true)).soundTrace x
        = m.soundTrace x := by
  have hkey : m.resolveKont P dur i true =
      ({ m with konts := m.konts.eraseIdx i } : Machine).setSlot slotRef
        { me with audio := { me.audio with paused := true, src := SILENCE } } := by
    rw [Machine.resolveKont.eq_def, hk]
    simp only []
    rw [Machine.playKResolve.eq_def]
    simp only [hs, if_true]
    rw [if_neg hreg]
    simp only [hme]
    rw [if_pos hurl]
  refine ⟨?_, ?_, ?_⟩
  · rw [hkey]
    exact assocGet_assocSet_self m.store slotRef _ me hme
  · rw [hkey]; rfl
  · intro ops
    have hoff1 : x ∈ (({ m with konts := m.konts.eraseIdx i } : Machine).setSlot slotRef
        { me with audio := { me.audio with paused := true, src := SILENCE } }).off := hoff
    have h3 := foldl_step_ot P dur ops _ x hoff1
    rw [hkey]
    exact h3.2

end FeedSpeaker

namespace FeedSpeaker

set_option maxRecDepth 10000 in
/-- Witness for C2: in the replay scenario state with the start call for
sound 0 still pending, destroying sound 0 and then resolving the start call
leaves the captured player paused at silence and delivers nothing. -/
theorem C2_witness :
    assocGet ((M4.destroyCall 0).resolveKont envP envDur 0 true).store 3 =
      some { url := "A", sound := none, volume := 1, gainValue := 1,
             pauseAfterPlay := false,
             audio := { src := SILENCE, paused := true, currentTime := 0,
                        duration := 10 } } ∧
    ((M4.destroyCall 0).resolveKont envP envDur 0 true).trace = [] :=
  ⟨(C2_destroyed_silenced envP envDur (M4.destroyCall 0) 0 0 3
      { url := "A", startPosition := none, endPosition := none,
        fadeInSeconds := none, fadeOutSeconds := some 3, fadeInStart := 0,
        fadeInEnd := 0, fadeOutStart := some 0, fadeOutEnd := some 0, gain := 0 }
      { url := "A", sound := none, volume := 1, gainValue := 1,
        pauseAfterPlay := false,
        audio := { src := "A", paused := false, currentTime := 0, duration := 10 } }
      (by rfl) (by rfl) (by decide) (by decide) (by rfl) rfl).1,
   (C2_destroyed_silenced envP envDur (M4.destroyCall 0) 0 0 3
      { url := "A", startPosition := none, endPosition := none,
        fadeInSeconds := none, fadeOutSeconds := some 3, fadeInStart := 0,
        fadeInEnd := 0, fadeOutStart := some 0, fadeOutEnd := some 0, gain := 0 }
      { url := "A", sound := none, volume := 1, gainValue := 1,
        pauseAfterPlay := false,
        audio := { src := "A", paused := false, currentTime := 0, duration := 10 } }
      (by rfl) (by rfl) (by decide) (by decide) (by rfl) rfl).2.1⟩

end FeedSpeaker

namespace FeedSpeaker

theorem setSlot_rn (m : Machine) (k : Nat) (v : Slot) :
    (m.setSlot k v).registry = m.registry ∧ (m.setSlot k v).nextId = m.nextId := ⟨rfl, rfl⟩

theorem updSlot_rn (m : Machine) (k : Nat) (f : Slot → Slot) :
    (m.updSlot k f).registry = m.registry ∧ (m.updSlot k f).nextId = m.nextId := by
  rw [Machine.updSlot]; repeat' split
  all_goals exact ⟨rfl, rfl⟩

theorem setVolumeOn_rn (P : ℚ → ℚ) (m : Machine) (k : Nat) (so : Option Sound) :
    (m.setVolumeOn P k so).registry = m.registry ∧
    (m.setVolumeOn P k so).nextId = m.nextId := by
  rw [Machine.setVolumeOn]; repeat' split
  all_goals exact ⟨rfl, rfl⟩

theorem deliver_rn (m : Machine) (a : Nat) (e : Ev) :
    (m.deliver a e).registry = m.registry ∧ (m.deliver a e).nextId = m.nextId := by
  rw [Machine.deliver]; split
  all_goals exact ⟨rfl, rfl⟩

theorem prepareSync_rn (m : Machine) (url : String) (sp : Option ℚ) (asm : Option Nat) :
    (m.prepareSync url sp asm).registry = m.registry ∧
    (m.prepareSync url sp asm).nextId = m.nextId := by
  rw [Machine.prepareSync]; repeat' split
  all_goals exact ⟨rfl, rfl⟩

theorem prepare_rn (m : Machine) (url : String) :
    (m.prepare url).registry = m.registry ∧ (m.prepare url).nextId = m.nextId := by
  rw [Machine.prepare]; repeat' split
  all_goals first | exact ⟨rfl, rfl⟩ | exact prepareSync_rn _ _ _ _

theorem retryPrepare_rn (m : Machine) :
    m.retryPrepare.registry = m.registry ∧ m.retryPrepare.nextId = m.nextId := by
  rw [Machine.retryPrepare]; split
  · exact prepare_rn _ _
  · exact ⟨rfl, rfl⟩

theorem preemptPreparing_rn (m : Machine) (aid : Nat) :
    (m.preemptPreparing aid).registry = m.registry ∧
    (m.preemptPreparing aid).nextId = m.nextId := by
  rw [Machine.preemptPreparing]; repeat' split
  all_goals simp [deliver_rn, setSlot_rn]

theorem assemblePlay_rn (P : ℚ → ℚ) (m : Machine) (s : Sound) (x : Nat) :
    (m.assemblePlay P s x).registry = m.registry ∧
    (m.assemblePlay P s x).nextId = m.nextId := by
  rw [Machine.assemblePlay]; repeat' split
  all_goals
    simp [updSlot_rn, setVolumeOn_rn, preemptPreparing_rn, setSlot_rn]

theorem prepResolve_rn (P : ℚ → ℚ) (dur : String → ℚ) (m : Machine)
    (url : String) (asm : Option Nat) :
    (m.prepResolve P dur url asm).registry = m.registry ∧
    (m.prepResolve P dur url asm).nextId = m.nextId := by
  rw [Machine.prepResolve.eq_def]
  repeat' split
  all_goals try simp only []
  all_goals try repeat' split
  all_goals first | exact ⟨rfl, rfl⟩ | simp [assemblePlay_rn]

theorem playKResolve_rn (m : Machine) (x slotRef : Nat) (ok : Bool) :
    (m.playKResolve x slotRef ok).registry = m.registry ∧
    (m.playKResolve x slotRef ok).nextId = m.nextId := by
  rw [Machine.playKResolve]
  repeat' split
  all_goals try simp only []
  all_goals try repeat' split
  all_goals simp [updSlot_rn, setSlot_rn, deliver_rn]

theorem resumeKResolve_rn (m : Machine) (x : Nat) (ok : Bool) :
    (m.resumeKResolve x ok).registry = m.registry ∧
    (m.resumeKResolve x ok).nextId = m.nextId := by
  rw [Machine.resumeKResolve]
  repeat' split
  all_goals simp [updSlot_rn, deliver_rn]

theorem fadeResumeKResolve_rn (m : Machine) (ok : Bool) :
    (m.fadeResumeKResolve ok).registry = m.registry ∧
    (m.fadeResumeKResolve ok).nextId = m.nextId := by
  rw [Machine.fadeResumeKResolve]
  repeat' split
  all_goals simp [updSlot_rn]

theorem resolveKont_rn (P : ℚ → ℚ) (dur : String → ℚ) (m : Machine) (i : Nat) (ok : Bool) :
    (m.resolveKont P dur i ok).registry = m.registry ∧
    (m.resolveKont P dur i ok).nextId = m.nextId := by
  rw [Machine.resolveKont.eq_def]
  repeat' split
  all_goals try simp only []
  all_goals try repeat' split
  all_goals
    simp [prepResolve_rn, playKResolve_rn, resumeKResolve_rn, fadeResumeKResolve_rn]

theorem initResolve_rn (m : Machine) (dur : String → ℚ) :
    (m.initResolve dur).registry = m.registry ∧ (m.initResolve dur).nextId = m.nextId := by
  rw [Machine.initResolve.eq_def]
  repeat' split
  all_goals exact ⟨rfl, rfl⟩

theorem playCall_rn (P : ℚ → ℚ) (m : Machine) (x : Nat) :
    (m.playCall P x).registry = m.registry ∧ (m.playCall P x).nextId = m.nextId := by
  rw [Machine.playCall.eq_def]
  repeat' split
  all_goals try simp only []
  all_goals try repeat' split
  all_goals simp [setSlot_rn, prepareSync_rn, assemblePlay_rn]

theorem ontimeupdate_rn (P : ℚ → ℚ) (m : Machine) (slotId : Nat) :
    (m.ontimeupdate P slotId).registry = m.registry ∧
    (m.ontimeupdate P slotId).nextId = m.nextId := by
  rw [Machine.ontimeupdate.eq_def]
  repeat' split
  all_goals try simp only []
  all_goals try repeat' split
  all_goals
    simp [setSlot_rn, updSlot_rn, setVolumeOn_rn, deliver_rn, retryPrepare_rn]

theorem tick_rn (P : ℚ → ℚ) (m : Machine) (slotId : Nat) (t : ℚ) :
    (m.tick P slotId t).registry = m.registry ∧ (m.tick P slotId t).nextId = m.nextId := by
  rw [Machine.tick.eq_def]
  repeat' split
  all_goals first | exact ⟨rfl, rfl⟩ | exact ontimeupdate_rn _ _ _

theorem pauseEvent_rn (m : Machine) (slotId : Nat) :
    (m.pauseEvent slotId).registry = m.registry ∧
    (m.pauseEvent slotId).nextId = m.nextId := by
  rw [Machine.pauseEvent.eq_def]
  repeat' split
  all_goals simp [deliver_rn]

theorem closedEvent_rn (m : Machine) (slotId : Nat) :
    (m.closedEvent slotId).registry = m.registry ∧
    (m.closedEvent slotId).nextId = m.nextId := by
  rw [Machine.closedEvent.eq_def]
  repeat' split
  all_goals simp [setSlot_rn, deliver_rn]

theorem pauseCall_rn (m : Machine) (x : Nat) :
    (m.pauseCall x).registry = m.registry ∧ (m.pauseCall x).nextId = m.nextId := by
  rw [Machine.pauseCall.eq_def]
  repeat' split
  all_goals try simp only []
  all_goals try repeat' split
  all_goals simp [setSlot_rn, updSlot_rn]

theorem setVolumeCall_rn (P : ℚ → ℚ) (m : Machine) (v : ℚ) :
    (m.setVolumeCall P v).registry = m.registry ∧
    (m.setVolumeCall P v).nextId = m.nextId := by
  rw [Machine.setVolumeCall.eq_def]
  repeat' split
  all_goals try simp only []
  all_goals try repeat' split
  all_goals simp [setVolumeOn_rn]

theorem create_rn (m : Machine) (url : String) (options : SoundConfig) :
    (m.create url options).registry = m.registry ++ [m.nextId] ∧
    (m.create url options).nextId = m.nextId + 1 := by
  rw [Machine.create.eq_def]
  repeat' split
  all_goals try simp only []
  all_goals try repeat' split
  all_goals simp [prepareSync_rn]

theorem destroyCall_sounds (m : Machine) (x : Nat) :
    (m.destroyCall x).sounds = m.sounds := by
  rw [Machine.destroyCall.eq_def]
  repeat' split
  all_goals try simp only []
  all_goals try repeat' split
  all_goals rfl

theorem destroyCall_nextId (m : Machine) (x : Nat) :
    (m.destroyCall x).nextId = m.nextId := by
  rw [Machine.destroyCall.eq_def]
  repeat' split
  all_goals try simp only []
  all_goals try repeat' split
  all_goals rfl

theorem destroyCall_registry (m : Machine) (x : Nat) (s : Sound)
    (hs : assocGet m.sounds x = some s) :
    (m.destroyCall x).registry = m.registry.filter (fun k => k ≠ x) := by
  rw [Machine.destroyCall.eq_def]
  simp only [hs]
  repeat' split
  all_goals rfl

theorem destroyCall_registry_sub (m : Machine) (x y : Nat)
    (hx : x ∉ m.registry) : x ∉ (m.destroyCall y).registry := by
  rw [Machine.destroyCall.eq_def]
  repeat' split
  all_goals try simp only []
  all_goals try repeat' split
  all_goals first
    | exact hx
    | · intro hmem
        exact hx (List.mem_of_mem_filter hmem)

end FeedSpeaker

namespace FeedSpeaker

theorem destroyFold_registry (l : List Nat) : ∀ m : Machine,
    (∀ k ∈ l, (assocGet m.sounds k).isSome) →
    (l.foldl (fun acc y => acc.destroyCall y) m).registry
      = m.registry.filter (fun k => decide (k ∉ l)) := by
  induction l with
  | nil => intro m _; simp
  | cons a t ih =>
    intro m h
    obtain ⟨s, hs⟩ := Option.isSome_iff_exists.mp (h a (by simp))
    have ht : ∀ k ∈ t, (assocGet (m.destroyCall a).sounds k).isSome := by
      intro k hk; rw [destroyCall_sounds]; exact h k (List.mem_cons_of_mem _ hk)
    rw [List.foldl_cons, ih _ ht, destroyCall_registry m a s hs, List.filter_filter]
    apply List.filter_congr
    intro k _
    by_cases h1 : k = a <;> by_cases h2 : k ∈ t <;> simp [h1, h2]

theorem flushCall_registry (m : Machine)
    (h : ∀ k ∈ m.registry, (assocGet m.sounds k).isSome) :
    m.flushCall.registry = [] := by
  rw [Machine.flushCall, destroyFold_registry m.registry m h]
  simp

theorem destroyFold_reg_next (l : List Nat) : ∀ (m : Machine) (x : Nat),
    x ∉ m.registry →
    x ∉ (l.foldl (fun acc y => acc.destroyCall y) m).registry ∧
    (l.foldl (fun acc y => acc.destroyCall y) m).nextId = m.nextId := by
  induction l with
  | nil => exact fun m x hx => ⟨hx, rfl⟩
  | cons a t ih =>
    intro m x hx
    have h1 := destroyCall_registry_sub m x a hx
    have h2 := ih (m.destroyCall a) x h1
    exact ⟨h2.1, h2.2.trans (destroyCall_nextId m a)⟩

theorem step_reg_next (P : ℚ → ℚ) (dur : String → ℚ) (m : Machine) (op : Op) (x : Nat)
    (hx : x ∉ m.registry) (hlt : x < m.nextId) :
    x ∉ (m.step P dur op).registry ∧ x < (m.step P dur op).nextId := by
  cases op
  all_goals simp only [Machine.step]
  · refine ⟨?_, ?_⟩
    · rw [(create_rn m _ _).1]
      simp only [List.mem_append, List.mem_singleton]
      rintro (h | h)
      · exact hx h
      · exact Nat.ne_of_lt hlt h
    · rw [(create_rn m _ _).2]; omega
  · rw [(initResolve_rn m _).1, (initResolve_rn m _).2]; exact ⟨hx, hlt⟩
  · rw [(playCall_rn P m _).1, (playCall_rn P m _).2]; exact ⟨hx, hlt⟩
  · rw [(resolveKont_rn P dur m _ _).1, (resolveKont_rn P dur m _ _).2]; exact ⟨hx, hlt⟩
  · rw [(tick_rn P m _ _).1, (tick_rn P m _ _).2]; exact ⟨hx, hlt⟩
  · rw [(pauseEvent_rn m _).1, (pauseEvent_rn m _).2]; exact ⟨hx, hlt⟩
  · rw [(closedEvent_rn m _).1, (closedEvent_rn m _).2]; exact ⟨hx, hlt⟩
  · rw [(pauseCall_rn m _).1, (pauseCall_rn m _).2]; exact ⟨hx, hlt⟩
  · exact ⟨destroyCall_registry_sub m x _ hx, by rw [destroyCall_nextId]; exact hlt⟩
  · have h := destroyFold_reg_next m.registry m x hx
    exact ⟨h.1, by rw [Machine.flushCall] at *; rw [h.2]; exact hlt⟩
  · rw [(setVolumeCall_rn P m _).1, (setVolumeCall_rn P m _).2]; exact ⟨hx, hlt⟩

theorem foldl_reg_next (P : ℚ → ℚ) (dur : String → ℚ) (ops : List Op) :
    ∀ (m : Machine) (x : Nat), x ∉ m.registry → x < m.nextId →
      x ∉ (ops.foldl (Machine.step P dur) m).registry ∧
      x < (ops.foldl (Machine.step P dur) m).nextId := by
  induction ops with
  | nil => exact fun m x hx hlt => ⟨hx, hlt⟩
  | cons a t ih =>
    intro m x hx hlt
    have h1 := step_reg_next P dur m a x hx hlt
    exact ih (m.step P dur a) x h1.1 h1.2

/-- C8: destroy(s) removes the sound from the registry, no later operation
ever re-registers it (fresh Sounds always receive a fresh id), and flush
destroys every registered Sound, leaving the registry empty. -/
theorem C8_destroy_flush (P : ℚ → ℚ) (dur : String → ℚ) (m : Machine) (x : Nat) (s : Sound)
    (hs : assocGet m.sounds x = some s) (hlt : x < m.nextId) :
    x ∉ (m.destroyCall x).registry ∧
    (∀ ops : List Op, x ∉ (ops.foldl (Machine.step P dur) (m.destroyCall x)).registry) ∧
    ((∀ k ∈ m.registry, (assocGet m.sounds k).isSome) → m.flushCall.registry = []) := by
  have h1 : x ∉ (m.destroyCall x).registry := by
    rw [destroyCall_registry m x s hs]; simp
  refine ⟨h1, ?_, fun h => flushCall_registry m h⟩
  intro ops
  have hn : x < (m.destroyCall x).nextId := by rw [destroyCall_nextId]; exact hlt
  exact (foldl_reg_next P dur ops (m.destroyCall x) x h1 hn).1

set_option maxRecDepth 10000 in
/-- Witness for C8 in the replay scenario state with sound 0 registered:
destroying it empties the registry, two further operations do not bring it
back, and flush from the same state also empties the registry. -/
theorem C8_witness :
    0 ∉ (M4.destroyCall 0).registry ∧
    0 ∉ ([Op.playCall 0, Op.resolveKont 0 true].foldl (Machine.step envP envDur)
          (M4.destroyCall 0)).registry ∧
    M4.flushCall.registry = [] :=
  ⟨(C8_destroy_flush envP envDur M4 0
      { url := "A", startPosition := none, endPosition := none,
        fadeInSeconds := none, fadeOutSeconds := some 3, fadeInStart := 0,
        fadeInEnd := 0, fadeOutStart := some 0, fadeOutEnd := some 0, gain := 0 }
      (by rfl) (by decide)).1,
   (C8_destroy_flush envP envDur M4 0
      { url := "A", startPosition := none, endPosition := none,
        fadeInSeconds := none, fadeOutSeconds := some 3, fadeInStart := 0,
        fadeInEnd := 0, fadeOutStart := some 0, fadeOutEnd := some 0, gain := 0 }
      (by rfl) (by decide)).2.1 [Op.playCall 0, Op.resolveKont 0 true],
   (C8_destroy_flush envP envDur M4 0
      { url := "A", startPosition := none, endPosition := none,
        fadeInSeconds := none, fadeOutSeconds := some 3, fadeInStart := 0,
        fadeInEnd := 0, fadeOutStart := some 0, fadeOutEnd := some 0, gain := 0 }
      (by rfl) (by decide)).2.2 (by decide)⟩

end FeedSpeaker


namespace FeedSpeaker

theorem deliver_store (m : Machine) (a : Nat) (e : Ev) : (m.deliver a e).store = m.store := by
  rw [Machine.deliver]; split
  all_goals rfl

theorem pap_refl (m : Machine) : papPreserved m m := fun _ sl hk hf => ⟨sl, hk, hf⟩

theorem pap_store_eq {m n n2 : Machine} (hst : n2.store = n.store)
    (hp : papPreserved m n) : papPreserved m n2 := by
  intro k sl hk hf
  obtain ⟨sl2, h1, h2⟩ := hp k sl hk hf
  exact ⟨sl2, hst ▸ h1, h2⟩

theorem pap_deliver {m n : Machine} (a : Nat) (e : Ev) (hp : papPreserved m n) :
    papPreserved m (n.deliver a e) := pap_store_eq (deliver_store n a e) hp

theorem pap_setSlot {m n : Machine} {k0 : Nat} {rec psl : Slot}
    (heq : assocGet n.store k0 = some psl)
    (himp : psl.pauseAfterPlay = true → rec.pauseAfterPlay = true)
    (hp : papPreserved m n) : papPreserved m (n.setSlot k0 rec) := by
  intro k sl hk hf
  obtain ⟨sl2, h1, h2⟩ := hp k sl hk hf
  by_cases hke : k = k0
  · subst hke
    refine ⟨rec, assocGet_assocSet_self n.store k rec psl heq, ?_⟩
    apply himp
    rw [heq] at h1
    injection h1 with h1
    rw [h1]; exact h2
  · refine ⟨sl2, ?_, h2⟩
    rw [Machine.setSlot]
    show assocGet (assocSet n.store k0 rec) k = some sl2
    rw [assocGet_assocSet_ne n.store k0 k rec (fun hh => hke hh.symm)]
    exact h1

theorem pap_updSlot {m n : Machine} {k0 : Nat} {f : Slot → Slot}
    (hf : ∀ sl, (f sl).pauseAfterPlay = sl.pauseAfterPlay)
    (hp : papPreserved m n) : papPreserved m (n.updSlot k0 f) := by
  rw [Machine.updSlot]
  split
  next psl heq => exact pap_setSlot heq (fun h => (hf psl).trans h) hp
  next => exact hp

theorem pap_setVolumeOn {m n : Machine} (P : ℚ → ℚ) (k0 : Nat) (so : Option Sound)
    (hp : papPreserved m n) : papPreserved m (n.setVolumeOn P k0 so) := by
  rw [Machine.setVolumeOn]
  split
  · exact hp
  next sl heq =>
    split
    · exact hp
    · exact pap_setSlot heq (fun h => h) hp

theorem pap_prepareSync {m n : Machine} (url : String) (sp : Option ℚ)
    (asm : Option Nat) (hp : papPreserved m n) :
    papPreserved m (n.prepareSync url sp asm) := by
  rw [Machine.prepareSync]
  simp only []
  split
  · exact pap_store_eq rfl hp
  · split
    · exact pap_store_eq rfl hp
    next psl heq =>
      split
      · exact pap_store_eq rfl hp
      · split
        · exact pap_setSlot heq (fun h => h) (pap_store_eq rfl hp)
        · exact pap_store_eq rfl hp

theorem pap_prepare {m n : Machine} (url : String) (hp : papPreserved m n) :
    papPreserved m (n.prepare url) := by
  rw [Machine.prepare]
  split
  · exact pap_store_eq rfl hp
  · split
    · exact pap_store_eq rfl hp
    · split
      · exact pap_prepareSync _ _ _ hp
      · exact pap_store_eq rfl hp

theorem pap_retryPrepare {m n : Machine} (hp : papPreserved m n) :
    papPreserved m n.retryPrepare := by
  rw [Machine.retryPrepare]
  split
  · exact pap_prepare _ hp
  · exact hp

theorem pap_preempt {m n : Machine} (aid : Nat) (hp : papPreserved m n) :
    papPreserved m (n.preemptPreparing aid) := by
  rw [Machine.preemptPreparing]
  split
  next psl heq =>
    split
    · exact pap_deliver _ _ (pap_setSlot heq (fun h => h) hp)
    · exact hp
  next => exact hp

theorem pap_assemble {m n : Machine} (P : ℚ → ℚ) (s : Sound) (x : Nat)
    (hp : papPreserved m n) : papPreserved m (n.assemblePlay P s x) := by
  rw [Machine.assemblePlay]
  split
  · simp only []
    refine pap_store_eq rfl ?_
    refine pap_updSlot (fun sl => rfl) ?_
    refine pap_preempt _ ?_
    refine pap_setVolumeOn _ _ _ ?_
    refine pap_updSlot (fun sl => rfl) ?_
    exact pap_store_eq rfl hp
  · exact hp

theorem assocGet_append_left {α : Type} {l : List (Nat × α)} {k : Nat} {v : α}
    (l2 : List (Nat × α)) (h : assocGet l k = some v) :
    assocGet (l ++ l2) k = some v := by
  induction l with
  | nil => simp [assocGet] at h
  | cons a t ih =>
    by_cases hak : a.1 = k
    · simp only [assocGet, List.cons_append, if_pos hak] at h ⊢
      exact h
    · simp only [assocGet, List.cons_append, if_neg hak] at h ⊢
      exact ih h

theorem pap_store_append {m n n2 : Machine} (ext : List (Nat × Slot))
    (hst : n2.store = n.store ++ ext) (hp : papPreserved m n) : papPreserved m n2 := by
  intro k sl hk hf
  obtain ⟨sl2, h1, h2⟩ := hp k sl hk hf
  exact ⟨sl2, hst ▸ assocGet_append_left ext h1, h2⟩

theorem pap_prepResolve {m n : Machine} (P : ℚ → ℚ) (dur : String → ℚ)
    (url : String) (asm : Option Nat) (hp : papPreserved m n) :
    papPreserved m (n.prepResolve P dur url asm) := by
  rw [Machine.prepResolve.eq_def]
  simp only []
  have hp1 : papPreserved m ({ n with
      store := n.store ++ [(n.nextSlotId, Slot.fresh url (dur url))],
      preparingId := some n.nextSlotId, nextSlotId := n.nextSlotId + 1 } : Machine) :=
    pap_store_append _ rfl hp
  split
  · split
    · exact pap_assemble _ _ _ hp1
    · exact hp1
  · exact hp1

theorem pap_playKResolve {m n : Machine} (x slotRef : Nat) (ok : Bool)
    (hp : papPreserved m n) : papPreserved m (n.playKResolve x slotRef ok) := by
  rw [Machine.playKResolve]
  split
  · exact hp
  · split
    · split
      · split
        · exact hp
        next me heq =>
          simp only []
          repeat' split
          all_goals
            first
            | (refine pap_updSlot (fun sl => rfl) ?_
               refine pap_deliver _ _ ?_
               exact pap_setSlot heq
                 (fun h => by first | exact h | (split <;> exact h))
                 (pap_store_eq rfl hp))
            | (refine pap_deliver _ _ ?_
               refine pap_deliver _ _ ?_
               exact pap_setSlot heq
                 (fun h => by first | exact h | (split <;> exact h))
                 (pap_store_eq rfl hp))
            | (refine pap_deliver _ _ ?_
               exact pap_setSlot heq
                 (fun h => by first | exact h | (split <;> exact h))
                 (pap_store_eq rfl hp))
      · split
        · exact hp
        next me heq =>
          split
          · exact pap_setSlot heq (fun h => h) hp
          · exact hp
    · exact pap_deliver _ _ hp

theorem pap_resumeKResolve {m n : Machine} (x : Nat) (ok : Bool)
    (hp : papPreserved m n) : papPreserved m (n.resumeKResolve x ok) := by
  rw [Machine.resumeKResolve]
  split
  · exact pap_deliver _ _ hp
  · refine pap_deliver _ _ ?_
    split
    · exact pap_updSlot (fun sl => rfl) hp
    · exact hp

theorem pap_fadeResumeKResolve {m n : Machine} (ok : Bool)
    (hp : papPreserved m n) : papPreserved m (n.fadeResumeKResolve ok) := by
  rw [Machine.fadeResumeKResolve]
  split
  · exact hp
  · split
    · exact pap_updSlot (fun sl => rfl) hp
    · exact hp

theorem pap_resolveKont {m n : Machine} (P : ℚ → ℚ) (dur : String → ℚ)
    (i : Nat) (ok : Bool) (hp : papPreserved m n) :
    papPreserved m (n.resolveKont P dur i ok) := by
  rw [Machine.resolveKont.eq_def]
  split
  · exact hp
  next k hk =>
    simp only []
    rcases k with ⟨url, sp, asm⟩ | ⟨y, slotRef⟩ | y | y
    all_goals try simp only []
    · split
      · exact pap_prepResolve _ _ _ _ (pap_store_eq rfl hp)
      · exact pap_store_eq rfl hp
    · exact pap_playKResolve _ _ _ (pap_store_eq rfl hp)
    · exact pap_resumeKResolve _ _ (pap_store_eq rfl hp)
    · exact pap_fadeResumeKResolve _ (pap_store_eq rfl hp)

end FeedSpeaker

namespace FeedSpeaker

theorem pap_pauseCall {m n : Machine} (x : Nat) (hp : papPreserved m n) :
    papPreserved m (n.pauseCall x) := by
  rw [Machine.pauseCall.eq_def]
  split
  · exact hp
  next s hs =>
    simp only []
    split
    next =>
      split
      · exact hp
      · split
        · exact hp
        next asl heqA =>
          split
          · split
            · exact pap_setSlot heqA (fun h => h) hp
            · exact pap_setSlot heqA (fun _ => rfl) hp
          · exact hp
    next pid hF =>
      refine pap_updSlot (fun sl => rfl) ?_
      split
      · exact hp
      · split
        · exact hp
        next asl heqA =>
          split
          · split
            · exact pap_setSlot heqA (fun h => h) hp
            · exact pap_setSlot heqA (fun _ => rfl) hp
          · exact hp

theorem pap_create {m n : Machine} (url : String) (options : SoundConfig)
    (hp : papPreserved m n) : papPreserved m (n.create url options) := by
  rw [Machine.create.eq_def]
  simp only []
  split
  · exact pap_store_eq rfl hp
  · split
    · exact pap_store_eq rfl hp
    next pid hP =>
      split
      · exact pap_store_eq rfl hp
      next psl heqP =>
        split
        · exact pap_prepareSync _ _ _ (pap_store_eq rfl hp)
        · exact pap_store_eq rfl hp

theorem pap_initResolve {m n : Machine} (dur : String → ℚ) (hp : papPreserved m n) :
    papPreserved m (n.initResolve dur) := by
  rw [Machine.initResolve.eq_def]
  split
  · exact hp
  · exact pap_store_append _ rfl hp

theorem pap_playCall {m n : Machine} (P : ℚ → ℚ) (x : Nat) (hp : papPreserved m n) :
    papPreserved m (n.playCall P x) := by
  rw [Machine.playCall.eq_def]
  split
  · exact hp
  next s hs =>
    split
    · exact hp
    next aid hA =>
      split
      · exact hp
      next asl heqA =>
        split
        · split
          · simp only []
            split
            next =>
              exact pap_store_eq rfl (pap_setSlot heqA (fun h => h) hp)
            next fid hF =>
              split
              · exact pap_store_eq rfl (pap_setSlot heqA (fun h => h) hp)
              next fsl heqF =>
                split
                next fsid hfs =>
                  refine pap_store_eq rfl ?_
                  refine pap_setSlot heqF (fun h => h) ?_
                  exact pap_store_eq rfl (pap_setSlot heqA (fun h => h) hp)
                next =>
                  exact pap_store_eq rfl (pap_setSlot heqA (fun h => h) hp)
          · exact hp
        · split
          · exact hp
          next pid hP =>
            split
            · exact hp
            next psl heqP =>
              split
              · exact pap_prepareSync _ _ _ hp
              · exact pap_assemble _ _ _ hp

theorem pap_ontimeupdate {m n : Machine} (P : ℚ → ℚ) (slotId : Nat)
    (hp : papPreserved m n) : papPreserved m (n.ontimeupdate P slotId) := by
  rw [Machine.ontimeupdate.eq_def]
  split
  next aid fid hA hF =>
    split
    · exact hp
    next sl heq =>
      split
      · exact hp
      · split
        next hcond =>
          obtain ⟨hfid, -⟩ := hcond
          subst hfid
          split
          · exact hp
          next fs hfs =>
            split
            · exact pap_setSlot heq (fun h => h) hp
            · exact pap_setVolumeOn _ _ _ hp
        next hne =>
          split
          · exact hp
          next hnn =>
            have haid : slotId = aid := not_not.mp hnn
            subst haid
            split
            · exact hp
            next sid hsid =>
              split
              · exact hp
              next s hs =>
                split
                · exact hp
                next hurl =>
                  simp only []
                  split
                  · refine pap_retryPrepare ?_
                    refine pap_deliver _ _ ?_
                    exact pap_setSlot heq (fun h => h) hp
                  · split
                    · refine pap_retryPrepare ?_
                      refine pap_deliver _ _ ?_
                      refine pap_updSlot (fun sl => rfl) ?_
                      refine pap_store_eq rfl ?_
                      exact pap_setVolumeOn _ _ _ hp
                    · refine pap_retryPrepare ?_
                      refine pap_deliver _ _ ?_
                      exact pap_setVolumeOn _ _ _ hp
  next => exact hp

theorem pap_tick {m n : Machine} (P : ℚ → ℚ) (slotId : Nat) (t : ℚ)
    (hp : papPreserved m n) : papPreserved m (n.tick P slotId t) := by
  rw [Machine.tick.eq_def]
  split
  · exact hp
  next sl heq =>
    exact pap_ontimeupdate _ _ (pap_setSlot heq (fun h => h) hp)

theorem pap_pauseEvent {m n : Machine} (slotId : Nat) (hp : papPreserved m n) :
    papPreserved m (n.pauseEvent slotId) := by
  rw [Machine.pauseEvent.eq_def]
  split
  · exact hp
  next aid hA =>
    split
    · exact hp
    next sl heq =>
      split
      · exact hp
      · split
        · exact hp
        · split
          · exact hp
          next sid hsid =>
            split
            · exact hp
            next s hs =>
              split
              · exact hp
              · exact pap_deliver _ _ hp

theorem pap_closedEvent {m n : Machine} (slotId : Nat) (hp : papPreserved m n) :
    papPreserved m (n.closedEvent slotId) := by
  rw [Machine.closedEvent.eq_def]
  split
  next aid fid hA hF =>
    split
    · exact hp
    next sl heq =>
      split
      · exact hp
      · split
        next hfid =>
          subst hfid
          exact pap_setSlot heq (fun h => h) hp
        next hne =>
          split
          · exact hp
          next hnn =>
            have haid : slotId = aid := not_not.mp hnn
            subst haid
            split
            · exact hp
            next sid hsid =>
              split
              · exact hp
              next s hs =>
                split
                · exact hp
                next hurl =>
                  refine pap_deliver _ _ ?_
                  exact pap_setSlot heq (fun h => h) hp
  next => exact hp

theorem pap_destroyCall {m n : Machine} (x : Nat) (hp : papPreserved m n) :
    papPreserved m (n.destroyCall x) := by
  rw [Machine.destroyCall.eq_def]
  split
  · exact hp
  next s hs =>
    simp only []
    split
    next =>
      exact pap_store_eq rfl hp
    next aid hA =>
      split
      · exact pap_store_eq rfl hp
      next asl heqA =>
        split
        · exact pap_store_eq rfl (pap_setSlot heqA (fun h => h) (pap_store_eq rfl hp))
        · exact pap_store_eq rfl hp

theorem pap_destroyFold {m : Machine} (l : List Nat) :
    ∀ n : Machine, papPreserved m n →
      papPreserved m (l.foldl (fun acc y => acc.destroyCall y) n) := by
  induction l with
  | nil => exact fun n hp => hp
  | cons a t ih =>
    intro n hp
    exact ih (n.destroyCall a) (pap_destroyCall a hp)

theorem pap_flushCall {m n : Machine} (hp : papPreserved m n) :
    papPreserved m n.flushCall := by
  rw [Machine.flushCall]
  exact pap_destroyFold n.registry n hp

theorem pap_setVolumeCall {m n : Machine} (P : ℚ → ℚ) (v : ℚ)
    (hp : papPreserved m n) : papPreserved m (n.setVolumeCall P v) := by
  rw [Machine.setVolumeCall.eq_def]
  simp only []
  split
  · exact pap_store_eq rfl hp
  next aid hA =>
    split
    · exact pap_store_eq rfl hp
    next asl heqA =>
      split
      · exact pap_setVolumeOn _ _ _ (pap_store_eq rfl hp)
      · exact pap_store_eq rfl hp

theorem pap_step {m n : Machine} (P : ℚ → ℚ) (dur : String → ℚ) (op : Op)
    (hp : papPreserved m n) : papPreserved m (n.step P dur op) := by
  cases op
  all_goals simp only [Machine.step]
  · exact pap_create _ _ hp
  · exact pap_initResolve _ hp
  · exact pap_playCall _ _ hp
  · exact pap_resolveKont _ _ _ _ hp
  · exact pap_tick _ _ _ hp
  · exact pap_pauseEvent _ hp
  · exact pap_closedEvent _ hp
  · exact pap_pauseCall _ hp
  · exact pap_destroyCall _ hp
  · exact pap_flushCall hp
  · exact pap_setVolumeCall _ _ hp

theorem pap_foldl {m : Machine} (P : ℚ → ℚ) (dur : String → ℚ) (ops : List Op) :
    ∀ n : Machine, papPreserved m n →
      papPreserved m (ops.foldl (Machine.step P dur) n) := by
  induction ops with
  | nil => exact fun n hp => hp
  | cons a t ih =>
    intro n hp
    exact ih (n.step P dur a) (pap_step P dur a hp)

end FeedSpeaker

namespace FeedSpeaker

/-- C10: the deferred-pause flag raised by pauseSound on a slot is never
cleared by any subsequent operation, and when the start call of a later,
still registered and subscribed sound resolves on a slot whose flag is
raised, resolution emits exactly the play event and immediately re-pauses
the player, leaving the flag raised. -/
theorem C10_pauseAfterPlay (P : ℚ → ℚ) (dur : String → ℚ) (m : Machine) :
    (∀ ops : List Op, papPreserved m (ops.foldl (Machine.step P dur) m)) ∧
    (∀ i x slotRef s me,
       m.konts.get? i = some (Kont.playK x slotRef) →
       assocGet m.sounds x = some s →
       x ∈ m.registry → x ∉ m.off →
       assocGet m.store slotRef = some me → me.pauseAfterPlay = true →
       (m.resolveKont P dur i true).trace = m.trace ++ [(x, Ev.play)] ∧
       ∃ sl2, assocGet (m.resolveKont P dur i true).store slotRef = some sl2 ∧
         sl2.audio.paused = true ∧ sl2.pauseAfterPlay = true) := by
  constructor
  · exact fun ops => pap_foldl P dur ops m (pap_refl m)
  · intro i x slotRef s me hk hs hreg hoff hme hflag
    have hkey : m.resolveKont P dur i true =
        ({ m with konts := m.konts.eraseIdx i } : Machine).playKResolve x slotRef true := by
      rw [Machine.resolveKont.eq_def, hk]
    rw [hkey, Machine.playKResolve.eq_def]
    simp only [hs, if_true]
    rw [if_pos hreg]
    simp only [hme]
    by_cases hsp : jsTruthy s.startPosition = true
    · rw [if_pos hsp]
      simp only []
      rw [if_pos hflag]
      have h1 : assocGet
          ((({ m with
                konts := m.konts.eraseIdx i,
                sounds := assocSet m.sounds x (s.configureFadeOut me.audio.duration) } :
          Machine).setSlot slotRef
          { me with sound := some x,
                    audio := { me.audio with
                      currentTime := s.startPosition.getD 0 / 1000 } }).deliver
          x Ev.play).store slotRef = some
          { me with sound := some x,
                    audio := { me.audio with
                      currentTime := s.startPosition.getD 0 / 1000 } } := by
        rw [deliver_store]
        exact assocGet_assocSet_self m.store slotRef _ me hme
      constructor
      · rw [updSlot_trace]
        simp [Machine.deliver, Machine.setSlot, hoff]
      · rw [Machine.updSlot.eq_def, h1]
        simp only []
        refine ⟨{ me with
                    sound := some x,
                    audio := { me.audio with
                                 currentTime := s.startPosition.getD 0 / 1000,
                                 paused := true } }, ?_, rfl, hflag⟩

        rw [Machine.setSlot]
        show assocGet (assocSet _ slotRef _) slotRef = _
        rw [assocGet_assocSet_self _ slotRef _ _ h1]
    · rw [if_neg hsp]
      simp only []
      rw [if_pos hflag]
      have h1 : assocGet
          ((({ m with
                konts := m.konts.eraseIdx i,
                sounds := assocSet m.sounds x (s.configureFadeOut me.audio.duration) } :
          Machine).setSlot slotRef { me with sound := some x }).deliver
          x Ev.play).store slotRef = some { me with sound := some x } := by
        rw [deliver_store]
        exact assocGet_assocSet_self m.store slotRef _ me hme
      constructor
      · rw [updSlot_trace]
        simp [Machine.deliver, Machine.setSlot, hoff]
      · rw [Machine.updSlot.eq_def, h1]
        simp only []
        refine ⟨{ me with
                    sound := some x,
                    audio := { me.audio with paused := true } }, ?_, rfl, hflag⟩

        rw [Machine.setSlot]
        show assocGet (assocSet _ slotRef _) slotRef = _
        rw [assocGet_assocSet_self _ slotRef _ _ h1]

end FeedSpeaker

namespace FeedSpeaker

set_option maxRecDepth 10000 in
/-- Witness for C10: in the replay scenario state with the start call of
sound 0 pending, pausing sound 0 raises the deferred-pause flag on the
active slot, and the subsequent resolution of the start call emits exactly
play and leaves the player paused with the flag still raised. -/
theorem C10_witness :
    ((M4.pauseCall 0).resolveKont envP envDur 0 true).trace
        = (M4.pauseCall 0).trace ++ [(0, Ev.play)] ∧
    ∃ sl2, assocGet ((M4.pauseCall 0).resolveKont envP envDur 0 true).store 3 = some sl2 ∧
      sl2.audio.paused = true ∧ sl2.pauseAfterPlay = true :=
  (C10_pauseAfterPlay envP envDur (M4.pauseCall 0)).2 0 0 3
    { url := "A", startPosition := none, endPosition := none,
      fadeInSeconds := none, fadeOutSeconds := some 3, fadeInStart := 0,
      fadeInEnd := 0, fadeOutStart := some 0, fadeOutEnd := some 0, gain := 0 }
    { url := "A", sound := none, volume := 1, gainValue := 1,
      pauseAfterPlay := true,
      audio := { src := "A", paused := false, currentTime := 0, duration := 10 } }
    (by rfl) (by rfl) (by decide) (by decide) (by rfl) rfl

end FeedSpeaker

namespace FeedSpeaker

theorem playRun_append (h : List Ev) (e : Ev) (hp : playRun h = true)
    (he : e.isFinish = false) : playRun (h ++ [e]) = true := by
  rw [playRun, Bool.and_eq_true] at hp ⊢
  obtain ⟨h1, h2⟩ := hp
  constructor
  · rcases h with _ | ⟨a, t⟩
    · simp at h1
    · simpa using h1
  · rw [List.all_append]
    simp only [h2, List.all_cons, List.all_nil, Bool.and_true, Bool.true_and]
    simp [he]

theorem playRun_play_append (h : List Ev) (hp : h = [] ∨ playRun h = true) :
    playRun (h ++ [Ev.play]) = true := by
  rcases hp with rfl | hp
  · rfl
  · exact playRun_append h Ev.play hp rfl

theorem goodTrace_playRun (h : List Ev) (hp : playRun h = true) :
    goodTrace h = true := by
  rw [goodTrace, hp]
  simp

theorem good_finish_append (h : List Ev) (b : Bool)
    (hp : h = [] ∨ playRun h = true) : goodTrace (h ++ [Ev.finish b]) = true := by
  rcases hp with rfl | hp
  · rfl
  · rw [goodTrace, finishedRun]
    rw [List.getLast?_concat, List.dropLast_concat]
    simp [hp]

theorem good_notFinish (h : List Ev) (hg : goodTrace h = true)
    (hf : h.any Ev.isFinish = false) : h = [] ∨ playRun h = true := by
  rw [goodTrace, Bool.or_eq_true, Bool.or_eq_true, Bool.or_eq_true] at hg
  rcases hg with ((he | hp) | hfin) | herr
  · left; exact List.isEmpty_iff.mp he
  · right; exact hp
  · exfalso
    rw [finishedRun, Bool.and_eq_true] at hfin
    obtain ⟨h1, h2⟩ := hfin
    rcases hl : h.getLast? with _ | e
    · rw [hl] at h1; simp at h1
    · have hmem := List.mem_of_getLast?_eq_some hl
      rw [hl] at h1
      cases e with
      | finish b =>
        have hx : h.any Ev.isFinish = true := List.any_eq_true.mpr ⟨_, hmem, rfl⟩
        rw [hx] at hf; exact Bool.true_eq_false_eq_False hf
      | play => simp at h1
      | pause => simp at h1
      | elapse => simp at h1
  · exfalso
    rcases h with _ | ⟨e, t⟩
    · simp [errorOnlyRun] at herr
    · rcases t with _ | ⟨e2, t2⟩
      · rcases e <;> simp_all [errorOnlyRun, Ev.isFinish]
      · rcases e <;> simp_all [errorOnlyRun]

theorem good_finishTerminal (h : List Ev) (hg : goodTrace h = true) :
    finishTerminal h = true := by
  rw [goodTrace, Bool.or_eq_true, Bool.or_eq_true, Bool.or_eq_true] at hg
  rcases hg with ((he | hp) | hfin) | herr
  · rw [List.isEmpty_iff.mp he]; rfl
  · rw [playRun, Bool.and_eq_true] at hp
    rw [finishTerminal, List.all_eq_true]
    intro x hx
    exact List.all_eq_true.mp hp.2 x (List.dropLast_subset h hx)
  · rw [finishedRun, Bool.and_eq_true] at hfin
    rw [finishTerminal]
    rw [playRun, Bool.and_eq_true] at hfin
    exact hfin.2.2
  · rcases h with _ | ⟨e, t⟩
    · rfl
    · rcases t with _ | ⟨e2, t2⟩
      · rfl
      · rcases e <;> simp_all [errorOnlyRun]

theorem filter_eraseIdx_nil {α : Type} (p : α → Bool) :
    ∀ (l : List α) (i : Nat) (a : α), l.get? i = some a → p a = true →
      (l.filter p).length ≤ 1 → (l.eraseIdx i).filter p = [] := by
  intro l
  induction l with
  | nil => intro i a h; simp at h
  | cons b t ih =>
    intro i a hget hpa hlen
    cases i with
    | zero =>
      simp only [List.get?] at hget
      injection hget with hget
      subst hget
      rw [List.filter_cons_of_pos hpa] at hlen
      simp only [List.length_cons] at hlen
      have h0 : (t.filter p).length = 0 := by omega
      rw [List.eraseIdx_zero]
      exact List.length_eq_zero.mp h0
    | succ j =>
      simp only [List.get?] at hget
      have hmem : a ∈ t := List.get?_mem hget
      by_cases hpb : p b = true
      · exfalso
        rw [List.filter_cons_of_pos hpb] at hlen
        simp only [List.length_cons] at hlen
        have h0 : (t.filter p).length = 0 := by omega
        have : a ∈ t.filter p := List.mem_filter.mpr ⟨hmem, hpa⟩
        rw [List.length_eq_zero.mp h0] at this
        simp at this
      · have hpb2 : ¬ p b = true := hpb
        rw [List.filter_cons_of_neg hpb2] at hlen
        show ((b :: t.eraseIdx j).filter p) = []
        rw [List.filter_cons_of_neg hpb2]
        exact ih j a hget hpa hlen

theorem filter_eraseIdx_le {α : Type} (p : α → Bool) (l : List α) (i : Nat) :
    ((l.eraseIdx i).filter p).length ≤ (l.filter p).length :=
  List.Sublist.length_le (List.Sublist.filter p (List.eraseIdx_sublist l i))

end FeedSpeaker

namespace FeedSpeaker

theorem deliver_off_id (m : Machine) (a : Nat) (e : Ev) (h : a ∈ m.off) :
    m.deliver a e = m := by
  rw [Machine.deliver, if_pos h]

theorem deliver_konts (m : Machine) (a : Nat) (e : Ev) :
    (m.deliver a e).konts = m.konts := by
  rw [Machine.deliver]; split
  all_goals rfl

theorem deliver_activeId (m : Machine) (a : Nat) (e : Ev) :
    (m.deliver a e).activeId = m.activeId := by
  rw [Machine.deliver]; split
  all_goals rfl

theorem deliver_fadingId (m : Machine) (a : Nat) (e : Ev) :
    (m.deliver a e).fadingId = m.fadingId := by
  rw [Machine.deliver]; split
  all_goals rfl

theorem deliver_preparingId (m : Machine) (a : Nat) (e : Ev) :
    (m.deliver a e).preparingId = m.preparingId := by
  rw [Machine.deliver]; split
  all_goals rfl

theorem deliver_nextSlotId (m : Machine) (a : Nat) (e : Ev) :
    (m.deliver a e).nextSlotId = m.nextSlotId := by
  rw [Machine.deliver]; split
  all_goals rfl

theorem soundTrace_deliver_ne (m : Machine) (a : Nat) (e : Ev) (sid : Nat)
    (hne : a ≠ sid) : (m.deliver a e).soundTrace sid = m.soundTrace sid := by
  rw [Machine.deliver]; split
  · rfl
  · rw [Machine.soundTrace, Machine.soundTrace]
    show ((m.trace ++ [(a, e)]).filter (fun p => p.1 == sid)).map _ = _
    rw [List.filter_append]
    have : ((a, e).1 == sid) = false := by
      rw [beq_eq_false_iff_ne]; exact hne
    simp [this]

end FeedSpeaker

namespace FeedSpeaker

theorem soundTrace_deliver_self (m : Machine) (a : Nat) (e : Ev) (h : a ∉ m.off) :
    (m.deliver a e).soundTrace a = m.soundTrace a ++ [e] := by
  rw [Machine.deliver, if_neg h, Machine.soundTrace, Machine.soundTrace]
  simp [List.filter_append]

theorem anyFinish_aux (sid : Nat) : ∀ tr : List (Nat × Ev),
    (tr.any fun p => p.1 == sid && p.2.isFinish) =
      ((tr.filter (fun p => p.1 == sid)).map (fun p => p.2)).any Ev.isFinish := by
  intro tr
  induction tr with
  | nil => rfl
  | cons a t ih =>
    by_cases h1 : (a.1 == sid) = true
    · simp only [List.any_cons, List.filter_cons, h1, if_true, List.map_cons,
        Bool.true_and]
      rw [ih]
    · have h2 : (a.1 == sid) = false := by
        rcases hb : (a.1 == sid) with _ | _
        · rfl
        · exact absurd hb h1
      simp only [List.any_cons, h2, Bool.false_and, Bool.false_or]
      rw [@List.filter_cons_of_neg _ (fun q => q.1 == sid) a t h1]
      exact ih

theorem hasFinish_eq_any (m : Machine) (sid : Nat) :
    m.hasFinish sid = (m.soundTrace sid).any Ev.isFinish := by
  rw [Machine.hasFinish, Machine.soundTrace]
  exact anyFinish_aux sid m.trace

theorem soundTrace_congr (m n : Machine) (ht : n.trace = m.trace) (sid : Nat) :
    n.soundTrace sid = m.soundTrace sid := by
  rw [Machine.soundTrace, Machine.soundTrace, ht]

theorem hasFinish_congr (m n : Machine) (ht : n.trace = m.trace) (sid : Nat) :
    n.hasFinish sid = m.hasFinish sid := by
  rw [Machine.hasFinish, Machine.hasFinish, ht]

theorem hasFinish_deliver_nonfinish (m : Machine) (a : Nat) (e : Ev)
    (he : e.isFinish = false) (sid : Nat) :
    (m.deliver a e).hasFinish sid = m.hasFinish sid := by
  rw [Machine.hasFinish, Machine.hasFinish, Machine.deliver]
  split
  · rfl
  · show (m.trace ++ [(a, e)]).any _ = _
    rw [List.any_append]
    simp [he]

theorem hasFinish_deliver_ne (m : Machine) (a : Nat) (e : Ev) (sid : Nat)
    (hne : a ≠ sid) : (m.deliver a e).hasFinish sid = m.hasFinish sid := by
  rw [hasFinish_eq_any, hasFinish_eq_any, soundTrace_deliver_ne m a e sid hne]

theorem hasFinish_deliver_finish_self (m : Machine) (a : Nat) (b : Bool)
    (h : a ∉ m.off) : (m.deliver a (Ev.finish b)).hasFinish a = true := by
  rw [hasFinish_eq_any, soundTrace_deliver_self m a _ h, List.any_append]
  simp [Ev.isFinish]

theorem mem_assocSet {α : Type} : ∀ (l : List (Nat × α)) (k : Nat) (v : α)
    (pr : Nat × α), pr ∈ assocSet l k v → pr ∈ l ∨ pr = (k, v) := by
  intro l
  induction l with
  | nil =>
    intro k v pr h
    rw [assocSet] at h
    simp at h
  | cons p t ih =>
    intro k v pr h
    rw [assocSet] at h
    rcases List.mem_cons.mp h with h1 | h1
    · split at h1
      · right; exact h1
      · left; exact h1 ▸ List.mem_cons_self _ _
    · rcases ih k v pr h1 with h2 | h2
      · left; exact List.mem_cons_of_mem _ h2
      · right; exact h2

theorem assocGet_mem {α : Type} : ∀ (l : List (Nat × α)) (k : Nat) (v : α),
    assocGet l k = some v → (k, v) ∈ l := by
  intro l
  induction l with
  | nil => intro k v h; rw [assocGet] at h; exact absurd h (by simp)
  | cons p t ih =>
    intro k v h
    rw [assocGet] at h
    split at h
    next hpk =>
      injection h with h2
      rcases p with ⟨p1, p2⟩
      simp only at hpk h2
      subst hpk
      subst h2
      exact List.mem_cons_self _ _
    next => exact List.mem_cons_of_mem _ (ih k v h)

end FeedSpeaker

namespace FeedSpeaker

theorem Inv_transfer {m n : Machine} (hi : Inv m)
    (hst : n.store = m.store) (hk : n.konts = m.konts) (ht : n.trace = m.trace)
    (ho : ∀ sid, sid ∉ n.off → sid ∉ m.off)
    (ha : n.activeId = m.activeId) (hf : n.fadingId = m.fadingId)
    (hpp : n.preparingId = m.preparingId) (hn : m.nextSlotId ≤ n.nextSlotId) :
    Inv n := by
  constructor
  case g => intro sid; rw [soundTrace_congr m n ht]; exact hi.g sid
  case uq => rw [hk]; exact hi.uq
  case ab =>
    intro aid asl sid h1 h2 h3 h4
    rw [ha] at h1; rw [hst] at h2
    rw [soundTrace_congr m n ht]
    exact hi.ab aid asl sid h1 h2 h3 (ho sid h4)
  case fb =>
    intro fid fsl sid h1 h2 h3 h4
    rw [hf] at h1; rw [hst] at h2
    rw [hasFinish_congr m n ht]
    exact hi.fb fid fsl sid h1 h2 h3 (ho sid h4)
  case pb => intro pid psl h1 h2; rw [hpp] at h1; rw [hst] at h2; exact hi.pb pid psl h1 h2
  case ob => intro k sl h1 h2; rw [hst] at h1; rw [ha, hf]; exact hi.ob k sl h1 h2
  case ps =>
    intro k hkm sid hsid hoff
    rw [hk] at hkm
    obtain ⟨hh, hb⟩ := hi.ps k hkm sid hsid (ho sid hoff)
    refine ⟨?_, ?_⟩
    · rw [hasFinish_congr m n ht]; exact hh
    · intro k2 sl h2; rw [hst] at h2; exact hb k2 sl h2
  case rs =>
    intro sid h1 h2
    rw [hk] at h1; rw [hasFinish_congr m n ht]
    exact hi.rs sid h1 (ho sid h2)
  case ref => intro sid r h1; rw [hk] at h1; rw [ha]; exact hi.ref sid r h1
  case refu => intro sid r sl h1 h2; rw [hk] at h1; rw [hst] at h2; exact hi.refu sid r sl h1 h2
  case rd => intro a p h1 h2; rw [ha] at h1; rw [hpp] at h2; exact hi.rd a p h1 h2
  case rd2 => intro a f h1 h2; rw [ha] at h1; rw [hf] at h2; exact hi.rd2 a f h1 h2
  case rd3 => intro f p h1 h2; rw [hf] at h1; rw [hpp] at h2; exact hi.rd3 f p h1 h2
  case kl => intro pr h; rw [hst] at h; have := hi.kl pr h; omega
  case rla => intro a h1; rw [ha] at h1; have := hi.rla a h1; omega
  case rlf => intro f h1; rw [hf] at h1; have := hi.rlf f h1; omega
  case rlp => intro p h1; rw [hpp] at h1; have := hi.rlp p h1; omega
  case z =>
    intro hnone
    rw [ha] at hnone
    obtain ⟨h1, h2, h3, h4⟩ := hi.z hnone
    exact ⟨hst.trans h1, hk.trans h2, hf.trans h3, hpp.trans h4⟩

theorem Inv_setSlot {m : Machine} {k0 : Nat} {rec sl0 : Slot} (hi : Inv m)
    (hget : assocGet m.store k0 = some sl0) (hsound : rec.sound = sl0.sound) :
    Inv (m.setSlot k0 rec) := by
  have hget2 : ∀ k, assocGet (m.setSlot k0 rec).store k =
      if k = k0 then some rec else assocGet m.store k := by
    intro k
    by_cases h : k = k0
    · subst h; rw [if_pos rfl]
      exact assocGet_assocSet_self _ _ _ _ hget
    · rw [if_neg h]
      exact assocGet_assocSet_ne _ _ _ _ (fun hh => h hh.symm)
  have ht : (m.setSlot k0 rec).trace = m.trace := rfl
  constructor
  case g => intro sid; rw [soundTrace_congr m _ ht]; exact hi.g sid
  case uq => exact hi.uq
  case ab =>
    intro aid asl sid h1 h2 h3 h4
    rw [hget2] at h2
    rw [soundTrace_congr m _ ht]
    by_cases hk : aid = k0
    · rw [if_pos hk] at h2
      injection h2 with h2
      subst h2
      rw [hsound] at h3
      exact hi.ab aid sl0 sid h1 (hk ▸ hget) h3 h4
    · rw [if_neg hk] at h2
      exact hi.ab aid asl sid h1 h2 h3 h4
  case fb =>
    intro fid fsl sid h1 h2 h3 h4
    rw [hget2] at h2
    rw [hasFinish_congr m _ ht]
    by_cases hk : fid = k0
    · rw [if_pos hk] at h2
      injection h2 with h2
      subst h2
      rw [hsound] at h3
      exact hi.fb fid sl0 sid h1 (hk ▸ hget) h3 h4
    · rw [if_neg hk] at h2
      exact hi.fb fid fsl sid h1 h2 h3 h4
  case pb =>
    intro pid psl h1 h2
    rw [hget2] at h2
    by_cases hk : pid = k0
    · rw [if_pos hk] at h2
      injection h2 with h2
      subst h2
      rw [hsound]
      exact hi.pb pid sl0 h1 (hk ▸ hget)
    · rw [if_neg hk] at h2
      exact hi.pb pid psl h1 h2
  case ob =>
    intro k sl h1 h2
    rw [hget2] at h1
    by_cases hk : k = k0
    · rw [if_pos hk] at h1
      injection h1 with h1
      subst h1
      rw [hsound] at h2
      exact hi.ob k sl0 (hk ▸ hget) h2
    · rw [if_neg hk] at h1
      exact hi.ob k sl h1 h2
  case ps =>
    intro k hkm sid hsid hoff
    obtain ⟨hh, hb⟩ := hi.ps k hkm sid hsid hoff
    refine ⟨by rw [hasFinish_congr m _ ht]; exact hh, ?_⟩
    intro k2 sl h2
    rw [hget2] at h2
    by_cases hk : k2 = k0
    · rw [if_pos hk] at h2
      injection h2 with h2
      subst h2
      rw [hsound]
      exact hb k0 sl0 hget
    · rw [if_neg hk] at h2
      exact hb k2 sl h2
  case rs =>
    intro sid h1 h2
    rw [hasFinish_congr m _ ht]
    exact hi.rs sid h1 h2
  case ref => exact hi.ref
  case refu =>
    intro sid r sl h1 h2
    rw [hget2] at h2
    by_cases hk : r = k0
    · rw [if_pos hk] at h2
      injection h2 with h2
      subst h2
      rw [hsound]
      exact hi.refu sid r sl0 h1 (hk ▸ hget)
    · rw [if_neg hk] at h2
      exact hi.refu sid r sl h1 h2
  case rd => exact hi.rd
  case rd2 => exact hi.rd2
  case rd3 => exact hi.rd3
  case kl =>
    intro pr h
    rcases mem_assocSet m.store k0 rec pr h with h1 | h1
    · exact hi.kl pr h1
    · subst h1
      exact hi.kl (k0, sl0) (assocGet_mem m.store k0 sl0 hget)
  case rla => exact hi.rla
  case rlf => exact hi.rlf
  case rlp => exact hi.rlp
  case z =>
    intro hnone
    obtain ⟨h1, -, -, -⟩ := hi.z hnone
    rw [h1] at hget
    exact absurd hget (by simp [assocGet])

theorem startSid_some_playish (k : Kont) (sid : Nat)
    (h : Kont.startSid k = some sid) : Kont.playish k = true := by
  cases k with
  | prepThen url sp asm =>
    cases asm with
    | none => simp [Kont.startSid] at h
    | some s => rfl
  | playK s r => rfl
  | resumeK s => simp [Kont.startSid] at h
  | fadeResumeK s => simp [Kont.startSid] at h

theorem Inv_kont_append {m n : Machine} (hi : Inv m) (k0 : Kont)
    (hk : n.konts = m.konts ++ [k0]) (hpl : Kont.playish k0 = false)
    (hst : n.store = m.store) (ht : n.trace = m.trace)
    (ho : ∀ sid, sid ∉ n.off → sid ∉ m.off)
    (ha : n.activeId = m.activeId) (hf : n.fadingId = m.fadingId)
    (hpp : n.preparingId = m.preparingId) (hn : m.nextSlotId ≤ n.nextSlotId)
    (hza : ∃ a, m.activeId = some a) : Inv n := by
  have hmem : ∀ k, k ∈ n.konts → k ∈ m.konts ∨ k = k0 := by
    intro k h
    rw [hk] at h
    rcases List.mem_append.mp h with h1 | h1
    · left; exact h1
    · right; simpa using h1
  constructor
  case g => intro sid; rw [soundTrace_congr m n ht]; exact hi.g sid
  case uq =>
    rw [hk, List.filter_append]
    have : [k0].filter Kont.playish = [] := by
      rw [List.filter_cons_of_neg (by simp [hpl])]
      rfl
    rw [this, List.append_nil]
    exact hi.uq
  case ab =>
    intro aid asl sid h1 h2 h3 h4
    rw [ha] at h1; rw [hst] at h2
    rw [soundTrace_congr m n ht]
    exact hi.ab aid asl sid h1 h2 h3 (ho sid h4)
  case fb =>
    intro fid fsl sid h1 h2 h3 h4
    rw [hf] at h1; rw [hst] at h2
    rw [hasFinish_congr m n ht]
    exact hi.fb fid fsl sid h1 h2 h3 (ho sid h4)
  case pb => intro pid psl h1 h2; rw [hpp] at h1; rw [hst] at h2; exact hi.pb pid psl h1 h2
  case ob => intro k sl h1 h2; rw [hst] at h1; rw [ha, hf]; exact hi.ob k sl h1 h2
  case ps =>
    intro k hkm sid hsid hoff
    rcases hmem k hkm with h1 | h1
    · obtain ⟨hh, hb⟩ := hi.ps k h1 sid hsid (ho sid hoff)
      refine ⟨by rw [hasFinish_congr m n ht]; exact hh, ?_⟩
      intro k2 sl h2; rw [hst] at h2; exact hb k2 sl h2
    · rw [h1] at hsid
      rw [startSid_some_playish k0 sid hsid] at hpl
      exact absurd hpl (by simp)
  case rs =>
    intro sid h1 h2
    rcases hmem _ h1 with h3 | h3
    · rw [hasFinish_congr m n ht]
      exact hi.rs sid h3 (ho sid h2)
    · rw [← h3] at hpl
      exact absurd hpl (by simp [Kont.playish])
  case ref =>
    intro sid r h1
    rcases hmem _ h1 with h3 | h3
    · rw [ha]; exact hi.ref sid r h3
    · rw [← h3] at hpl
      exact absurd hpl (by simp [Kont.playish])
  case refu =>
    intro sid r sl h1 h2
    rcases hmem _ h1 with h3 | h3
    · rw [hst] at h2; exact hi.refu sid r sl h3 h2
    · rw [← h3] at hpl
      exact absurd hpl (by simp [Kont.playish])
  case rd => intro a p h1 h2; rw [ha] at h1; rw [hpp] at h2; exact hi.rd a p h1 h2
  case rd2 => intro a f h1 h2; rw [ha] at h1; rw [hf] at h2; exact hi.rd2 a f h1 h2
  case rd3 => intro f p h1 h2; rw [hf] at h1; rw [hpp] at h2; exact hi.rd3 f p h1 h2
  case kl => intro pr h; rw [hst] at h; have := hi.kl pr h; omega
  case rla => intro a h1; rw [ha] at h1; have := hi.rla a h1; omega
  case rlf => intro f h1; rw [hf] at h1; have := hi.rlf f h1; omega
  case rlp => intro p h1; rw [hpp] at h1; have := hi.rlp p h1; omega
  case z =>
    intro hnone
    rw [ha] at hnone
    obtain ⟨a, ha2⟩ := hza
    rw [ha2] at hnone
    exact absurd hnone (by simp)

end FeedSpeaker

namespace FeedSpeaker

theorem Inv_updSlot {m : Machine} {k0 : Nat} {f : Slot → Slot}
    (hf : ∀ sl, (f sl).sound = sl.sound) (hi : Inv m) : Inv (m.updSlot k0 f) := by
  rw [Machine.updSlot]
  split
  next sl heq => exact Inv_setSlot hi heq (hf sl)
  next => exact hi

theorem Inv_deliver_run {m : Machine} (a : Nat) (e : Ev) (he : e.isFinish = false)
    (hrun : a ∉ m.off → playRun (m.soundTrace a ++ [e]) = true)
    (hi : Inv m) : Inv (m.deliver a e) := by
  by_cases hao : a ∈ m.off
  · rw [deliver_off_id m a e hao]; exact hi
  · have hoeq : (m.deliver a e).off = m.off := deliver_off m a e
    have hst : (m.deliver a e).store = m.store := deliver_store m a e
    have hk : (m.deliver a e).konts = m.konts := deliver_konts m a e
    have htr : ∀ sid, (m.deliver a e).soundTrace sid =
        if sid = a then m.soundTrace a ++ [e] else m.soundTrace sid := by
      intro sid
      by_cases h : sid = a
      · subst h; rw [if_pos rfl]; exact soundTrace_deliver_self m sid e hao
      · rw [if_neg h]; exact soundTrace_deliver_ne m a e sid (fun hh => h hh.symm)
    have hhf : ∀ sid, (m.deliver a e).hasFinish sid = m.hasFinish sid := by
      intro sid
      exact hasFinish_deliver_nonfinish m a e he sid
    refine ⟨?_, ?_, ?_, ?_, ?_, ?_, ?_, ?_, ?_, ?_, ?_, ?_, ?_, ?_, ?_, ?_, ?_, ?_⟩
    next =>
      intro sid
      rw [htr]
      by_cases h : sid = a
      · rw [if_pos h]
        exact goodTrace_playRun _ (hrun hao)
      · rw [if_neg h]; exact hi.g sid
    next => rw [hk]; exact hi.uq
    next =>
      intro aid asl sid h1 h2 h3 h4
      rw [deliver_activeId] at h1; rw [hst] at h2; rw [hoeq] at h4
      rw [htr]
      by_cases h : sid = a
      · rw [if_pos h]; exact hrun hao
      · rw [if_neg h]; exact hi.ab aid asl sid h1 h2 h3 h4
    next =>
      intro fid fsl sid h1 h2 h3 h4
      rw [deliver_fadingId] at h1; rw [hst] at h2; rw [hoeq] at h4
      rw [hhf]
      exact hi.fb fid fsl sid h1 h2 h3 h4
    next =>
      intro pid psl h1 h2
      rw [deliver_preparingId] at h1; rw [hst] at h2
      exact hi.pb pid psl h1 h2
    next =>
      intro k sl h1 h2
      rw [hst] at h1
      rw [deliver_activeId, deliver_fadingId]
      exact hi.ob k sl h1 h2
    next =>
      intro k hkm sid hsid hoff
      rw [hk] at hkm; rw [hoeq] at hoff
      obtain ⟨hh, hb⟩ := hi.ps k hkm sid hsid hoff
      refine ⟨by rw [hhf]; exact hh, ?_⟩
      intro k2 sl h2; rw [hst] at h2; exact hb k2 sl h2
    next =>
      intro sid h1 h2
      rw [hk] at h1; rw [hoeq] at h2
      rw [hhf]
      exact hi.rs sid h1 h2
    next => intro sid r h1; rw [hk] at h1; rw [deliver_activeId]; exact hi.ref sid r h1
    next =>
      intro sid r sl h1 h2
      rw [hk] at h1; rw [hst] at h2
      exact hi.refu sid r sl h1 h2
    next =>
      intro x p h1 h2
      rw [deliver_activeId] at h1; rw [deliver_preparingId] at h2
      exact hi.rd x p h1 h2
    next =>
      intro x f h1 h2
      rw [deliver_activeId] at h1; rw [deliver_fadingId] at h2
      exact hi.rd2 x f h1 h2
    next =>
      intro f p h1 h2
      rw [deliver_fadingId] at h1; rw [deliver_preparingId] at h2
      exact hi.rd3 f p h1 h2
    next => intro pr h; rw [hst] at h; rw [deliver_nextSlotId]; exact hi.kl pr h
    next => intro x h1; rw [deliver_activeId] at h1; rw [deliver_nextSlotId]; exact hi.rla x h1
    next => intro x h1; rw [deliver_fadingId] at h1; rw [deliver_nextSlotId]; exact hi.rlf x h1
    next => intro x h1; rw [deliver_preparingId] at h1; rw [deliver_nextSlotId]; exact hi.rlp x h1
    next =>
      intro hnone
      rw [deliver_activeId] at hnone
      obtain ⟨h1, h2, h3, h4⟩ := hi.z hnone
      exact ⟨(deliver_store _ _ _).trans h1, (deliver_konts _ _ _).trans h2,
        (deliver_fadingId _ _ _).trans h3, (deliver_preparingId _ _ _).trans h4⟩

theorem Inv_deliver_finish {m : Machine} (a : Nat) (b : Bool)
    (hnab0 : a ∉ m.off → ∀ aid asl, m.activeId = some aid →
      assocGet m.store aid = some asl → asl.sound ≠ some a)
    (hps0 : a ∉ m.off → ∀ k, k ∈ m.konts → Kont.startSid k ≠ some a)
    (hrs0 : a ∉ m.off → ∀ sid2, Kont.resumeK sid2 ∈ m.konts → sid2 ≠ a)
    (hgf : a ∉ m.off → m.hasFinish a = false)
    (hi : Inv m) : Inv (m.deliver a (Ev.finish b)) := by
  by_cases hao : a ∈ m.off
  · rw [deliver_off_id m a _ hao]; exact hi
  · have hnab := hnab0 hao
    have hps2 := hps0 hao
    have hrs2 := hrs0 hao
    have hoeq : (m.deliver a (Ev.finish b)).off = m.off := deliver_off m a _
    have hst : (m.deliver a (Ev.finish b)).store = m.store := deliver_store m a _
    have hk : (m.deliver a (Ev.finish b)).konts = m.konts := deliver_konts m a _
    have htr : ∀ sid, sid ≠ a → (m.deliver a (Ev.finish b)).soundTrace sid = m.soundTrace sid :=
      fun sid h => soundTrace_deliver_ne m a _ sid (fun hh => h hh.symm)
    have hhf : ∀ sid, sid ≠ a →
        (m.deliver a (Ev.finish b)).hasFinish sid = m.hasFinish sid :=
      fun sid h => hasFinish_deliver_ne m a _ sid (fun hh => h hh.symm)
    have hrun : m.soundTrace a = [] ∨ playRun (m.soundTrace a) = true := by
      apply good_notFinish _ (hi.g a)
      rw [← hasFinish_eq_any]
      exact hgf hao
    refine ⟨?_, ?_, ?_, ?_, ?_, ?_, ?_, ?_, ?_, ?_, ?_, ?_, ?_, ?_, ?_, ?_, ?_, ?_⟩
    next =>
      intro sid
      by_cases h : sid = a
      · subst h
        rw [soundTrace_deliver_self m sid _ hao]
        exact good_finish_append _ b hrun
      · rw [htr sid h]; exact hi.g sid
    next => rw [hk]; exact hi.uq
    next =>
      intro aid asl sid h1 h2 h3 h4
      rw [deliver_activeId] at h1; rw [hst] at h2; rw [hoeq] at h4
      by_cases h : sid = a
      · subst h
        exact absurd h3 (hnab aid asl h1 h2)
      · rw [htr sid h]
        exact hi.ab aid asl sid h1 h2 h3 h4
    next =>
      intro fid fsl sid h1 h2 h3 h4
      rw [deliver_fadingId] at h1; rw [hst] at h2; rw [hoeq] at h4
      by_cases h : sid = a
      · subst h
        exact hasFinish_deliver_finish_self m sid b hao
      · rw [hhf sid h]
        exact hi.fb fid fsl sid h1 h2 h3 h4
    next =>
      intro pid psl h1 h2
      rw [deliver_preparingId] at h1; rw [hst] at h2
      exact hi.pb pid psl h1 h2
    next =>
      intro k sl h1 h2
      rw [hst] at h1
      rw [deliver_activeId, deliver_fadingId]
      exact hi.ob k sl h1 h2
    next =>
      intro k hkm sid hsid hoff
      rw [hk] at hkm; rw [hoeq] at hoff
      obtain ⟨hh, hb⟩ := hi.ps k hkm sid hsid hoff
      have hne : sid ≠ a := by
        intro hh2
        exact hps2 k hkm (hh2 ▸ hsid)
      refine ⟨by rw [hhf sid hne]; exact hh, ?_⟩
      intro k2 sl h2; rw [hst] at h2; exact hb k2 sl h2
    next =>
      intro sid h1 h2
      rw [hk] at h1; rw [hoeq] at h2
      have hne : sid ≠ a := hrs2 sid h1
      rw [hhf sid hne]
      exact hi.rs sid h1 h2
    next => intro sid r h1; rw [hk] at h1; rw [deliver_activeId]; exact hi.ref sid r h1
    next =>
      intro sid r sl h1 h2
      rw [hk] at h1; rw [hst] at h2
      exact hi.refu sid r sl h1 h2
    next =>
      intro x p h1 h2
      rw [deliver_activeId] at h1; rw [deliver_preparingId] at h2
      exact hi.rd x p h1 h2
    next =>
      intro x f h1 h2
      rw [deliver_activeId] at h1; rw [deliver_fadingId] at h2
      exact hi.rd2 x f h1 h2
    next =>
      intro f p h1 h2
      rw [deliver_fadingId] at h1; rw [deliver_preparingId] at h2
      exact hi.rd3 f p h1 h2
    next => intro pr h; rw [hst] at h; rw [deliver_nextSlotId]; exact hi.kl pr h
    next => intro x h1; rw [deliver_activeId] at h1; rw [deliver_nextSlotId]; exact hi.rla x h1
    next => intro x h1; rw [deliver_fadingId] at h1; rw [deliver_nextSlotId]; exact hi.rlf x h1
    next => intro x h1; rw [deliver_preparingId] at h1; rw [deliver_nextSlotId]; exact hi.rlp x h1
    next =>
      intro hnone
      rw [deliver_activeId] at hnone
      obtain ⟨h1, h2, h3, h4⟩ := hi.z hnone
      exact ⟨(deliver_store _ _ _).trans h1, (deliver_konts _ _ _).trans h2,
        (deliver_fadingId _ _ _).trans h3, (deliver_preparingId _ _ _).trans h4⟩

end FeedSpeaker

namespace FeedSpeaker

theorem assocGet_append {α : Type} : ∀ (l l2 : List (Nat × α)) (k : Nat),
    assocGet (l ++ l2) k =
      match assocGet l k with
      | some v => some v
      | none => assocGet l2 k := by
  intro l
  induction l with
  | nil => intro l2 k; rfl
  | cons p t ih =>
    intro l2 k
    rw [List.cons_append, assocGet, assocGet]
    split
    · rfl
    · exact ih l2 k

theorem playRun_noFinish (h : List Ev) (hp : playRun h = true) :
    h.any Ev.isFinish = false := by
  rw [playRun, Bool.and_eq_true] at hp
  rcases hx : h.any Ev.isFinish with _ | _
  · rfl
  · exfalso
    obtain ⟨e, hmem, hf⟩ := List.any_eq_true.mp hx
    have h2 := List.all_eq_true.mp hp.2 e hmem
    rw [hf] at h2
    simp at h2

theorem noResume (m : Machine) (h : m.resumePending = false) :
    ∀ s, Kont.resumeK s ∉ m.konts := by
  intro s hmem
  have h2 : m.resumePending = true := by
    rw [Machine.resumePending]
    exact List.any_eq_true.mpr ⟨Kont.resumeK s, hmem, rfl⟩
  rw [h2] at h
  exact absurd h (by simp)

theorem noPlayish (m : Machine) (h : m.playishPending = false) :
    ∀ k, k ∈ m.konts → Kont.playish k = false := by
  intro k hmem
  rw [Machine.playishPending] at h
  rcases hx : Kont.playish k with _ | _
  · rfl
  · exfalso
    have h2 := List.any_eq_true.mpr ⟨k, hmem, hx⟩
    rw [h2] at h
    simp at h

theorem Inv_setSlot_none {m : Machine} {k0 : Nat} {rec sl0 : Slot} (hi : Inv m)
    (hget : assocGet m.store k0 = some sl0) (hsound : rec.sound = none) :
    Inv (m.setSlot k0 rec) := by
  have hget2 : ∀ k, assocGet (m.setSlot k0 rec).store k =
      if k = k0 then some rec else assocGet m.store k := by
    intro k
    by_cases h : k = k0
    · subst h; rw [if_pos rfl]
      exact assocGet_assocSet_self _ _ _ _ hget
    · rw [if_neg h]
      exact assocGet_assocSet_ne _ _ _ _ (fun hh => h hh.symm)
  have ht : (m.setSlot k0 rec).trace = m.trace := rfl
  constructor
  case g => intro sid; rw [soundTrace_congr m _ ht]; exact hi.g sid
  case uq => exact hi.uq
  case ab =>
    intro aid asl sid h1 h2 h3 h4
    rw [hget2] at h2
    rw [soundTrace_congr m _ ht]
    by_cases hk : aid = k0
    · rw [if_pos hk] at h2
      injection h2 with h2
      subst h2
      rw [hsound] at h3
      exact absurd h3 (by simp)
    · rw [if_neg hk] at h2
      exact hi.ab aid asl sid h1 h2 h3 h4
  case fb =>
    intro fid fsl sid h1 h2 h3 h4
    rw [hget2] at h2
    rw [hasFinish_congr m _ ht]
    by_cases hk : fid = k0
    · rw [if_pos hk] at h2
      injection h2 with h2
      subst h2
      rw [hsound] at h3
      exact absurd h3 (by simp)
    · rw [if_neg hk] at h2
      exact hi.fb fid fsl sid h1 h2 h3 h4
  case pb =>
    intro pid psl h1 h2
    rw [hget2] at h2
    by_cases hk : pid = k0
    · rw [if_pos hk] at h2
      injection h2 with h2
      subst h2
      exact hsound
    · rw [if_neg hk] at h2
      exact hi.pb pid psl h1 h2
  case ob =>
    intro k sl h1 h2
    rw [hget2] at h1
    by_cases hk : k = k0
    · rw [if_pos hk] at h1
      injection h1 with h1
      subst h1
      rw [hsound] at h2
      simp at h2
    · rw [if_neg hk] at h1
      exact hi.ob k sl h1 h2
  case ps =>
    intro k hkm sid hsid hoff
    obtain ⟨hh, hb⟩ := hi.ps k hkm sid hsid hoff
    refine ⟨by rw [hasFinish_congr m _ ht]; exact hh, ?_⟩
    intro k2 sl h2
    rw [hget2] at h2
    by_cases hk : k2 = k0
    · rw [if_pos hk] at h2
      injection h2 with h2
      subst h2
      rw [hsound]
      simp
    · rw [if_neg hk] at h2
      exact hb k2 sl h2
  case rs =>
    intro sid h1 h2
    rw [hasFinish_congr m _ ht]
    exact hi.rs sid h1 h2
  case ref => exact hi.ref
  case refu =>
    intro sid r sl h1 h2
    rw [hget2] at h2
    by_cases hk : r = k0
    · rw [if_pos hk] at h2
      injection h2 with h2
      subst h2
      exact hsound
    · rw [if_neg hk] at h2
      exact hi.refu sid r sl h1 h2
  case rd => exact hi.rd
  case rd2 => exact hi.rd2
  case rd3 => exact hi.rd3
  case kl =>
    intro pr h
    rcases mem_assocSet m.store k0 rec pr h with h1 | h1
    · exact hi.kl pr h1
    · subst h1
      exact hi.kl (k0, sl0) (assocGet_mem m.store k0 sl0 hget)
  case rla => exact hi.rla
  case rlf => exact hi.rlf
  case rlp => exact hi.rlp
  case z =>
    intro hnone
    obtain ⟨h1, -, -, -⟩ := hi.z hnone
    rw [h1] at hget
    exact absurd hget (by simp [assocGet])

end FeedSpeaker

namespace FeedSpeaker

theorem Inv_prepareSyncNone {m : Machine} (url : String) (sp : Option ℚ)
    (hi : Inv m) : Inv (m.prepareSync url sp none) := by
  rw [Machine.prepareSync]
  simp only []
  have hm1 : Inv ({ m with prepareWhenReady := none } : Machine) :=
    Inv_transfer hi rfl rfl rfl (fun _ h => h) rfl rfl rfl (le_refl _)
  split
  · exact hm1
  · split
    · exact hm1
    next psl heq =>
      have hza : ∃ a, ({ m with prepareWhenReady := none } : Machine).activeId = some a := by
        rcases hA : m.activeId with _ | a
        · obtain ⟨h1, -, -, -⟩ := hi.z hA
          rw [h1] at heq
          exact absurd heq (by simp [assocGet])
        · exact ⟨a, rfl⟩
      split
      · exact Inv_kont_append hm1 (Kont.prepThen url sp none) rfl rfl rfl rfl
          (fun _ h => h) rfl rfl rfl (le_refl _) hza
      · split
        · exact Inv_setSlot hm1 heq rfl
        · exact hm1

theorem Inv_prepare {m : Machine} (url : String) (hi : Inv m) :
    Inv (m.prepare url) := by
  rw [Machine.prepare]
  split
  · exact Inv_transfer hi rfl rfl rfl (fun _ h => h) rfl rfl rfl (le_refl _)
  · split
    · exact Inv_transfer hi rfl rfl rfl (fun _ h => h) rfl rfl rfl (le_refl _)
    · split
      · exact Inv_prepareSyncNone _ _ hi
      · exact Inv_transfer hi rfl rfl rfl (fun _ h => h) rfl rfl rfl (le_refl _)

theorem Inv_retryPrepare {m : Machine} (hi : Inv m) : Inv m.retryPrepare := by
  rw [Machine.retryPrepare]
  split
  · exact Inv_prepare _ hi
  · exact hi

theorem Inv_create {m : Machine} (url : String) (options : SoundConfig)
    (hi : Inv m) : Inv (m.create url options) := by
  rw [Machine.create.eq_def]
  simp only []
  have hm1 : Inv ({ m with
      sounds := m.sounds ++ [(m.nextId, Sound.make url options)],
      registry := m.registry ++ [m.nextId], nextId := m.nextId + 1 } : Machine) :=
    Inv_transfer hi rfl rfl rfl (fun _ h => h) rfl rfl rfl (le_refl _)
  split
  · exact Inv_transfer hm1 rfl rfl rfl (fun _ h => h) rfl rfl rfl (le_refl _)
  · split
    · exact hm1
    next pid hP =>
      split
      · exact hm1
      next psl heqP =>
        split
        · exact Inv_prepareSyncNone _ _ hm1
        · exact hm1

theorem Inv_setVolumeOn {m : Machine} (P : ℚ → ℚ) (k0 : Nat) (so : Option Sound)
    (hi : Inv m) : Inv (m.setVolumeOn P k0 so) := by
  rw [Machine.setVolumeOn]
  split
  · exact hi
  next sl heq =>
    split
    · exact hi
    · exact Inv_setSlot hi heq rfl

theorem Inv_setVolumeCall {m : Machine} (P : ℚ → ℚ) (v : ℚ) (hi : Inv m) :
    Inv (m.setVolumeCall P v) := by
  rw [Machine.setVolumeCall.eq_def]
  simp only []
  have hm1 : Inv ({ m with vol := v } : Machine) :=
    Inv_transfer hi rfl rfl rfl (fun _ h => h) rfl rfl rfl (le_refl _)
  split
  · exact hm1
  next aid hA =>
    split
    · exact hm1
    next asl heqA =>
      split
      · exact Inv_setVolumeOn _ _ _ hm1
      · exact hm1

theorem Inv_pauseCall {m : Machine} (x : Nat) (hi : Inv m) :
    Inv (m.pauseCall x) := by
  rw [Machine.pauseCall.eq_def]
  split
  · exact hi
  next s hs =>
    simp only []
    split
    next =>
      split
      · exact hi
      · split
        · exact hi
        next asl heqA =>
          split
          · split
            · exact Inv_setSlot hi heqA rfl
            · exact Inv_setSlot hi heqA rfl
          · exact hi
    next pid hF =>
      refine Inv_updSlot (fun sl => rfl) ?_
      split
      · exact hi
      · split
        · exact hi
        next asl heqA =>
          split
          · split
            · exact Inv_setSlot hi heqA rfl
            · exact Inv_setSlot hi heqA rfl
          · exact hi

theorem Inv_destroyCall {m : Machine} (x : Nat) (hi : Inv m) :
    Inv (m.destroyCall x) := by
  rw [Machine.destroyCall.eq_def]
  split
  · exact hi
  next s hs =>
    simp only []
    have hoff : ∀ sid, sid ∉ m.off ++ [x] → sid ∉ m.off :=
      fun sid h hmem => h (List.mem_append_left _ hmem)
    have hm1 : Inv ({ m with off := m.off ++ [x] } : Machine) :=
      Inv_transfer hi rfl rfl rfl hoff rfl rfl rfl (le_refl _)
    split
    next =>
      exact Inv_transfer hm1 rfl rfl rfl (fun _ h => h) rfl rfl rfl (le_refl _)
    next aid hA =>
      split
      · exact Inv_transfer hm1 rfl rfl rfl (fun _ h => h) rfl rfl rfl (le_refl _)
      next asl heqA =>
        split
        · have hset : Inv (({ m with off := m.off ++ [x] } : Machine).setSlot aid
              { asl with audio := { asl.audio with paused := true } }) :=
            Inv_setSlot hm1 heqA rfl
          exact Inv_transfer hset rfl rfl rfl (fun _ h => h) rfl rfl rfl (le_refl _)
        · exact Inv_transfer hm1 rfl rfl rfl (fun _ h => h) rfl rfl rfl (le_refl _)

theorem Inv_destroyFold (l : List Nat) :
    ∀ m : Machine, Inv m → Inv (l.foldl (fun acc y => acc.destroyCall y) m) := by
  induction l with
  | nil => exact fun m hi => hi
  | cons a t ih =>
    intro m hi
    exact ih (m.destroyCall a) (Inv_destroyCall a hi)

theorem Inv_flushCall {m : Machine} (hi : Inv m) : Inv m.flushCall := by
  rw [Machine.flushCall]
  exact Inv_destroyFold m.registry m hi

theorem Inv_pauseEvent {m : Machine} (slotId : Nat) (hi : Inv m) :
    Inv (m.pauseEvent slotId) := by
  rw [Machine.pauseEvent.eq_def]
  split
  · exact hi
  next aid hA =>
    split
    · exact hi
    next sl heq =>
      split
      · exact hi
      · split
        · exact hi
        next hcond =>
          split
          · exact hi
          next sid hsid =>
            split
            · exact hi
            next s hs =>
              split
              · exact hi
              next hurl =>
                apply Inv_deliver_run sid Ev.pause rfl _ hi
                intro hoff
                have haid : slotId = aid := not_not.mp (not_or.mp hcond).1
                have hpr := hi.ab aid sl sid hA (haid ▸ heq) hsid hoff
                exact playRun_append _ _ hpr rfl

theorem Inv_closedEvent {m : Machine} (slotId : Nat)
    (hadm : m.resumePending = false) (hi : Inv m) : Inv (m.closedEvent slotId) := by
  rw [Machine.closedEvent.eq_def]
  split
  next aid fid hA hF =>
    split
    · exact hi
    next sl heq =>
      split
      · exact hi
      · split
        next hfid =>
          subst hfid
          exact Inv_setSlot_none hi heq rfl
        next hne =>
          split
          · exact hi
          next hnn =>
            have haid : slotId = aid := not_not.mp hnn
            subst haid
            split
            · exact hi
            next sid hsid =>
              split
              · exact hi
              next s hs =>
                split
                · exact hi
                next hurl =>
                  have hm2 : Inv (m.setSlot slotId { sl with sound := none }) :=
                    Inv_setSlot_none hi heq rfl
                  apply Inv_deliver_finish sid false _ _ _ _ hm2
                  · intro hoff aid2 asl2 h1 h2
                    have h1' : m.activeId = some aid2 := h1
                    rw [hA] at h1'
                    injection h1' with h1'
                    subst h1'
                    have h2' : assocGet (assocSet m.store slotId { sl with sound := none })
                        slotId = some asl2 := h2
                    rw [assocGet_assocSet_self m.store slotId _ sl heq] at h2'
                    injection h2' with h2'
                    subst h2'
                    simp
                  · intro hoff k hkm hstart
                    have hoff2 : sid ∉ m.off := hoff
                    rcases hsid2 : Kont.startSid k with _ | sid2
                    · rw [hsid2] at hstart
                      exact absurd hstart (by simp)
                    · rw [hsid2] at hstart
                      injection hstart with hstart
                      subst hstart
                      obtain ⟨-, hnb⟩ := hi.ps k hkm sid2 hsid2 hoff2
                      exact absurd hsid (hnb slotId sl heq)
                  · intro hoff sid2 hmem
                    exact absurd hmem (noResume m hadm sid2)
                  · intro hoff
                    have hpr := hi.ab slotId sl sid hA heq hsid hoff
                    show m.hasFinish sid = false
                    rw [hasFinish_eq_any]
                    exact playRun_noFinish _ hpr
  next => exact hi

end FeedSpeaker

namespace FeedSpeaker

theorem Inv_initResolve {m : Machine} (dur : String → ℚ) (hi : Inv m) :
    Inv (m.initResolve dur) := by
  rw [Machine.initResolve.eq_def]
  split
  · exact hi
  next hA =>
    obtain ⟨hz1, hz2, hz3, hz4⟩ := hi.z hA
    simp only []
    constructor
    case g =>
      intro sid
      show goodTrace (m.soundTrace sid) = true
      exact hi.g sid
    case uq =>
      show (m.konts.filter _).length ≤ 1
      rw [hz2]
      simp
    case ab =>
      intro aid asl sid h1 h2 h3 h4
      injection h1 with h1
      subst h1
      rw [hz1] at h2
      rw [List.nil_append, assocGet, if_pos rfl] at h2
      injection h2 with h2
      subst h2
      exact absurd h3 (by simp [Slot.fresh])
    case fb =>
      intro fid fsl sid h1 h2 h3 h4
      injection h1 with h1
      subst h1
      rw [hz1] at h2
      rw [List.nil_append, assocGet, if_neg (by omega), assocGet, if_pos rfl] at h2
      injection h2 with h2
      subst h2
      exact absurd h3 (by simp [Slot.fresh])
    case pb =>
      intro pid psl h1 h2
      injection h1 with h1
      subst h1
      rw [hz1] at h2
      rw [List.nil_append, assocGet, if_neg (by omega), assocGet,
        if_neg (by omega), assocGet, if_pos rfl] at h2
      injection h2 with h2
      subst h2
      simp [Slot.fresh]
    case ob =>
      intro k sl h1 h2
      rw [hz1, List.nil_append] at h1
      rw [assocGet] at h1
      split at h1
      · injection h1 with h1; subst h1; simp [Slot.fresh] at h2
      · rw [assocGet] at h1
        split at h1
        · injection h1 with h1; subst h1; simp [Slot.fresh] at h2
        · rw [assocGet] at h1
          split at h1
          · injection h1 with h1; subst h1; simp [Slot.fresh] at h2
          · rw [assocGet] at h1
            exact absurd h1 (by simp)
    case ps =>
      intro k hkm sid hsid hoff
      rw [hz2] at hkm
      simp at hkm
    case rs =>
      intro sid h1 h2
      rw [hz2] at h1
      simp at h1
    case ref =>
      intro sid r h1
      rw [hz2] at h1
      simp at h1
    case refu =>
      intro sid r sl h1 h2
      rw [hz2] at h1
      simp at h1
    case rd =>
      intro a p h1 h2
      injection h1 with h1
      injection h2 with h2
      omega
    case rd2 =>
      intro a f h1 h2
      injection h1 with h1
      injection h2 with h2
      omega
    case rd3 =>
      intro f p h1 h2
      injection h1 with h1
      injection h2 with h2
      omega
    case kl =>
      intro pr h
      rw [hz1, List.nil_append] at h
      rcases List.mem_cons.mp h with h1 | h1
      · subst h1; simp
      · rcases List.mem_cons.mp h1 with h2 | h2
        · subst h2; simp
        · rcases List.mem_cons.mp h2 with h3 | h3
          · subst h3; simp
          · simp at h3
    case rla =>
      intro a h1; injection h1 with h1
      show a < m.nextSlotId + 3
      omega
    case rlf =>
      intro f h1; injection h1 with h1
      show f < m.nextSlotId + 3
      omega
    case rlp =>
      intro p h1; injection h1 with h1
      show p < m.nextSlotId + 3
      omega
    case z =>
      intro hnone
      exact absurd hnone (by simp)

end FeedSpeaker

namespace FeedSpeaker

theorem Inv_rotate {m : Machine} (aid fid sid : Nat) (sl : Slot)
    (hA : m.activeId = some aid) (hF : m.fadingId = some fid)
    (heq : assocGet m.store aid = some sl) (hsound : sl.sound = some sid)
    (hadm : m.resumePending = false) (hi : Inv m) :
    Inv ((({ m with activeId := some fid, fadingId := some aid } : Machine).updSlot fid
      (fun x => { x with sound := none })).deliver sid (Ev.finish false)) := by
  have haf : aid ≠ fid := hi.rd2 aid fid hA hF
  set mR : Machine := { m with activeId := some fid, fadingId := some aid } with hmR
  set n1 : Machine := mR.updSlot fid (fun x => { x with sound := none }) with hn1
  have hact1 : n1.activeId = some fid := by
    rw [hn1, Machine.updSlot]; split
    · rfl
    · rfl
  have hfad1 : n1.fadingId = some aid := by
    rw [hn1, Machine.updSlot]; split
    · rfl
    · rfl
  have hprep1 : n1.preparingId = m.preparingId := by
    rw [hn1, Machine.updSlot]; split
    · rfl
    · rfl
  have hnid1 : n1.nextSlotId = m.nextSlotId := by
    rw [hn1, Machine.updSlot]; split
    · rfl
    · rfl
  have htr1 : n1.trace = m.trace := by
    rw [hn1, Machine.updSlot]; split
    · rfl
    · rfl
  have hoff1 : n1.off = m.off := by
    rw [hn1, Machine.updSlot]; split
    · rfl
    · rfl
  have hk1 : n1.konts = m.konts := by
    rw [hn1, Machine.updSlot]; split
    · rfl
    · rfl
  have hst1 : ∀ k, k ≠ fid → assocGet n1.store k = assocGet m.store k := by
    intro k hk
    rw [hn1, Machine.updSlot]
    split
    · show assocGet (assocSet m.store fid _) k = _
      exact assocGet_assocSet_ne _ _ _ _ (fun hh => hk hh.symm)
    · rfl
  have hst2 : ∀ sl2, assocGet n1.store fid = some sl2 → sl2.sound = none := by
    intro sl2 h
    rw [hn1, Machine.updSlot] at h
    split at h
    next fsl heqf =>
      have h2 : assocGet (assocSet m.store fid { fsl with sound := none }) fid =
          some { fsl with sound := none } :=
        assocGet_assocSet_self _ _ _ _ heqf
      have h3 : assocGet (mR.setSlot fid { fsl with sound := none }).store fid =
          some { fsl with sound := none } := h2
      rw [h3] at h
      injection h with h
      rw [← h]
    next heqf =>
      rw [heqf] at h
      exact absurd h (by simp)
  have hklm : ∀ pr, pr ∈ n1.store → pr.1 < m.nextSlotId := by
    intro pr h
    rw [hn1, Machine.updSlot] at h
    split at h
    next fsl heqf =>
      have h2 : pr ∈ assocSet m.store fid { fsl with sound := none } := h
      rcases mem_assocSet m.store fid _ pr h2 with h1 | h1
      · exact hi.kl pr h1
      · subst h1
        exact hi.kl (fid, fsl) (assocGet_mem _ _ _ heqf)
    next => exact hi.kl pr h
  constructor
  case g =>
    intro s2
    by_cases hs2 : s2 = sid
    · subst hs2
      by_cases hoffx : s2 ∈ n1.off
      · rw [deliver_off_id _ _ _ hoffx]
        rw [soundTrace_congr m n1 htr1]
        exact hi.g s2
      · rw [soundTrace_deliver_self n1 s2 _ hoffx]
        rw [soundTrace_congr m n1 htr1]
        apply good_finish_append
        right
        exact hi.ab aid sl s2 hA heq hsound (fun hh => hoffx (by rw [hoff1]; exact hh))
    · rw [soundTrace_deliver_ne n1 sid _ s2 (fun hh => hs2 hh.symm)]
      rw [soundTrace_congr m n1 htr1]
      exact hi.g s2
  case uq => rw [deliver_konts, hk1]; exact hi.uq
  case ab =>
    intro aid2 asl2 sid2 h1 h2 h3 h4
    rw [deliver_activeId, hact1] at h1
    injection h1 with h1
    subst h1
    rw [deliver_store] at h2
    rw [hst2 asl2 h2] at h3
    exact absurd h3 (by simp)
  case fb =>
    intro fid2 fsl2 sid2 h1 h2 h3 h4
    rw [deliver_fadingId, hfad1] at h1
    injection h1 with h1
    subst h1
    rw [deliver_store] at h2
    rw [hst1 aid (fun hh => haf hh)] at h2
    rw [heq] at h2
    injection h2 with h2
    subst h2
    rw [hsound] at h3
    injection h3 with h3
    subst h3
    rw [deliver_off] at h4
    exact hasFinish_deliver_finish_self n1 sid false h4
  case pb =>
    intro pid psl h1 h2
    rw [deliver_preparingId, hprep1] at h1
    have hpf : fid ≠ pid := hi.rd3 fid pid hF h1
    rw [deliver_store] at h2
    rw [hst1 pid (fun hh => hpf hh.symm)] at h2
    exact hi.pb pid psl h1 h2
  case ob =>
    intro k sl2 h1 h2
    rw [deliver_store] at h1
    rw [deliver_activeId, deliver_fadingId, hact1, hfad1]
    by_cases hk : k = fid
    · subst hk
      rw [hst2 sl2 h1] at h2
      simp at h2
    · rw [hst1 k hk] at h1
      rcases hi.ob k sl2 h1 h2 with h3 | h3
      · rw [hA] at h3
        injection h3 with h3
        right
        rw [h3]
      · rw [hF] at h3
        injection h3 with h3
        exact absurd h3.symm hk
  case ps =>
    intro k hkm sid2 hsid2 hoffx
    rw [deliver_konts, hk1] at hkm
    rw [deliver_off, hoff1] at hoffx
    obtain ⟨hh, hnb⟩ := hi.ps k hkm sid2 hsid2 hoffx
    have hne : sid2 ≠ sid := by
      intro hh2
      subst hh2
      exact hnb aid sl heq hsound
    constructor
    · rw [hasFinish_deliver_ne n1 sid _ sid2 (fun hh2 => hne hh2.symm)]
      rw [hasFinish_congr m n1 htr1]
      exact hh
    · intro k2 sl2 h2
      rw [deliver_store] at h2
      by_cases hk2 : k2 = fid
      · subst hk2
        rw [hst2 sl2 h2]
        simp
      · rw [hst1 k2 hk2] at h2
        exact hnb k2 sl2 h2
  case rs =>
    intro sid2 h1 h2
    rw [deliver_konts, hk1] at h1
    exact absurd h1 (noResume m hadm sid2)
  case ref =>
    intro sid3 r h1
    rw [deliver_konts, hk1] at h1
    have hract := hi.ref sid3 r h1
    rw [hA] at hract
    injection hract with hract
    subst hract
    have h5 := hi.refu sid3 aid sl h1 heq
    rw [hsound] at h5
    exact absurd h5 (by simp)
  case refu =>
    intro sid3 r sl2 h1 h2
    rw [deliver_konts, hk1] at h1
    have hract := hi.ref sid3 r h1
    rw [hA] at hract
    injection hract with hract
    subst hract
    have h5 := hi.refu sid3 aid sl h1 heq
    rw [hsound] at h5
    exact absurd h5 (by simp)
  case rd =>
    intro a p h1 h2
    rw [deliver_activeId, hact1] at h1
    rw [deliver_preparingId, hprep1] at h2
    injection h1 with h1
    subst h1
    exact hi.rd3 fid p hF h2
  case rd2 =>
    intro a f h1 h2
    rw [deliver_activeId, hact1] at h1
    rw [deliver_fadingId, hfad1] at h2
    injection h1 with h1
    injection h2 with h2
    subst h1
    subst h2
    exact fun hh => haf hh.symm
  case rd3 =>
    intro f p h1 h2
    rw [deliver_fadingId, hfad1] at h1
    rw [deliver_preparingId, hprep1] at h2
    injection h1 with h1
    subst h1
    exact hi.rd aid p hA h2
  case kl =>
    intro pr h
    rw [deliver_store] at h
    rw [deliver_nextSlotId, hnid1]
    exact hklm pr h
  case rla =>
    intro a h1
    rw [deliver_activeId, hact1] at h1
    rw [deliver_nextSlotId, hnid1]
    injection h1 with h1
    subst h1
    exact hi.rlf fid hF
  case rlf =>
    intro f h1
    rw [deliver_fadingId, hfad1] at h1
    rw [deliver_nextSlotId, hnid1]
    injection h1 with h1
    subst h1
    exact hi.rla aid hA
  case rlp =>
    intro p h1
    rw [deliver_preparingId, hprep1] at h1
    rw [deliver_nextSlotId, hnid1]
    exact hi.rlp p h1
  case z =>
    intro hnone
    rw [deliver_activeId, hact1] at hnone
    exact absurd hnone (by simp)

end FeedSpeaker

namespace FeedSpeaker

theorem Inv_ontimeupdate {m : Machine} (P : ℚ → ℚ) (slotId : Nat)
    (hadm : m.resumePending = false) (hi : Inv m) :
    Inv (m.ontimeupdate P slotId) := by
  rw [Machine.ontimeupdate.eq_def]
  split
  next aid fid hA hF =>
    split
    · exact hi
    next sl heq =>
      split
      · exact hi
      · split
        next hcond =>
          obtain ⟨hfid, -⟩ := hcond
          subst hfid
          split
          · exact hi
          next fs hfs =>
            split
            · exact Inv_setSlot_none hi heq rfl
            · exact Inv_setVolumeOn _ _ _ hi
        next hne =>
          split
          · exact hi
          next hnn =>
            have haid : slotId = aid := not_not.mp hnn
            subst haid
            split
            · exact hi
            next sid hsid =>
              split
              · exact hi
              next s hs =>
                split
                · exact hi
                next hurl =>
                  simp only []
                  split
                  · -- end-position force finish
                    apply Inv_retryPrepare
                    have hm2 : Inv (m.setSlot slotId { sl with
                        sound := none,
                        audio := { sl.audio with src := SILENCE } }) :=
                      Inv_setSlot_none hi heq rfl
                    apply Inv_deliver_finish sid false _ _ _ _ hm2
                    · intro hoff aid2 asl2 h1 h2
                      have h1' : m.activeId = some aid2 := h1
                      rw [hA] at h1'
                      injection h1' with h1'
                      subst h1'
                      have h2' : assocGet (assocSet m.store slotId
                          { sl with
                            sound := none,
                            audio := { sl.audio with src := SILENCE } }) slotId =
                          some asl2 := h2
                      rw [assocGet_assocSet_self m.store slotId _ sl heq] at h2'
                      injection h2' with h2'
                      subst h2'
                      simp
                    · intro hoff k hkm hstart
                      rcases hsid2 : Kont.startSid k with _ | sid2
                      · rw [hsid2] at hstart
                        exact absurd hstart (by simp)
                      · rw [hsid2] at hstart
                        injection hstart with hstart
                        subst hstart
                        obtain ⟨-, hnb⟩ := hi.ps k hkm sid2 hsid2 hoff
                        exact absurd hsid (hnb slotId sl heq)
                    · intro hoff sid2 hmem
                      exact absurd hmem (noResume m hadm sid2)
                    · intro hoff
                      have hpr := hi.ab slotId sl sid hA heq hsid hoff
                      show m.hasFinish sid = false
                      rw [hasFinish_eq_any]
                      exact playRun_noFinish _ hpr
                  · split
                    · -- fade-out rotation
                      apply Inv_retryPrepare
                      have hm1 : Inv (m.setVolumeOn P slotId none) :=
                        Inv_setVolumeOn _ _ _ hi
                      have hA1 : (m.setVolumeOn P slotId none).activeId = some slotId := by
                        rw [Machine.setVolumeOn]
                        split
                        · exact hA
                        · split
                          · exact hA
                          · exact hA
                      have hF1 : (m.setVolumeOn P slotId none).fadingId = some fid := by
                        rw [Machine.setVolumeOn]
                        split
                        · exact hF
                        · split
                          · exact hF
                          · exact hF
                      have hadm1 : (m.setVolumeOn P slotId none).resumePending = false := by
                        rw [Machine.setVolumeOn]
                        split
                        · exact hadm
                        · split
                          · exact hadm
                          · exact hadm
                      have heq1 : ∃ sl1, assocGet (m.setVolumeOn P slotId none).store slotId =
                          some sl1 ∧ sl1.sound = some sid := by
                        rw [Machine.setVolumeOn]
                        split
                        next hnone2 =>
                          rw [hnone2] at heq
                          exact absurd heq (by simp)
                        next sl2 heq2 =>
                          rw [heq] at heq2
                          injection heq2 with heq2
                          subst heq2
                          split
                          · exact ⟨sl, heq, hsid⟩
                          next s3 hs3 =>
                            refine ⟨{ sl with
                                gainValue := calculatedVolume s3 sl.audio.currentTime
                                  (Sound.gainAdjustedVolume P s3 m.vol),
                                volume := calculatedVolume s3 sl.audio.currentTime
                                  (Sound.gainAdjustedVolume P s3 m.vol) }, ?_, hsid⟩
                            exact assocGet_assocSet_self _ _ _ _ heq
                      obtain ⟨sl1, heqs, hsnd1⟩ := heq1
                      exact Inv_rotate slotId fid sid sl1 hA1 hF1 heqs hsnd1 hadm1 hm1
                    · -- plain elapse
                      apply Inv_retryPrepare
                      have hm1 : Inv (m.setVolumeOn P slotId none) :=
                        Inv_setVolumeOn _ _ _ hi
                      apply Inv_deliver_run sid Ev.elapse rfl _ hm1
                      intro hoff
                      have hoff2 : sid ∉ m.off := by
                        intro hh
                        apply hoff
                        rw [Machine.setVolumeOn]
                        split
                        · exact hh
                        · split
                          · exact hh
                          · exact hh
                      have hpr := hi.ab slotId sl sid hA heq hsid hoff2
                      have htr2 : (m.setVolumeOn P slotId none).soundTrace sid =
                          m.soundTrace sid := by
                        apply soundTrace_congr
                        rw [Machine.setVolumeOn]
                        split
                        · rfl
                        · split
                          · rfl
                          · rfl
                      rw [htr2]
                      exact playRun_append _ _ hpr rfl
  next => exact hi

theorem Inv_tick {m : Machine} (P : ℚ → ℚ) (slotId : Nat) (t : ℚ)
    (hadm : m.resumePending = false) (hi : Inv m) : Inv (m.tick P slotId t) := by
  rw [Machine.tick.eq_def]
  split
  · exact hi
  next sl heq =>
    exact Inv_ontimeupdate _ _ hadm (Inv_setSlot hi heq rfl)

end FeedSpeaker

namespace FeedSpeaker

theorem updSlot_get (m : Machine) (k : Nat) (f : Slot → Slot) :
    ∀ k2, assocGet (m.updSlot k f).store k2 =
      if k2 = k then (assocGet m.store k).map f else assocGet m.store k2 := by
  intro k2
  rw [Machine.updSlot]
  split
  next sl heq =>
    by_cases h : k2 = k
    · subst h
      rw [if_pos rfl, heq]
      exact assocGet_assocSet_self _ _ _ _ heq
    · rw [if_neg h]
      exact assocGet_assocSet_ne _ _ _ _ (fun hh => h hh.symm)
  next heq =>
    by_cases h : k2 = k
    · subst h
      rw [if_pos rfl, heq]
      rfl
    · rw [if_neg h]

theorem updSlot_konts (m : Machine) (k : Nat) (f : Slot → Slot) :
    (m.updSlot k f).konts = m.konts := by
  rw [Machine.updSlot]; split
  all_goals rfl

theorem updSlot_roles (m : Machine) (k : Nat) (f : Slot → Slot) :
    (m.updSlot k f).activeId = m.activeId ∧ (m.updSlot k f).fadingId = m.fadingId ∧
    (m.updSlot k f).preparingId = m.preparingId ∧
    (m.updSlot k f).nextSlotId = m.nextSlotId := by
  rw [Machine.updSlot]; split
  all_goals exact ⟨rfl, rfl, rfl, rfl⟩

theorem setVolumeOn_get (P : ℚ → ℚ) (m : Machine) (k : Nat) (so : Option Sound) :
    ∃ g : Slot → Slot, (∀ sl, (g sl).sound = sl.sound) ∧
      (∀ sl, (g sl).pauseAfterPlay = sl.pauseAfterPlay) ∧
      (∀ sl, (g sl).audio = sl.audio) ∧
      ∀ k2, assocGet (m.setVolumeOn P k so).store k2 =
        if k2 = k then (assocGet m.store k).map g else assocGet m.store k2 := by
  rw [Machine.setVolumeOn]
  split
  next heq =>
    refine ⟨id, fun _ => rfl, fun _ => rfl, fun _ => rfl, ?_⟩
    intro k2
    by_cases h : k2 = k
    · subst h
      rw [if_pos rfl, heq]
      rfl
    · rw [if_neg h]
  next sl heq =>
    split
    next hs =>
      refine ⟨id, fun _ => rfl, fun _ => rfl, fun _ => rfl, ?_⟩
      intro k2
      by_cases h : k2 = k
      · subst h
        rw [if_pos rfl, heq]
        rfl
      · rw [if_neg h]
    next s hs =>
      refine ⟨fun sl2 => { sl2 with
          gainValue := calculatedVolume s sl.audio.currentTime
            (Sound.gainAdjustedVolume P s m.vol),
          volume := calculatedVolume s sl.audio.currentTime
            (Sound.gainAdjustedVolume P s m.vol) },
        fun _ => rfl, fun _ => rfl, fun _ => rfl, ?_⟩
      intro k2
      by_cases h : k2 = k
      · subst h
        rw [if_pos rfl, heq]
        exact assocGet_assocSet_self _ _ _ _ heq
      · rw [if_neg h]
        exact assocGet_assocSet_ne _ _ _ _ (fun hh => h hh.symm)

theorem setVolumeOn_konts (P : ℚ → ℚ) (m : Machine) (k : Nat) (so : Option Sound) :
    (m.setVolumeOn P k so).konts = m.konts := by
  rw [Machine.setVolumeOn]; repeat' split
  all_goals rfl

theorem setVolumeOn_roles (P : ℚ → ℚ) (m : Machine) (k : Nat) (so : Option Sound) :
    (m.setVolumeOn P k so).activeId = m.activeId ∧
    (m.setVolumeOn P k so).fadingId = m.fadingId ∧
    (m.setVolumeOn P k so).preparingId = m.preparingId ∧
    (m.setVolumeOn P k so).nextSlotId = m.nextSlotId := by
  rw [Machine.setVolumeOn]; repeat' split
  all_goals exact ⟨rfl, rfl, rfl, rfl⟩

theorem filter_playish_nil (l : List Kont) (h : ∀ k, k ∈ l → Kont.playish k = false) :
    l.filter Kont.playish = [] := by
  induction l with
  | nil => rfl
  | cons a t ih =>
    rw [List.filter_cons_of_neg (by simp [h a (List.mem_cons_self a t)])]
    exact ih (fun k hk => h k (List.mem_cons_of_mem a hk))

end FeedSpeaker

namespace FeedSpeaker

theorem Inv_assemble_core {m n : Machine} (P : ℚ → ℚ) (x pid aid : Nat)
    (finOpt : Option Nat)
    (hA : m.activeId = some aid) (hP : m.preparingId = some pid)
    (hnp : ∀ k, k ∈ m.konts → Kont.playish k = false)
    (hhf : x ∉ m.off → m.hasFinish x = false)
    (hnbx : x ∉ m.off → ∀ finsl, assocGet m.store aid = some finsl →
      finsl.sound ≠ some x)
    (hact : n.activeId = some pid) (hfad : n.fadingId = m.fadingId)
    (hprep : n.preparingId = some aid) (hnid : n.nextSlotId = m.nextSlotId)
    (hoff : n.off = m.off) (hkonts : n.konts = m.konts ++ [Kont.playK x pid])
    (hGpid : ∀ sl2, assocGet n.store pid = some sl2 → sl2.sound = none)
    (hGaid : ∀ sl2, assocGet n.store aid = some sl2 → sl2.sound = none)
    (hGoth : ∀ k, k ≠ pid → k ≠ aid → assocGet n.store k = assocGet m.store k)
    (hGkl : ∀ pr, pr ∈ n.store → pr.1 < m.nextSlotId)
    (htrA : ∀ sid2, finOpt ≠ some sid2 → n.soundTrace sid2 = m.soundTrace sid2)
    (htrB : ∀ sid2, finOpt ≠ some sid2 → n.hasFinish sid2 = m.hasFinish sid2)
    (htrC : ∀ fin, finOpt = some fin → ∃ finsl,
      assocGet m.store aid = some finsl ∧ finsl.sound = some fin ∧ fin ∉ m.off ∧
      n.soundTrace fin = m.soundTrace fin ++ [Ev.finish false] ∧
      n.hasFinish fin = true)
    (hi : Inv m) : Inv n := by
  have hap : aid ≠ pid := hi.rd aid pid hA hP
  have hmemk : ∀ k, k ∈ n.konts → k ∈ m.konts ∨ k = Kont.playK x pid := by
    intro k h
    rw [hkonts] at h
    rcases List.mem_append.mp h with h1 | h1
    · left; exact h1
    · right; simpa using h1
  constructor
  case g =>
    intro sid2
    by_cases hfin : finOpt = some sid2
    · obtain ⟨finsl, hfinsl, hfinsound, hfinoff, htr, -⟩ := htrC sid2 hfin
      rw [htr]
      apply good_finish_append
      right
      exact hi.ab aid finsl sid2 hA hfinsl hfinsound hfinoff
    · rw [htrA sid2 hfin]
      exact hi.g sid2
  case uq =>
    rw [hkonts, List.filter_append, filter_playish_nil _ hnp]
    simp [Kont.playish]
  case ab =>
    intro aid2 asl2 sid2 h1 h2 h3 h4
    rw [hact] at h1
    injection h1 with h1
    subst h1
    rw [hGpid asl2 h2] at h3
    exact absurd h3 (by simp)
  case fb =>
    intro fid2 fsl2 sid2 h1 h2 h3 h4
    rw [hfad] at h1
    have hfa : aid ≠ fid2 := hi.rd2 aid fid2 hA h1
    have hfp : fid2 ≠ pid := hi.rd3 fid2 pid h1 hP
    rw [hGoth fid2 hfp (fun hh => hfa hh.symm)] at h2
    rw [hoff] at h4
    by_cases hfin : finOpt = some sid2
    · obtain ⟨-, -, -, -, -, hhf2⟩ := htrC sid2 hfin
      exact hhf2
    · rw [htrB sid2 hfin]
      exact hi.fb fid2 fsl2 sid2 h1 h2 h3 h4
  case pb =>
    intro pid2 psl2 h1 h2
    rw [hprep] at h1
    injection h1 with h1
    subst h1
    exact hGaid psl2 h2
  case ob =>
    intro k sl2 h1 h2
    by_cases hk1 : k = pid
    · subst hk1
      rw [hGpid sl2 h1] at h2
      simp at h2
    · by_cases hk2 : k = aid
      · subst hk2
        rw [hGaid sl2 h1] at h2
        simp at h2
      · rw [hGoth k hk1 hk2] at h1
        rcases hi.ob k sl2 h1 h2 with h3 | h3
        · rw [hA] at h3
          injection h3 with h3
          exact absurd h3.symm hk2
        · right
          rw [hfad, h3]
  case ps =>
    intro k hkm sid2 hsid2 hoffx
    rcases hmemk k hkm with h1 | h1
    · have h2 := hnp k h1
      rw [startSid_some_playish k sid2 hsid2] at h2
      exact absurd h2 (by simp)
    · subst h1
      have hx : sid2 = x := by
        rw [Kont.startSid] at hsid2
        injection hsid2 with h
        exact h.symm
      subst hx
      rw [hoff] at hoffx
      constructor
      · by_cases hfin : finOpt = some sid2
        · obtain ⟨finsl, hfinsl, hfinsound, -, -, -⟩ := htrC sid2 hfin
          exact absurd hfinsound (hnbx hoffx finsl hfinsl)
        · rw [htrB sid2 hfin]
          exact hhf hoffx
      · intro k2 sl2 h2
        by_cases hk1 : k2 = pid
        · subst hk1
          rw [hGpid sl2 h2]
          simp
        · by_cases hk2 : k2 = aid
          · subst hk2
            rw [hGaid sl2 h2]
            simp
          · rw [hGoth k2 hk1 hk2] at h2
            intro hbad
            rcases hi.ob k2 sl2 h2 (by rw [hbad]; rfl) with h3 | h3
            · rw [hA] at h3
              injection h3 with h3
              exact hk2 h3.symm
            · have := hi.fb k2 sl2 sid2 h3 h2 hbad hoffx
              rw [hhf hoffx] at this
              exact absurd this (by simp)
  case rs =>
    intro sid2 h1 h2
    rcases hmemk _ h1 with h3 | h3
    · have h4 := hnp _ h3
      simp [Kont.playish] at h4
    · exact absurd h3 (by simp)
  case ref =>
    intro sid3 r h1
    rcases hmemk _ h1 with h3 | h3
    · have h5 := hnp _ h3
      simp [Kont.playish] at h5
    · injection h3 with h3 h4
      subst h4
      exact hact
  case refu =>
    intro sid3 r sl2 h1 h2
    rcases hmemk _ h1 with h3 | h3
    · have h5 := hnp _ h3
      simp [Kont.playish] at h5
    · injection h3 with h3 h4
      subst h4
      exact hGpid sl2 h2
  case rd =>
    intro a p h1 h2
    rw [hact] at h1
    rw [hprep] at h2
    injection h1 with h1
    injection h2 with h2
    subst h1
    subst h2
    exact fun hh => hap hh.symm
  case rd2 =>
    intro a f h1 h2
    rw [hact] at h1
    rw [hfad] at h2
    injection h1 with h1
    subst h1
    have := hi.rd3 f pid h2 hP
    exact fun hh => this hh.symm
  case rd3 =>
    intro f p h1 h2
    rw [hfad] at h1
    rw [hprep] at h2
    injection h2 with h2
    subst h2
    have := hi.rd2 aid f hA h1
    exact fun hh => this hh.symm
  case kl =>
    intro pr h
    rw [hnid]
    exact hGkl pr h
  case rla =>
    intro a h1
    rw [hact] at h1
    injection h1 with h1
    subst h1
    rw [hnid]
    exact hi.rlp pid hP
  case rlf =>
    intro f h1
    rw [hfad] at h1
    rw [hnid]
    exact hi.rlf f h1
  case rlp =>
    intro p h1
    rw [hprep] at h1
    injection h1 with h1
    subst h1
    rw [hnid]
    exact hi.rla aid hA
  case z =>
    intro hnone
    rw [hact] at hnone
    exact absurd hnone (by simp)

end FeedSpeaker

namespace FeedSpeaker

theorem store_bound_setSlot {m : Machine} {N k : Nat} {rec : Slot}
    (hb : ∀ pr, pr ∈ m.store → pr.1 < N) (hk : k < N) :
    ∀ pr, pr ∈ (m.setSlot k rec).store → pr.1 < N := by
  intro pr h
  rcases mem_assocSet m.store k rec pr h with h1 | h1
  · exact hb pr h1
  · subst h1; exact hk

theorem store_bound_updSlot {m : Machine} {N k : Nat} {f : Slot → Slot}
    (hb : ∀ pr, pr ∈ m.store → pr.1 < N) :
    ∀ pr, pr ∈ (m.updSlot k f).store → pr.1 < N := by
  intro pr h
  rw [Machine.updSlot] at h
  split at h
  next fsl heqf =>
    rcases mem_assocSet m.store k _ pr h with h1 | h1
    · exact hb pr h1
    · subst h1
      exact hb (k, fsl) (assocGet_mem _ _ _ heqf)
  next => exact hb pr h

theorem store_bound_setVolumeOn {m : Machine} {N : Nat} {P : ℚ → ℚ} {k : Nat}
    {so : Option Sound} (hb : ∀ pr, pr ∈ m.store → pr.1 < N) :
    ∀ pr, pr ∈ (m.setVolumeOn P k so).store → pr.1 < N := by
  intro pr h
  rw [Machine.setVolumeOn] at h
  split at h
  next heq => exact hb pr h
  next sl heq =>
    split at h
    · exact hb pr h
    next s hs =>
      rcases mem_assocSet m.store k _ pr h with h1 | h1
      · exact hb pr h1
      · subst h1
        exact hb (k, sl) (assocGet_mem _ _ _ heq)

end FeedSpeaker

namespace FeedSpeaker

theorem Inv_assemble_mid {m n3 : Machine} (P : ℚ → ℚ) (x pid aid : Nat)
    (finOpt : Option Nat)
    (hA : m.activeId = some aid) (hP : m.preparingId = some pid)
    (hnp : ∀ k, k ∈ m.konts → Kont.playish k = false)
    (hhf : x ∉ m.off → m.hasFinish x = false)
    (hnbx : x ∉ m.off → ∀ finsl, assocGet m.store aid = some finsl →
      finsl.sound ≠ some x)
    (hact : n3.activeId = some pid) (hfad : n3.fadingId = m.fadingId)
    (hprep : n3.preparingId = some aid) (hnid : n3.nextSlotId = m.nextSlotId)
    (hoff : n3.off = m.off) (hkonts : n3.konts = m.konts)
    (hGpid : ∀ sl2, assocGet n3.store pid = some sl2 → sl2.sound = none)
    (hGaid : ∀ sl2, assocGet n3.store aid = some sl2 → sl2.sound = none)
    (hGoth : ∀ k, k ≠ pid → k ≠ aid → assocGet n3.store k = assocGet m.store k)
    (hGkl : ∀ pr, pr ∈ n3.store → pr.1 < m.nextSlotId)
    (htrA : ∀ sid2, finOpt ≠ some sid2 → n3.soundTrace sid2 = m.soundTrace sid2)
    (htrB : ∀ sid2, finOpt ≠ some sid2 → n3.hasFinish sid2 = m.hasFinish sid2)
    (htrC : ∀ fin, finOpt = some fin → ∃ finsl,
      assocGet m.store aid = some finsl ∧ finsl.sound = some fin ∧ fin ∉ m.off ∧
      n3.soundTrace fin = m.soundTrace fin ++ [Ev.finish false] ∧
      n3.hasFinish fin = true)
    (hi : Inv m) :
    Inv { n3.updSlot pid (fun sl => { sl with audio := { sl.audio with paused := false } }) with
      konts := (n3.updSlot pid
        (fun sl => { sl with audio := { sl.audio with paused := false } })).konts ++
        [Kont.playK x pid] } := by
  have h4g := updSlot_get n3 pid (fun sl => { sl with audio := { sl.audio with paused := false } })
  have h4r := updSlot_roles n3 pid (fun sl => { sl with audio := { sl.audio with paused := false } })
  have h4k := updSlot_konts n3 pid (fun sl => { sl with audio := { sl.audio with paused := false } })
  have h4t := updSlot_trace n3 pid (fun sl => { sl with audio := { sl.audio with paused := false } })
  refine Inv_assemble_core P x pid aid finOpt hA hP hnp hhf hnbx ?_ ?_ ?_ ?_ ?_ ?_ ?_ ?_ ?_ ?_ ?_ ?_ ?_ hi
  · show (Machine.updSlot n3 pid _).activeId = some pid
    rw [h4r.1]; exact hact
  · show (Machine.updSlot n3 pid _).fadingId = m.fadingId
    rw [h4r.2.1]; exact hfad
  · show (Machine.updSlot n3 pid _).preparingId = some aid
    rw [h4r.2.2.1]; exact hprep
  · show (Machine.updSlot n3 pid _).nextSlotId = m.nextSlotId
    rw [h4r.2.2.2]; exact hnid
  · show (Machine.updSlot n3 pid _).off = m.off
    rw [updSlot_off]; exact hoff
  · show (Machine.updSlot n3 pid _).konts ++ [Kont.playK x pid] = m.konts ++ [Kont.playK x pid]
    rw [h4k, hkonts]
  · -- pid slot sound still none after the pause-flag update
    intro sl2 h
    replace h : assocGet (Machine.updSlot n3 pid _).store pid = some sl2 := h
    rw [h4g pid, if_pos rfl] at h
    rcases hx : assocGet n3.store pid with _ | q
    · rw [hx] at h; exact Option.noConfusion h
    · rw [hx, Option.map_some'] at h
      injection h with h
      rw [← h]
      exact hGpid q hx
  · -- aid slot sound none
    intro sl2 h
    replace h : assocGet (Machine.updSlot n3 pid _).store aid = some sl2 := h
    by_cases hax : aid = pid
    · rw [h4g aid, if_pos hax] at h
      rcases hx : assocGet n3.store pid with _ | q
      · rw [hx] at h; exact Option.noConfusion h
      · rw [hx, Option.map_some'] at h
        injection h with h
        rw [← h]
        exact hGpid q hx
    · rw [h4g aid, if_neg hax] at h
      exact hGaid sl2 h
  · -- other slots unchanged
    intro k h1 h2
    show assocGet (Machine.updSlot n3 pid _).store k = assocGet m.store k
    rw [h4g k, if_neg h1]
    exact hGoth k h1 h2
  · -- store keys bounded
    intro pr h
    exact store_bound_updSlot hGkl pr h
  · -- traces of non-finished sounds unchanged
    intro sid2 h
    have hct : (Machine.updSlot n3 pid
        (fun sl => { sl with audio := { sl.audio with paused := false } })).trace = n3.trace := h4t
    refine ((soundTrace_congr n3 _ hct sid2).trans (htrA sid2 h))
  · intro sid2 h
    have hct : (Machine.updSlot n3 pid
        (fun sl => { sl with audio := { sl.audio with paused := false } })).trace = n3.trace := h4t
    refine ((hasFinish_congr n3 _ hct sid2).trans (htrB sid2 h))
  · intro fin h
    obtain ⟨finsl, hc1, hc2, hc3, hc4, hc5⟩ := htrC fin h
    have hct : (Machine.updSlot n3 pid
        (fun sl => { sl with audio := { sl.audio with paused := false } })).trace = n3.trace := h4t
    exact ⟨finsl, hc1, hc2, hc3, (soundTrace_congr n3 _ hct fin).trans hc4,
      (hasFinish_congr n3 _ hct fin).trans hc5⟩

end FeedSpeaker

namespace FeedSpeaker

theorem Inv_assemble {m : Machine} (P : ℚ → ℚ) (s : Sound) (x : Nat)
    (hnp : ∀ k, k ∈ m.konts → Kont.playish k = false)
    (hhf : x ∉ m.off → m.hasFinish x = false)
    (hnbx : x ∉ m.off → ∀ aid finsl, m.activeId = some aid →
      assocGet m.store aid = some finsl → finsl.sound ≠ some x)
    (hi : Inv m) : Inv (m.assemblePlay P s x) := by
  rw [Machine.assemblePlay]
  split
  next aid pid hA hP =>
    simp only []
    set m1 : Machine := { m with activeId := some pid, preparingId := some aid } with hm1
    set n1 : Machine := m1.updSlot pid (fun sl => { sl with sound := none }) with hn1e
    set n2 : Machine := n1.setVolumeOn P pid (some s) with hn2e
    set n3 : Machine := n2.preemptPreparing aid with hn3e
    set n4 : Machine := n3.updSlot pid
      (fun sl => { sl with audio := { sl.audio with paused := false } }) with hn4e
    show Inv { n4 with konts := n4.konts ++ [Kont.playK x pid] }
    have hap : aid ≠ pid := hi.rd aid pid hA hP
    have hnbx' : x ∉ m.off → ∀ finsl, assocGet m.store aid = some finsl →
        finsl.sound ≠ some x := fun ho finsl hg => hnbx ho aid finsl hA hg
    have hm1k : m1.konts = m.konts := by rw [hm1]
    have hm1off : m1.off = m.off := by rw [hm1]
    have hm1tr : m1.trace = m.trace := by rw [hm1]
    have hm1s : m1.store = m.store := by rw [hm1]
    have hm1fad : m1.fadingId = m.fadingId := by rw [hm1]
    have hm1nid : m1.nextSlotId = m.nextSlotId := by rw [hm1]
    have hG1 : ∀ k2, assocGet n1.store k2 =
        if k2 = pid then (assocGet m.store pid).map (fun sl => { sl with sound := none })
        else assocGet m.store k2 := by
      intro k2
      rw [hn1e, updSlot_get m1 pid _ k2, hm1s]
    obtain ⟨g3, hg3s, hg3p, hg3a, hg3get⟩ := setVolumeOn_get P n1 pid (some s)
    have hG2 : ∀ k2, assocGet n2.store k2 =
        if k2 = pid then (assocGet n1.store pid).map g3 else assocGet n1.store k2 := by
      intro k2
      rw [hn2e]
      exact hg3get k2
    have hGoth2 : ∀ k2, k2 ≠ pid → assocGet n2.store k2 = assocGet m.store k2 := by
      intro k2 h
      rw [hG2 k2, if_neg h, hG1 k2, if_neg h]
    have hGpid2 : ∀ sl2, assocGet n2.store pid = some sl2 → sl2.sound = none := by
      intro sl2 h
      rw [hG2 pid, if_pos rfl, hG1 pid, if_pos rfl] at h
      rcases hx : assocGet m.store pid with _ | q
      · rw [hx] at h; exact Option.noConfusion h
      · rw [hx, Option.map_some', Option.map_some'] at h
        injection h with h
        rw [← h, hg3s]
    have hpreaid : assocGet n2.store aid = assocGet m.store aid := hGoth2 aid hap
    have hk2 : n2.konts = m.konts := by
      rw [hn2e, setVolumeOn_konts, hn1e, updSlot_konts, hm1k]
    have hoff2 : n2.off = m.off := by
      rw [hn2e, setVolumeOn_off, hn1e, updSlot_off, hm1off]
    have htr2 : n2.trace = m.trace := by
      rw [hn2e, setVolumeOn_trace, hn1e, updSlot_trace, hm1tr]
    have hr2a : n2.activeId = some pid := by
      rw [hn2e, (setVolumeOn_roles P n1 pid (some s)).1, hn1e,
        (updSlot_roles m1 pid _).1, hm1]
    have hr2f : n2.fadingId = m.fadingId := by
      rw [hn2e, (setVolumeOn_roles P n1 pid (some s)).2.1, hn1e,
        (updSlot_roles m1 pid _).2.1, hm1fad]
    have hr2p : n2.preparingId = some aid := by
      rw [hn2e, (setVolumeOn_roles P n1 pid (some s)).2.2.1, hn1e,
        (updSlot_roles m1 pid _).2.2.1, hm1]
    have hr2n : n2.nextSlotId = m.nextSlotId := by
      rw [hn2e, (setVolumeOn_roles P n1 pid (some s)).2.2.2, hn1e,
        (updSlot_roles m1 pid _).2.2.2, hm1nid]
    have hkl2 : ∀ pr, pr ∈ n2.store → pr.1 < m.nextSlotId := by
      have h0 : ∀ pr, pr ∈ m1.store → pr.1 < m.nextSlotId := by
        intro pr h
        rw [hm1s] at h
        exact hi.kl pr h
      have h1 : ∀ pr, pr ∈ n1.store → pr.1 < m.nextSlotId := by
        rw [hn1e]; exact store_bound_updSlot h0
      rw [hn2e]; exact store_bound_setVolumeOn h1
    rcases hpre : assocGet m.store aid with _ | psl
    · -- the slot now holding the preparing role does not exist: no preempt
      have hn3 : n3 = n2 := by
        rw [hn3e, Machine.preemptPreparing, hpreaid, hpre]
      rw [hn4e]
      refine Inv_assemble_mid P x pid aid none hA hP hnp hhf hnbx' ?_ ?_ ?_ ?_ ?_ ?_
        ?_ ?_ ?_ ?_ ?_ ?_ ?_ hi
      · rw [hn3]; exact hr2a
      · rw [hn3]; exact hr2f
      · rw [hn3]; exact hr2p
      · rw [hn3]; exact hr2n
      · rw [hn3]; exact hoff2
      · rw [hn3]; exact hk2
      · rw [hn3]; exact hGpid2
      · intro sl2 h
        rw [hn3, hpreaid, hpre] at h
        exact Option.noConfusion h
      · intro k h1 h2
        rw [hn3]
        exact hGoth2 k h1
      · rw [hn3]; exact hkl2
      · intro sid2 h
        exact soundTrace_congr m n3 (by rw [hn3, htr2]) sid2
      · intro sid2 h
        exact hasFinish_congr m n3 (by rw [hn3, htr2]) sid2
      · intro fin h
        exact Option.noConfusion h
    · rcases hps : psl.sound with _ | fin
      · -- preparing-role slot exists but holds no sound: no preempt
        have hn3 : n3 = n2 := by
          rw [hn3e, Machine.preemptPreparing, hpreaid, hpre]
          simp only []
          rw [hps]
        rw [hn4e]
        refine Inv_assemble_mid P x pid aid none hA hP hnp hhf hnbx' ?_ ?_ ?_ ?_ ?_ ?_
          ?_ ?_ ?_ ?_ ?_ ?_ ?_ hi
        · rw [hn3]; exact hr2a
        · rw [hn3]; exact hr2f
        · rw [hn3]; exact hr2p
        · rw [hn3]; exact hr2n
        · rw [hn3]; exact hoff2
        · rw [hn3]; exact hk2
        · rw [hn3]; exact hGpid2
        · intro sl2 h
          rw [hn3, hpreaid, hpre] at h
          injection h with h
          rw [← h]
          exact hps
        · intro k h1 h2
          rw [hn3]
          exact hGoth2 k h1
        · rw [hn3]; exact hkl2
        · intro sid2 h
          exact soundTrace_congr m n3 (by rw [hn3, htr2]) sid2
        · intro sid2 h
          exact hasFinish_congr m n3 (by rw [hn3, htr2]) sid2
        · intro fin h
          exact Option.noConfusion h
      · -- preempt fires: the old active sound is silenced, detached, finished
        have hn3 : n3 = (n2.setSlot aid
            { psl with sound := none,
                       audio := { psl.audio with src := SILENCE } }).deliver fin (Ev.finish false) := by
          rw [hn3e, Machine.preemptPreparing, hpreaid, hpre]
          simp only []
          rw [hps]
        have hga2 : assocGet n2.store aid = some psl := by rw [hpreaid, hpre]
        have hsoff : (n2.setSlot aid
            { psl with sound := none,
                       audio := { psl.audio with src := SILENCE } }).off = m.off := by
          rw [setSlot_off]; exact hoff2
        have hstr : (n2.setSlot aid
            { psl with sound := none,
                       audio := { psl.audio with src := SILENCE } }).trace = m.trace := by
          rw [setSlot_trace]; exact htr2
        have hst3 : n3.store = assocSet n2.store aid
            { psl with sound := none,
                       audio := { psl.audio with src := SILENCE } } := by
          rw [hn3, deliver_store, Machine.setSlot]
        have hact3 : n3.activeId = some pid := by
          rw [hn3, deliver_activeId]; exact hr2a
        have hfad3 : n3.fadingId = m.fadingId := by
          rw [hn3, deliver_fadingId]; exact hr2f
        have hprep3 : n3.preparingId = some aid := by
          rw [hn3, deliver_preparingId]; exact hr2p
        have hnid3 : n3.nextSlotId = m.nextSlotId := by
          rw [hn3, deliver_nextSlotId]; exact hr2n
        have hoff3 : n3.off = m.off := by
          rw [hn3, deliver_off]; exact hsoff
        have hkonts3 : n3.konts = m.konts := by
          rw [hn3, deliver_konts]; exact hk2
        have hGpid3 : ∀ sl2, assocGet n3.store pid = some sl2 → sl2.sound = none := by
          intro sl2 h
          rw [hst3, assocGet_assocSet_ne _ _ _ _ hap] at h
          exact hGpid2 sl2 h
        have hGaid3 : ∀ sl2, assocGet n3.store aid = some sl2 → sl2.sound = none := by
          intro sl2 h
          rw [hst3, assocGet_assocSet_self _ _ _ psl hga2] at h
          injection h with h
          rw [← h]
        have hGoth3 : ∀ k, k ≠ pid → k ≠ aid →
            assocGet n3.store k = assocGet m.store k := by
          intro k h1 h2
          rw [hst3, assocGet_assocSet_ne _ _ _ _ (fun hh => h2 hh.symm)]
          exact hGoth2 k h1
        have hkl3 : ∀ pr, pr ∈ n3.store → pr.1 < m.nextSlotId := by
          intro pr h
          rw [hst3] at h
          rcases mem_assocSet n2.store aid _ pr h with h1 | h1
          · exact hkl2 pr h1
          · rw [h1]
            exact hkl2 (aid, psl) (assocGet_mem _ _ _ hga2)
        by_cases hfo : fin ∈ m.off
        · -- the preempted sound was unsubscribed: the finish is dropped
          have htr3 : n3.trace = m.trace := by
            rw [hn3, deliver_off_id _ fin _ (by rw [hsoff]; exact hfo)]
            exact hstr
          rw [hn4e]
          refine Inv_assemble_mid P x pid aid none hA hP hnp hhf hnbx' hact3 hfad3
            hprep3 hnid3 hoff3 hkonts3 hGpid3 hGaid3 hGoth3 hkl3 ?_ ?_ ?_ hi
          · intro sid2 h
            exact soundTrace_congr m n3 htr3 sid2
          · intro sid2 h
            exact hasFinish_congr m n3 htr3 sid2
          · intro fin2 h
            exact Option.noConfusion h
        · -- the finish event reaches the trace of the preempted sound
          have hd1 : n3.soundTrace fin = m.soundTrace fin ++ [Ev.finish false] := by
            rw [hn3, soundTrace_deliver_self _ fin _ (by rw [hsoff]; exact hfo)]
            rw [soundTrace_congr m _ hstr fin]
          have hd2 : n3.hasFinish fin = true := by
            rw [hn3]
            exact hasFinish_deliver_finish_self _ fin false (by rw [hsoff]; exact hfo)
          rw [hn4e]
          refine Inv_assemble_mid P x pid aid (some fin) hA hP hnp hhf hnbx' hact3 hfad3
            hprep3 hnid3 hoff3 hkonts3 hGpid3 hGaid3 hGoth3 hkl3 ?_ ?_ ?_ hi
          · intro sid2 h
            have hne : fin ≠ sid2 := fun he => h (by rw [he])
            rw [hn3, soundTrace_deliver_ne _ fin _ sid2 hne]
            exact soundTrace_congr m _ hstr sid2
          · intro sid2 h
            have hne : fin ≠ sid2 := fun he => h (by rw [he])
            rw [hn3, hasFinish_deliver_ne _ fin _ sid2 hne]
            exact hasFinish_congr m _ hstr sid2
          · intro fin2 h
            injection h with h
            rw [← h]
            exact ⟨psl, hpre, hps, hfo, hd1, hd2⟩
  all_goals exact hi

end FeedSpeaker

namespace FeedSpeaker

theorem Inv_kont_append_resumeK {m n : Machine} (hi : Inv m) (sid : Nat)
    (hk : n.konts = m.konts ++ [Kont.resumeK sid])
    (hnp : ∀ k, k ∈ m.konts → Kont.playish k = false)
    (hhf : m.hasFinish sid = false)
    (hst : n.store = m.store) (ht : n.trace = m.trace) (ho : n.off = m.off)
    (ha : n.activeId = m.activeId) (hf : n.fadingId = m.fadingId)
    (hpp : n.preparingId = m.preparingId) (hn : m.nextSlotId ≤ n.nextSlotId)
    (hza : ∃ a, m.activeId = some a) : Inv n := by
  have ho' : ∀ sid2, sid2 ∉ n.off → sid2 ∉ m.off := by
    intro sid2 h
    rw [ho] at h
    exact h
  have hmem : ∀ k, k ∈ n.konts → k ∈ m.konts ∨ k = Kont.resumeK sid := by
    intro k h
    rw [hk] at h
    rcases List.mem_append.mp h with h1 | h1
    · left; exact h1
    · right; simpa using h1
  constructor
  case g => intro sid2; rw [soundTrace_congr m n ht]; exact hi.g sid2
  case uq =>
    rw [hk, List.filter_append, filter_playish_nil m.konts hnp]
    simp [Kont.playish]
  case ab =>
    intro aid asl sid2 h1 h2 h3 h4
    rw [ha] at h1; rw [hst] at h2
    rw [soundTrace_congr m n ht]
    exact hi.ab aid asl sid2 h1 h2 h3 (ho' sid2 h4)
  case fb =>
    intro fid fsl sid2 h1 h2 h3 h4
    rw [hf] at h1; rw [hst] at h2
    rw [hasFinish_congr m n ht]
    exact hi.fb fid fsl sid2 h1 h2 h3 (ho' sid2 h4)
  case pb => intro pid psl h1 h2; rw [hpp] at h1; rw [hst] at h2; exact hi.pb pid psl h1 h2
  case ob => intro k sl h1 h2; rw [hst] at h1; rw [ha, hf]; exact hi.ob k sl h1 h2
  case ps =>
    intro k hkm sid2 hsid hoff
    rcases hmem k hkm with h1 | h1
    · obtain ⟨hh, hb⟩ := hi.ps k h1 sid2 hsid (ho' sid2 hoff)
      refine ⟨by rw [hasFinish_congr m n ht]; exact hh, ?_⟩
      intro k2 sl h2; rw [hst] at h2; exact hb k2 sl h2
    · rw [h1] at hsid
      exact Option.noConfusion hsid
  case rs =>
    intro sid2 h1 h2
    rcases hmem _ h1 with h3 | h3
    · rw [hasFinish_congr m n ht]
      exact hi.rs sid2 h3 (ho' sid2 h2)
    · injection h3 with h3
      subst h3
      rw [hasFinish_congr m n ht]
      exact hhf
  case ref =>
    intro sid2 r h1
    rcases hmem _ h1 with h3 | h3
    · rw [ha]; exact hi.ref sid2 r h3
    · exact Kont.noConfusion h3
  case refu =>
    intro sid2 r sl h1 h2
    rcases hmem _ h1 with h3 | h3
    · rw [hst] at h2; exact hi.refu sid2 r sl h3 h2
    · exact Kont.noConfusion h3
  case rd => intro a p h1 h2; rw [ha] at h1; rw [hpp] at h2; exact hi.rd a p h1 h2
  case rd2 => intro a f h1 h2; rw [ha] at h1; rw [hf] at h2; exact hi.rd2 a f h1 h2
  case rd3 => intro f p h1 h2; rw [hf] at h1; rw [hpp] at h2; exact hi.rd3 f p h1 h2
  case kl => intro pr h; rw [hst] at h; have := hi.kl pr h; omega
  case rla => intro a h1; rw [ha] at h1; have := hi.rla a h1; omega
  case rlf => intro f h1; rw [hf] at h1; have := hi.rlf f h1; omega
  case rlp => intro p h1; rw [hpp] at h1; have := hi.rlp p h1; omega
  case z =>
    intro hnone
    rw [ha] at hnone
    obtain ⟨a, ha2⟩ := hza
    rw [ha2] at hnone
    exact absurd hnone (by simp)

theorem Inv_kont_append_prepThen {m n : Machine} (hi : Inv m) (url : String)
    (sp : Option ℚ) (sid : Nat)
    (hk : n.konts = m.konts ++ [Kont.prepThen url sp (some sid)])
    (hnp : ∀ k, k ∈ m.konts → Kont.playish k = false)
    (hhf : m.hasFinish sid = false)
    (hnb : sid ∉ m.off → notBound m sid)
    (hst : n.store = m.store) (ht : n.trace = m.trace) (ho : n.off = m.off)
    (ha : n.activeId = m.activeId) (hf : n.fadingId = m.fadingId)
    (hpp : n.preparingId = m.preparingId) (hn : m.nextSlotId ≤ n.nextSlotId)
    (hza : ∃ a, m.activeId = some a) : Inv n := by
  have ho' : ∀ sid2, sid2 ∉ n.off → sid2 ∉ m.off := by
    intro sid2 h
    rw [ho] at h
    exact h
  have hmem : ∀ k, k ∈ n.konts → k ∈ m.konts ∨ k = Kont.prepThen url sp (some sid) := by
    intro k h
    rw [hk] at h
    rcases List.mem_append.mp h with h1 | h1
    · left; exact h1
    · right; simpa using h1
  constructor
  case g => intro sid2; rw [soundTrace_congr m n ht]; exact hi.g sid2
  case uq =>
    rw [hk, List.filter_append, filter_playish_nil m.konts hnp]
    simp [Kont.playish]
  case ab =>
    intro aid asl sid2 h1 h2 h3 h4
    rw [ha] at h1; rw [hst] at h2
    rw [soundTrace_congr m n ht]
    exact hi.ab aid asl sid2 h1 h2 h3 (ho' sid2 h4)
  case fb =>
    intro fid fsl sid2 h1 h2 h3 h4
    rw [hf] at h1; rw [hst] at h2
    rw [hasFinish_congr m n ht]
    exact hi.fb fid fsl sid2 h1 h2 h3 (ho' sid2 h4)
  case pb => intro pid psl h1 h2; rw [hpp] at h1; rw [hst] at h2; exact hi.pb pid psl h1 h2
  case ob => intro k sl h1 h2; rw [hst] at h1; rw [ha, hf]; exact hi.ob k sl h1 h2
  case ps =>
    intro k hkm sid2 hsid hoff
    rcases hmem k hkm with h1 | h1
    · obtain ⟨hh, hb⟩ := hi.ps k h1 sid2 hsid (ho' sid2 hoff)
      refine ⟨by rw [hasFinish_congr m n ht]; exact hh, ?_⟩
      intro k2 sl h2; rw [hst] at h2; exact hb k2 sl h2
    · rw [h1] at hsid
      have hsid2 : sid = sid2 := by
        simpa [Kont.startSid] using hsid
      subst hsid2
      refine ⟨by rw [hasFinish_congr m n ht]; exact hhf, ?_⟩
      intro k2 sl h2
      rw [hst] at h2
      exact hnb (ho' sid hoff) k2 sl h2
  case rs =>
    intro sid2 h1 h2
    rcases hmem _ h1 with h3 | h3
    · rw [hasFinish_congr m n ht]
      exact hi.rs sid2 h3 (ho' sid2 h2)
    · exact Kont.noConfusion h3
  case ref =>
    intro sid2 r h1
    rcases hmem _ h1 with h3 | h3
    · rw [ha]; exact hi.ref sid2 r h3
    · exact Kont.noConfusion h3
  case refu =>
    intro sid2 r sl h1 h2
    rcases hmem _ h1 with h3 | h3
    · rw [hst] at h2; exact hi.refu sid2 r sl h3 h2
    · exact Kont.noConfusion h3
  case rd => intro a p h1 h2; rw [ha] at h1; rw [hpp] at h2; exact hi.rd a p h1 h2
  case rd2 => intro a f h1 h2; rw [ha] at h1; rw [hf] at h2; exact hi.rd2 a f h1 h2
  case rd3 => intro f p h1 h2; rw [hf] at h1; rw [hpp] at h2; exact hi.rd3 f p h1 h2
  case kl => intro pr h; rw [hst] at h; have := hi.kl pr h; omega
  case rla => intro a h1; rw [ha] at h1; have := hi.rla a h1; omega
  case rlf => intro f h1; rw [hf] at h1; have := hi.rlf f h1; omega
  case rlp => intro p h1; rw [hpp] at h1; have := hi.rlp p h1; omega
  case z =>
    intro hnone
    rw [ha] at hnone
    obtain ⟨a, ha2⟩ := hza
    rw [ha2] at hnone
    exact absurd hnone (by simp)

theorem Inv_prepareSyncSome {m : Machine} (url : String) (sp : Option ℚ) (sid : Nat)
    (hnp : ∀ k, k ∈ m.konts → Kont.playish k = false)
    (hhf : m.hasFinish sid = false)
    (hnb : sid ∉ m.off → notBound m sid)
    (hza : ∃ a, m.activeId = some a)
    (hi : Inv m) : Inv (m.prepareSync url sp (some sid)) := by
  rw [Machine.prepareSync]
  simp only []
  have hm1 : Inv ({ m with prepareWhenReady := none } : Machine) :=
    Inv_transfer hi rfl rfl rfl (fun _ h => h) rfl rfl rfl (le_refl _)
  split
  · exact hm1
  next pid hpid =>
    split
    · exact hm1
    next psl hpsl =>
      split
      · exact Inv_kont_append_prepThen hm1 url sp sid rfl hnp hhf hnb rfl rfl rfl
          rfl rfl rfl (le_refl _) hza
      · split
        · exact Inv_setSlot hm1 hpsl rfl
        · exact hm1

end FeedSpeaker

namespace FeedSpeaker

theorem Inv_playCall {m : Machine} (P : ℚ → ℚ) (sid : Nat)
    (hnp : ∀ k, k ∈ m.konts → Kont.playish k = false)
    (hhf : m.hasFinish sid = false)
    (hi : Inv m) : Inv (m.playCall P sid) := by
  rw [Machine.playCall]
  split
  next => exact hi
  next s hs =>
    split
    next => exact hi
    next aid hA =>
      split
      next => exact hi
      next asl hasl =>
        split
        next hbound =>
          -- the sound is already bound to the active slot: resume path
          split
          next hpaused =>
            simp only []
            set m1 : Machine := m.setSlot aid
              { asl with audio := { asl.audio with paused := false } } with hm1e
            set m2 : Machine := { m1 with konts := m1.konts ++ [Kont.resumeK sid] } with hm2e
            have him1 : Inv m1 := Inv_setSlot hi hasl rfl
            have him2 : Inv m2 :=
              Inv_kont_append_resumeK him1 sid rfl hnp hhf rfl rfl rfl rfl rfl rfl
                (le_refl _) ⟨aid, hA⟩
            split
            next => exact him2
            next fid hfid =>
              split
              next => exact him2
              next fsl hfsl =>
                split
                next fsid hfsid =>
                  set m3 : Machine := m2.setSlot fid
                    { fsl with audio := { fsl.audio with paused := false } } with hm3e
                  have him3 : Inv m3 := Inv_setSlot him2 hfsl rfl
                  exact Inv_kont_append him3 (Kont.fadeResumeK fsid) rfl rfl rfl rfl
                    (fun _ h => h) rfl rfl rfl (le_refl _) ⟨aid, hA⟩
                next => exact him2
          next => exact hi
        next hbound =>
          -- the sound is not bound to the active slot
          have hnb : sid ∉ m.off → notBound m sid := by
            intro ho k sl hget hcon
            rcases hi.ob k sl hget (by rw [hcon]; rfl) with h1 | h1
            · rw [hA] at h1
              injection h1 with h1
              subst h1
              rw [hasl] at hget
              injection hget with hget
              subst hget
              exact hbound hcon
            · have hfin := hi.fb k sl sid h1 hget hcon ho
              exact absurd (hfin.symm.trans hhf) (by simp)
          split
          next => exact hi
          next pid hP =>
            split
            next => exact hi
            next psl hpsl =>
              split
              next hsrc =>
                exact Inv_prepareSyncSome s.url s.startPosition sid hnp hhf hnb
                  ⟨aid, hA⟩ hi
              next hsrc =>
                refine Inv_assemble P s sid hnp (fun _ => hhf) ?_ hi
                intro ho aid2 finsl hA2 hget
                rw [hA] at hA2
                injection hA2 with hA2
                subst hA2
                rw [hasl] at hget
                injection hget with hget
                subst hget
                exact hbound

end FeedSpeaker

namespace FeedSpeaker

theorem Inv_eraseKont {m : Machine} (i : Nat) (hi : Inv m) :
    Inv { m with konts := m.konts.eraseIdx i } := by
  have hmem : ∀ k, k ∈ m.konts.eraseIdx i → k ∈ m.konts :=
    fun k h => List.mem_of_mem_eraseIdx h
  constructor
  case g => exact hi.g
  case uq =>
    exact le_trans (filter_eraseIdx_le Kont.playish m.konts i) hi.uq
  case ab => exact hi.ab
  case fb => exact hi.fb
  case pb => exact hi.pb
  case ob => exact hi.ob
  case ps =>
    intro k hkm sid hsid hoff
    exact hi.ps k (hmem k hkm) sid hsid hoff
  case rs =>
    intro sid h1 h2
    exact hi.rs sid (hmem _ h1) h2
  case ref =>
    intro sid r h1
    exact hi.ref sid r (hmem _ h1)
  case refu =>
    intro sid r sl h1 h2
    exact hi.refu sid r sl (hmem _ h1) h2
  case rd => exact hi.rd
  case rd2 => exact hi.rd2
  case rd3 => exact hi.rd3
  case kl => exact hi.kl
  case rla => exact hi.rla
  case rlf => exact hi.rlf
  case rlp => exact hi.rlp
  case z =>
    intro hnone
    obtain ⟨h1, h2, h3, h4⟩ := hi.z hnone
    refine ⟨h1, ?_, h3, h4⟩
    show m.konts.eraseIdx i = []
    rw [h2]
    rfl

theorem noPlayish_erase {m : Machine} (i : Nat) (k : Kont)
    (hget : m.konts.get? i = some k) (hpl : Kont.playish k = true)
    (hi : Inv m) : ∀ k2, k2 ∈ m.konts.eraseIdx i → Kont.playish k2 = false := by
  intro k2 h2
  rcases hx : Kont.playish k2 with _ | _
  · rfl
  · exfalso
    have hnil := filter_eraseIdx_nil Kont.playish m.konts i k hget hpl hi.uq
    have hmem : k2 ∈ (m.konts.eraseIdx i).filter Kont.playish :=
      List.mem_filter.mpr ⟨h2, hx⟩
    rw [hnil] at hmem
    exact absurd hmem (List.not_mem_nil k2)

end FeedSpeaker

namespace FeedSpeaker

theorem Inv_freshSlot {m : Machine} (url : String) (d : ℚ)
    (hza : ∃ a, m.activeId = some a) (hi : Inv m) :
    Inv { m with store := m.store ++ [(m.nextSlotId, Slot.fresh url d)],
                 preparingId := some m.nextSlotId,
                 nextSlotId := m.nextSlotId + 1 } := by
  have hsplit : ∀ k2 sl, assocGet (m.store ++ [(m.nextSlotId, Slot.fresh url d)]) k2 =
      some sl → assocGet m.store k2 = some sl ∨ (k2 = m.nextSlotId ∧ sl = Slot.fresh url d) := by
    intro k2 sl h
    rw [assocGet_append m.store [(m.nextSlotId, Slot.fresh url d)] k2] at h
    rcases hold : assocGet m.store k2 with _ | v
    · rw [hold] at h
      simp only [assocGet] at h
      split at h
      next he =>
        injection h with h
        exact Or.inr ⟨he.symm, h.symm⟩
      next => exact Option.noConfusion h
    · rw [hold] at h
      simp only [] at h
      injection h with h
      subst h
      exact Or.inl rfl
  constructor
  case g => exact hi.g
  case uq => exact hi.uq
  case ab =>
    intro aid asl sid h1 h2 h3 h4
    rcases hsplit aid asl h2 with h5 | ⟨h5, h6⟩
    · exact hi.ab aid asl sid h1 h5 h3 h4
    · rw [h6] at h3
      exact Option.noConfusion h3
  case fb =>
    intro fid fsl sid h1 h2 h3 h4
    rcases hsplit fid fsl h2 with h5 | ⟨h5, h6⟩
    · exact hi.fb fid fsl sid h1 h5 h3 h4
    · rw [h6] at h3
      exact Option.noConfusion h3
  case pb =>
    intro pid psl h1 h2
    injection h1 with h1
    rcases hsplit pid psl h2 with h5 | ⟨h5, h6⟩
    · exfalso
      have h7 := hi.kl (pid, psl) (assocGet_mem _ _ _ h5)
      rw [← h1] at h7
      exact absurd h7 (by omega)
    · rw [h6]
      rfl
  case ob =>
    intro k sl h1 h2
    rcases hsplit k sl h1 with h5 | ⟨h5, h6⟩
    · exact hi.ob k sl h5 h2
    · rw [h6] at h2
      exact absurd h2 (by simp [Slot.fresh])
  case ps =>
    intro k hkm sid hsid hoff
    obtain ⟨hh, hb⟩ := hi.ps k hkm sid hsid hoff
    refine ⟨hh, ?_⟩
    intro k2 sl h2
    rcases hsplit k2 sl h2 with h5 | ⟨h5, h6⟩
    · exact hb k2 sl h5
    · rw [h6]
      simp [Slot.fresh]
  case rs => exact hi.rs
  case ref => exact hi.ref
  case refu =>
    intro sid r sl h1 h2
    rcases hsplit r sl h2 with h5 | ⟨h5, h6⟩
    · exact hi.refu sid r sl h1 h5
    · rw [h6]
      rfl
  case rd =>
    intro a p h1 h2
    injection h2 with h2
    have h3 := hi.rla a h1
    omega
  case rd2 => exact hi.rd2
  case rd3 =>
    intro f p h1 h2
    injection h2 with h2
    have h3 := hi.rlf f h1
    omega
  case kl =>
    intro pr h
    show pr.1 < m.nextSlotId + 1
    rcases List.mem_append.mp h with h1 | h1
    · have := hi.kl pr h1
      omega
    · have h2 : pr = (m.nextSlotId, Slot.fresh url d) := by simpa using h1
      rw [h2]
      omega
  case rla =>
    intro a h1
    show a < m.nextSlotId + 1
    have := hi.rla a h1
    omega
  case rlf =>
    intro f h1
    show f < m.nextSlotId + 1
    have := hi.rlf f h1
    omega
  case rlp =>
    intro p h1
    show p < m.nextSlotId + 1
    injection h1 with h1
    omega
  case z =>
    intro hnone
    obtain ⟨a, ha⟩ := hza
    rw [ha] at hnone
    exact absurd hnone (by simp)

end FeedSpeaker

namespace FeedSpeaker

theorem Inv_prepResolve {m : Machine} (P : ℚ → ℚ) (dur : String → ℚ)
    (url : String) (asm : Option Nat)
    (hnp : ∀ sid, asm = some sid → ∀ k, k ∈ m.konts → Kont.playish k = false)
    (hasm : ∀ sid, asm = some sid → sid ∉ m.off →
      m.hasFinish sid = false ∧ notBound m sid)
    (hza : ∃ a, m.activeId = some a)
    (hi : Inv m) : Inv (m.prepResolve P dur url asm) := by
  rw [Machine.prepResolve.eq_def]
  simp only []
  set m1 : Machine := { m with
    store := m.store ++ [(m.nextSlotId, Slot.fresh url (dur url))],
    preparingId := some m.nextSlotId,
    nextSlotId := m.nextSlotId + 1 } with hm1e
  have him1 : Inv m1 := Inv_freshSlot url (dur url) hza hi
  split
  next sid =>
    split
    next s hs =>
      refine Inv_assemble P s sid (hnp sid rfl) ?_ ?_ him1
      · intro ho
        show m.hasFinish sid = false
        exact (hasm sid rfl ho).1
      · intro ho aid finsl hA2 hget2
        have hget3 : assocGet (m.store ++ [(m.nextSlotId, Slot.fresh url (dur url))]) aid =
            some finsl := hget2
        rw [assocGet_append m.store [(m.nextSlotId, Slot.fresh url (dur url))] aid] at hget3
        rcases hold : assocGet m.store aid with _ | v
        · rw [hold] at hget3
          simp only [assocGet] at hget3
          have haltn : aid < m.nextSlotId := hi.rla aid hA2
          rw [if_neg (by omega)] at hget3
          exact Option.noConfusion hget3
        · rw [hold] at hget3
          simp only [] at hget3
          injection hget3 with hget3
          subst hget3
          exact (hasm sid rfl ho).2 aid v hold
    next => exact him1
  next => exact him1

end FeedSpeaker

namespace FeedSpeaker

theorem Inv_bindPlay {m : Machine} (slotRef sid : Nat) (me2 : Slot)
    (snds : List (Nat × Sound))
    (hact : m.activeId = some slotRef)
    (hsound : me2.sound = some sid)
    (hnp : ∀ k, k ∈ m.konts → Kont.playish k = false)
    (hps : sid ∉ m.off → m.hasFinish sid = false ∧ notBound m sid)
    (hi : Inv m) :
    Inv ((({ m with sounds := snds } : Machine).setSlot slotRef me2).deliver sid Ev.play) := by
  set n2 : Machine := ({ m with sounds := snds } : Machine).setSlot slotRef me2 with hn2e
  set n : Machine := n2.deliver sid Ev.play with hne
  have hn2tr : n2.trace = m.trace := by rw [hn2e, setSlot_trace]
  have hn2off : n2.off = m.off := by rw [hn2e, setSlot_off]
  have hoffn : n.off = m.off := by rw [hne, deliver_off]; exact hn2off
  have hstn : n.store = assocSet m.store slotRef me2 := by
    rw [hne, deliver_store, hn2e, Machine.setSlot]
  have hkn : n.konts = m.konts := by rw [hne, deliver_konts, hn2e, Machine.setSlot]
  have han : n.activeId = m.activeId := by rw [hne, deliver_activeId, hn2e, Machine.setSlot]
  have hfn : n.fadingId = m.fadingId := by rw [hne, deliver_fadingId, hn2e, Machine.setSlot]
  have hpn : n.preparingId = m.preparingId := by rw [hne, deliver_preparingId, hn2e, Machine.setSlot]
  have hnn : n.nextSlotId = m.nextSlotId := by rw [hne, deliver_nextSlotId, hn2e, Machine.setSlot]
  have hgetn : ∀ k2, assocGet n.store k2 =
      if k2 = slotRef then (assocGet m.store slotRef).map (fun _ => me2)
      else assocGet m.store k2 := by
    intro k2
    rw [hstn]
    by_cases h : k2 = slotRef
    · subst h
      rw [if_pos rfl]
      exact assocGet_assocSet_eq m.store k2 me2
    · rw [if_neg h]
      exact assocGet_assocSet_ne _ _ _ _ (fun hh => h hh.symm)
  have htr_ne : ∀ sid2, sid2 ≠ sid → n.soundTrace sid2 = m.soundTrace sid2 := by
    intro sid2 h
    rw [hne, soundTrace_deliver_ne n2 sid Ev.play sid2 (fun hh => h hh.symm)]
    exact soundTrace_congr m n2 hn2tr sid2
  have hhf_all : ∀ sid2, n.hasFinish sid2 = m.hasFinish sid2 := by
    intro sid2
    rw [hne, hasFinish_deliver_nonfinish n2 sid Ev.play rfl sid2]
    exact hasFinish_congr m n2 hn2tr sid2
  have htr_self : sid ∉ m.off → n.soundTrace sid = m.soundTrace sid ++ [Ev.play] := by
    intro ho
    rw [hne, soundTrace_deliver_self n2 sid Ev.play (by rw [hn2off]; exact ho)]
    rw [soundTrace_congr m n2 hn2tr sid]
  have htr_self_off : sid ∈ m.off → n.soundTrace sid = m.soundTrace sid := by
    intro ho
    rw [hne, deliver_off_id n2 sid Ev.play (by rw [hn2off]; exact ho)]
    exact soundTrace_congr m n2 hn2tr sid
  have hrunsid : sid ∉ m.off → playRun (n.soundTrace sid) = true := by
    intro ho
    rw [htr_self ho]
    refine playRun_play_append _ (good_notFinish _ (hi.g sid) ?_)
    rw [← hasFinish_eq_any]
    exact (hps ho).1
  constructor
  case g =>
    intro sid2
    by_cases h : sid2 = sid
    · subst h
      by_cases ho : sid2 ∈ m.off
      · rw [htr_self_off ho]
        exact hi.g sid2
      · exact goodTrace_playRun _ (hrunsid ho)
    · rw [htr_ne sid2 h]
      exact hi.g sid2
  case uq => rw [hkn]; exact hi.uq
  case ab =>
    intro aid asl sid2 h1 h2 h3 h4
    rw [han, hact] at h1
    injection h1 with h1
    subst h1
    rw [hgetn, if_pos rfl] at h2
    rcases hold : assocGet m.store slotRef with _ | v
    · rw [hold] at h2
      exact Option.noConfusion h2
    · rw [hold, Option.map_some'] at h2
      injection h2 with h2
      rw [← h2, hsound] at h3
      injection h3 with h3
      subst h3
      rw [hoffn] at h4
      exact hrunsid h4
  case fb =>
    intro fid fsl sid2 h1 h2 h3 h4
    rw [hfn] at h1
    have hne2 : fid ≠ slotRef := fun hh => hi.rd2 slotRef fid hact h1 hh.symm
    rw [hgetn, if_neg hne2] at h2
    rw [hoffn] at h4
    rw [hhf_all]
    exact hi.fb fid fsl sid2 h1 h2 h3 h4
  case pb =>
    intro pid psl h1 h2
    rw [hpn] at h1
    have hne2 : pid ≠ slotRef := fun hh => hi.rd slotRef pid hact h1 hh.symm
    rw [hgetn, if_neg hne2] at h2
    exact hi.pb pid psl h1 h2
  case ob =>
    intro k sl h1 h2
    by_cases hk2 : k = slotRef
    · subst hk2
      left
      rw [han]
      exact hact
    · rw [hgetn, if_neg hk2] at h1
      rcases hi.ob k sl h1 h2 with h | h
      · left; rw [han]; exact h
      · right; rw [hfn]; exact h
  case ps =>
    intro k hkm sid2 hsid hoff2
    rw [hkn] at hkm
    have h1 := hnp k hkm
    rw [startSid_some_playish k sid2 hsid] at h1
    exact absurd h1 (by simp)
  case rs =>
    intro sid2 h1 h2
    rw [hkn] at h1
    exact absurd (hnp _ h1) (by simp [Kont.playish])
  case ref =>
    intro sid2 r h1
    rw [hkn] at h1
    exact absurd (hnp _ h1) (by simp [Kont.playish])
  case refu =>
    intro sid2 r sl h1 h2
    rw [hkn] at h1
    exact absurd (hnp _ h1) (by simp [Kont.playish])
  case rd => intro a p h1 h2; rw [han] at h1; rw [hpn] at h2; exact hi.rd a p h1 h2
  case rd2 => intro a f h1 h2; rw [han] at h1; rw [hfn] at h2; exact hi.rd2 a f h1 h2
  case rd3 => intro f p h1 h2; rw [hfn] at h1; rw [hpn] at h2; exact hi.rd3 f p h1 h2
  case kl =>
    intro pr h
    rw [hstn] at h
    rw [hnn]
    rcases mem_assocSet m.store slotRef me2 pr h with h1 | h1
    · exact hi.kl pr h1
    · rw [h1]
      exact hi.rla slotRef hact
  case rla => intro a h1; rw [han] at h1; rw [hnn]; exact hi.rla a h1
  case rlf => intro f h1; rw [hfn] at h1; rw [hnn]; exact hi.rlf f h1
  case rlp => intro p h1; rw [hpn] at h1; rw [hnn]; exact hi.rlp p h1
  case z =>
    intro h
    rw [han, hact] at h
    exact absurd h (by simp)

end FeedSpeaker

namespace FeedSpeaker

theorem bindPlay_pause_run {m : Machine} (slotRef sid : Nat) (me2 : Slot)
    (snds : List (Nat × Sound))
    (hps : sid ∉ m.off → m.hasFinish sid = false)
    (hg : goodTrace (m.soundTrace sid) = true) (e : Ev) (he : e.isFinish = false) :
    sid ∉ ((({ m with sounds := snds } : Machine).setSlot slotRef me2).deliver sid Ev.play).off →
    playRun (((({ m with sounds := snds } : Machine).setSlot slotRef me2).deliver
      sid Ev.play).soundTrace sid ++ [e]) = true := by
  intro ho
  have hn2tr : (({ m with sounds := snds } : Machine).setSlot slotRef me2).trace = m.trace := by
    rw [setSlot_trace]
  have hn2off : (({ m with sounds := snds } : Machine).setSlot slotRef me2).off = m.off := by
    rw [setSlot_off]
  rw [deliver_off, hn2off] at ho
  rw [soundTrace_deliver_self _ sid Ev.play (by rw [hn2off]; exact ho)]
  rw [soundTrace_congr m _ hn2tr sid]
  refine playRun_append _ e (playRun_play_append _ (good_notFinish _ hg ?_)) he
  rw [← hasFinish_eq_any]
  exact hps ho

theorem Inv_playKResolve {m : Machine} (sid slotRef : Nat) (ok : Bool)
    (hnp : ∀ k, k ∈ m.konts → Kont.playish k = false)
    (hps : sid ∉ m.off → m.hasFinish sid = false ∧ notBound m sid)
    (hact : m.activeId = some slotRef)
    (hi : Inv m) : Inv (m.playKResolve sid slotRef ok) := by
  rw [Machine.playKResolve]
  split
  next => exact hi
  next s hs =>
    split
    next hok =>
      split
      next hreg =>
        split
        next => exact hi
        next me hme =>
          simp only []
          by_cases hjt : jsTruthy s.startPosition
          · simp only [if_pos hjt]
            split
            next =>
              exact Inv_updSlot (fun sl => rfl)
                (Inv_bindPlay slotRef sid _ _ hact rfl hnp hps hi)
            next =>
              split
              next =>
                exact Inv_deliver_run sid Ev.pause rfl
                  (bindPlay_pause_run slotRef sid _ _ (fun ho => (hps ho).1)
                    (hi.g sid) Ev.pause rfl)
                  (Inv_bindPlay slotRef sid _ _ hact rfl hnp hps hi)
              next =>
                exact Inv_bindPlay slotRef sid _ _ hact rfl hnp hps hi
          · simp only [if_neg hjt]
            split
            next =>
              exact Inv_updSlot (fun sl => rfl)
                (Inv_bindPlay slotRef sid _ _ hact rfl hnp hps hi)
            next =>
              split
              next =>
                exact Inv_deliver_run sid Ev.pause rfl
                  (bindPlay_pause_run slotRef sid _ _ (fun ho => (hps ho).1)
                    (hi.g sid) Ev.pause rfl)
                  (Inv_bindPlay slotRef sid _ _ hact rfl hnp hps hi)
              next =>
                exact Inv_bindPlay slotRef sid _ _ hact rfl hnp hps hi
      next hreg =>
        split
        next => exact hi
        next me hme =>
          split
          · exact Inv_setSlot hi hme rfl
          · exact hi
    next hok =>
      refine Inv_deliver_finish sid true ?_ ?_ ?_ ?_ hi
      · intro ho aid asl h1 h2
        exact (hps ho).2 aid asl h2
      · intro ho k hkm hss
        have h1 := hnp k hkm
        rw [startSid_some_playish k sid hss] at h1
        exact absurd h1 (by simp)
      · intro ho sid2 hmem
        exact absurd (hnp _ hmem) (by simp [Kont.playish])
      · intro ho
        exact (hps ho).1

end FeedSpeaker

namespace FeedSpeaker

theorem Inv_updSlot_none {m : Machine} {k0 : Nat} {f : Slot → Slot}
    (hf : ∀ sl, (f sl).sound = none) (hi : Inv m) : Inv (m.updSlot k0 f) := by
  rw [Machine.updSlot]
  split
  next sl heq => exact Inv_setSlot_none hi heq (hf sl)
  next => exact hi

theorem Inv_resumeKResolve {m : Machine} (sid : Nat) (ok : Bool)
    (hnp : ∀ k, k ∈ m.konts → Kont.playish k = false)
    (hrs : sid ∉ m.off → m.hasFinish sid = false)
    (hi : Inv m) : Inv (m.resumeKResolve sid ok) := by
  rw [Machine.resumeKResolve]
  split
  next hok =>
    refine Inv_deliver_run sid Ev.play rfl ?_ hi
    intro ho
    refine playRun_play_append _ (good_notFinish _ (hi.g sid) ?_)
    rw [← hasFinish_eq_any]
    exact hrs ho
  next hok =>
    simp only []
    split
    next aid hA =>
      have hup := updSlot_get m aid (fun sl => { sl with sound := none })
      have hur := updSlot_roles m aid (fun sl => { sl with sound := none })
      have him1 : Inv (m.updSlot aid (fun sl => { sl with sound := none })) :=
        Inv_updSlot_none (fun sl => rfl) hi
      refine Inv_deliver_finish sid false ?_ ?_ ?_ ?_ him1
      · intro ho aid2 asl2 h1 h2
        rw [hur.1, hA] at h1
        injection h1 with h1
        subst h1
        rw [hup, if_pos rfl] at h2
        rcases hx : assocGet m.store aid with _ | q
        · rw [hx] at h2
          exact Option.noConfusion h2
        · rw [hx, Option.map_some'] at h2
          injection h2 with h2
          rw [← h2]
          simp
      · intro ho k hkm hss
        rw [updSlot_konts] at hkm
        have h1 := hnp k hkm
        rw [startSid_some_playish k sid hss] at h1
        exact absurd h1 (by simp)
      · intro ho sid2 hmem
        rw [updSlot_konts] at hmem
        exact absurd (hnp _ hmem) (by simp [Kont.playish])
      · intro ho
        rw [hasFinish_congr m _ (updSlot_trace m aid _) sid]
        rw [updSlot_off] at ho
        exact hrs ho
    next hA =>
      refine Inv_deliver_finish sid false ?_ ?_ ?_ ?_ hi
      · intro ho aid2 asl2 h1 h2
        rw [hA] at h1
        exact Option.noConfusion h1
      · intro ho k hkm hss
        have h1 := hnp k hkm
        rw [startSid_some_playish k sid hss] at h1
        exact absurd h1 (by simp)
      · intro ho sid2 hmem
        exact absurd (hnp _ hmem) (by simp [Kont.playish])
      · intro ho
        exact hrs ho

theorem Inv_fadeResumeKResolve {m : Machine} (ok : Bool) (hi : Inv m) :
    Inv (m.fadeResumeKResolve ok) := by
  rw [Machine.fadeResumeKResolve]
  split
  next => exact hi
  next =>
    split
    next fid hF => exact Inv_updSlot_none (fun sl => rfl) hi
    next => exact hi

end FeedSpeaker

namespace FeedSpeaker

theorem Inv_resolveKont {m : Machine} (P : ℚ → ℚ) (dur : String → ℚ)
    (i : Nat) (ok : Bool) (hi : Inv m) : Inv (m.resolveKont P dur i ok) := by
  rw [Machine.resolveKont]
  split
  next => exact hi
  next k hk =>
    simp only []
    have hkmem : k ∈ m.konts := List.get?_mem hk
    have hza : ∃ a, m.activeId = some a := by
      rcases hA : m.activeId with _ | a
      · exfalso
        have h2 := (hi.z hA).2.1
        rw [h2] at hkmem
        exact absurd hkmem (List.not_mem_nil k)
      · exact ⟨a, rfl⟩
    set m1 : Machine := { m with konts := m.konts.eraseIdx i } with hm1e
    have him1 : Inv m1 := Inv_eraseKont i hi
    split
    next url x asm =>
      split
      next hok =>
        refine Inv_prepResolve P dur url asm ?_ ?_ ?_ him1
        · intro sid2 hasgn
          subst hasgn
          exact noPlayish_erase i _ hk rfl hi
        · intro sid2 hasgn ho
          subst hasgn
          exact hi.ps _ hkmem sid2 rfl ho
        · exact hza
      next => exact him1
    next sid slotRef =>
      refine Inv_playKResolve sid slotRef ok ?_ ?_ ?_ him1
      · exact noPlayish_erase i _ hk rfl hi
      · intro ho
        exact hi.ps _ hkmem sid rfl ho
      · exact hi.ref sid slotRef hkmem
    next sid =>
      refine Inv_resumeKResolve sid ok ?_ ?_ him1
      · exact noPlayish_erase i _ hk rfl hi
      · intro ho
        exact hi.rs sid hkmem ho
    next fsid =>
      exact Inv_fadeResumeKResolve ok him1

end FeedSpeaker

namespace FeedSpeaker

theorem Inv_init : Inv Machine.init := by
  constructor
  case g => intro sid; rfl
  case uq => decide
  case ab => intro aid asl sid h1 h2 h3 h4; exact Option.noConfusion h1
  case fb => intro fid fsl sid h1 h2 h3 h4; exact Option.noConfusion h1
  case pb => intro pid psl h1 h2; exact Option.noConfusion h1
  case ob => intro k sl h1 h2; exact Option.noConfusion h1
  case ps => intro k hkm sid hsid hoff; exact absurd hkm (List.not_mem_nil k)
  case rs => intro sid h1 h2; exact absurd h1 (List.not_mem_nil _)
  case ref => intro sid r h1; exact absurd h1 (List.not_mem_nil _)
  case refu => intro sid r sl h1 h2; exact absurd h1 (List.not_mem_nil _)
  case rd => intro a p h1 h2; exact Option.noConfusion h1
  case rd2 => intro a f h1 h2; exact Option.noConfusion h1
  case rd3 => intro f p h1 h2; exact Option.noConfusion h1
  case kl => intro pr h; exact absurd h (List.not_mem_nil pr)
  case rla => intro a h1; exact Option.noConfusion h1
  case rlf => intro f h1; exact Option.noConfusion h1
  case rlp => intro p h1; exact Option.noConfusion h1
  case z => intro h; exact ⟨rfl, rfl, rfl, rfl⟩

theorem Inv_step {m : Machine} (P : ℚ → ℚ) (dur : String → ℚ) (op : Op)
    (hadm : admissibleOp m op = true) (hi : Inv m) : Inv (m.step P dur op) := by
  cases op with
  | create url options => exact Inv_create url options hi
  | initResolve => exact Inv_initResolve dur hi
  | playCall sid =>
    simp only [admissibleOp, Bool.and_eq_true, Bool.not_eq_true'] at hadm
    obtain ⟨hp, hf⟩ := hadm
    exact Inv_playCall P sid (noPlayish m hp) hf hi
  | resolveKont i ok => exact Inv_resolveKont P dur i ok hi
  | tick slotId t =>
    simp only [admissibleOp, Bool.not_eq_true'] at hadm
    exact Inv_tick P slotId t hadm hi
  | pauseEvent slotId => exact Inv_pauseEvent slotId hi
  | closedEvent slotId =>
    simp only [admissibleOp, Bool.not_eq_true'] at hadm
    exact Inv_closedEvent slotId hadm hi
  | pauseCall sid => exact Inv_pauseCall sid hi
  | destroyCall sid => exact Inv_destroyCall sid hi
  | flushCall => exact Inv_flushCall hi
  | setVolumeCall v => exact Inv_setVolumeCall P v hi

theorem Inv_run (P : ℚ → ℚ) (dur : String → ℚ) :
    ∀ (ops : List Op) (m : Machine), Inv m → admissibleRun P dur m ops = true →
      Inv (ops.foldl (Machine.step P dur) m) := by
  intro ops
  induction ops with
  | nil => intro m hi _; exact hi
  | cons op rest ih =>
    intro m hi hadm
    rw [admissibleRun, Bool.and_eq_true] at hadm
    obtain ⟨h1, h2⟩ := hadm
    rw [List.foldl_cons]
    exact ih (m.step P dur op) (Inv_step P dur op h1 hi) h2

end FeedSpeaker

namespace FeedSpeaker

/-- Claim C5 (corrected): the claimed event order does not hold
unconditionally — replaying a sound that has already finished, which the
public API permits, delivers play again after finish (see
C5_counterexample).  It does hold under the scheduling discipline
admissibleOp (no play call while an earlier start or resume call is
unresolved or after the sound has already received finish, and no position
updates or close events while a resume call is unresolved): after any
admissible run from the freshly loaded Speaker, every Sound's delivered
event sequence is empty, an unfinished run play (play|pause|elapse)*, such
a run closed by a single finish, or a lone failure finish with no preceding
play; finish is terminal (every event but the last is a non-finish); and
once destroy has unsubscribed the sound, no continuation of the run ever
changes its delivered sequence. -/
theorem C5_event_order (P : ℚ → ℚ) (dur : String → ℚ) (ops : List Op) (sid : Nat)
    (hadm : admissibleRun P dur Machine.init ops = true) :
    goodTrace ((runOps P dur ops).soundTrace sid) = true ∧
    finishTerminal ((runOps P dur ops).soundTrace sid) = true ∧
    ∀ ops2 : List Op, sid ∈ (runOps P dur ops).off →
      (runOps P dur (ops ++ ops2)).soundTrace sid = (runOps P dur ops).soundTrace sid := by
  have hinv : Inv (runOps P dur ops) := by
    rw [runOps]
    exact Inv_run P dur ops Machine.init Inv_init hadm
  refine ⟨hinv.g sid, good_finishTerminal _ (hinv.g sid), ?_⟩
  intro ops2 hoff
  have h2 : runOps P dur (ops ++ ops2) =
      ops2.foldl (Machine.step P dur) (runOps P dur ops) := by
    rw [runOps, runOps, List.foldl_append]
  rw [h2]
  exact (foldl_step_ot P dur ops2 (runOps P dur ops) sid hoff).2

/-- Witness for C5: the replay scenario up to and including the rotation
tick is an admissible run; after it sound 0's delivered sequence is the
completed run play, finish — well formed with a terminal finish. -/
theorem C5_witness :
    admissibleRun envP envDur Machine.init
      [Op.initResolve, Op.create "A" { fadeOutSeconds := some 3 },
       Op.resolveKont 0 true, Op.playCall 0, Op.resolveKont 0 true,
       Op.tick 3 7] = true ∧
    goodTrace ((runOps envP envDur
      [Op.initResolve, Op.create "A" { fadeOutSeconds := some 3 },
       Op.resolveKont 0 true, Op.playCall 0, Op.resolveKont 0 true,
       Op.tick 3 7]).soundTrace 0) = true ∧
    finishTerminal ((runOps envP envDur
      [Op.initResolve, Op.create "A" { fadeOutSeconds := some 3 },
       Op.resolveKont 0 true, Op.playCall 0, Op.resolveKont 0 true,
       Op.tick 3 7]).soundTrace 0) = true := by
  have h : admissibleRun envP envDur Machine.init
      [Op.initResolve, Op.create "A" { fadeOutSeconds := some 3 },
       Op.resolveKont 0 true, Op.playCall 0, Op.resolveKont 0 true,
       Op.tick 3 7] = true := by
    simp only [admissibleRun, c5step1, c5step2, c5step3, c5step4, c5step5]
    decide
  have h2 := C5_event_order envP envDur
    [Op.initResolve, Op.create "A" { fadeOutSeconds := some 3 },
     Op.resolveKont 0 true, Op.playCall 0, Op.resolveKont 0 true,
     Op.tick 3 7] 0 h
  exact ⟨h, h2.1, h2.2.1⟩

end FeedSpeaker
